import Mathlib

/-!
# Photo-Watermark-2: a shallow embedding of the core classes

The development follows the C++ sources file by file:

* `Watermark.h` / `Watermark.cpp`: the value object `Watermark` and its setters;
* `FileHandler.cpp`: output naming, the output-safety check and the export routines;
* `ImageProcessor.cpp`: the raster surface, the preview, the text placement and the
  batch pipeline;
* `TemplateManager.cpp`: template names, the template file and the in-memory map.

Conventions of the embedding.

* `std::string` is a list of characters (`Str`), one `Char` per byte.
* `int` is `Int`; the only place where the range of `int` is visible (the
  collision counter of the export loop) carries its bound explicitly.
* `float` is a rational number (`ℚ`): the finite values, without NaN and the
  infinities.  The text placement of `drawTextWatermark` is computed with the rounding
  of binary32 (`roundBinary32`); the other `float` operations are taken exactly, and
  every concrete evaluation of them below is made at values which binary32 represents
  and computes without rounding (such as `0.5` and `0.5 * 255 = 127.5`).
* Calls into Windows, GDI+ and `std::filesystem` are answered by a `Platform`
  record of oracles over an abstract world `W`; `demoPlatform` is a small
  concrete world used to run the code on examples.  The record also answers the
  one construct of the sources whose behaviour C++ leaves undefined, the wide
  strings that `drawTextWatermark` builds from two temporaries.  The template manager's calls
  (files, clock, stream formatting of `float`) are answered by a `TemplateEnv`
  record in the same way, with `demoTemplateEnv` as its concrete instance.
-/

set_option autoImplicit false

/-! ## Strings -/

/-- A `std::string`. -/
abbrev Str := List Char

/-- Models `static_cast<int>(f)` for a `float` inside the range of `int`: truncation toward zero. -/
def truncToInt (q : ℚ) : Int := q.num.tdiv q.den

/-- Mathematical rounding to the nearest integer, halves away from zero (C `round`).
Used only on the specification side. -/
def roundHalfAway (q : ℚ) : Int :=
  if 0 ≤ q then Int.floor (q + 1 / 2) else - Int.floor (-q + 1 / 2)

/-- Mathematical clamp of `x` to the interval `[lo, hi]`; specification side only. -/
def clampQ (x lo hi : ℚ) : ℚ := if x < lo then lo else if hi < x then hi else x

/-! ## Arithmetic in binary32 -/

/-- Rounding of a rational number to the nearest integer, a tie going to the even
integer. -/
def roundHalfEven (q : ℚ) : Int :=
  let f := Int.floor q
  if q - f < 1 / 2 then f
  else if 1 / 2 < q - f then f + 1
  else if f % 2 = 0 then f else f + 1

/-- The binary exponent at which binary32 holds a value of magnitude `|q|`: the `e` with
`2^e ≤ |q| < 2^(e+1)`, and `-126` for the smaller magnitudes (subnormal numbers). -/
def binary32Exponent (q : ℚ) : Int := max (Int.log 2 |q|) (-126)

/-- The result of a `float` operation whose exact result is `q`: the nearest number with
24 significant bits at the exponent of `q`, a tie going to the even significand.  This
is also `static_cast<float>(n)` for an `int` `n`.  Results whose magnitude reaches 2^128,
which binary32 turns into an infinity, are outside the model. -/
def roundBinary32 (q : ℚ) : ℚ :=
  (roundHalfEven (q / (2 : ℚ) ^ (binary32Exponent q - 23)) : ℚ) *
    (2 : ℚ) ^ (binary32Exponent q - 23)

/-! ## Watermark.h / Watermark.cpp -/

/-- The `struct Color`. -/
structure Color where
  r : Int
  g : Int
  b : Int
  a : Int
deriving DecidableEq, Repr

/-- The `class Watermark`: the private data members, in declaration order. -/
structure Watermark where
  text : Str
  fontName : Str
  fontSize : Int
  isBold : Bool
  isItalic : Bool
  color : Color
  opacity : ℚ
  positionX : Int
  positionY : Int
  rotationAngle : ℚ
deriving DecidableEq

/-- Models `Watermark::Watermark()`. -/
def Watermark.ctor : Watermark :=
  { text := "Sample Watermark".toList
    fontName := "Arial".toList
    fontSize := 24
    isBold := false
    isItalic := false
    color := ⟨0, 0, 0, 128⟩
    opacity := 1 / 2
    positionX := 0
    positionY := 0
    rotationAngle := 0 }

/-- The ten-argument constructor `Watermark::Watermark(txt, font, size, ...)`. -/
def Watermark.ctor10 (txt font : Str) (size : Int) (bold italic : Bool) (col : Color)
    (opac : ℚ) (posX posY : Int) (rotAngle : ℚ) : Watermark :=
  { text := txt
    fontName := font
    fontSize := size
    isBold := bold
    isItalic := italic
    color := col
    opacity := opac
    positionX := posX
    positionY := posY
    rotationAngle := rotAngle }

/-- Models `Watermark::setText`. -/
def Watermark.setText (w : Watermark) (txt : Str) : Watermark := { w with text := txt }

/-- Models `Watermark::getText`. -/
def Watermark.getText (w : Watermark) : Str := w.text

/-- Models `Watermark::setFontName`. -/
def Watermark.setFontName (w : Watermark) (font : Str) : Watermark := { w with fontName := font }

/-- Models `Watermark::getFontName`. -/
def Watermark.getFontName (w : Watermark) : Str := w.fontName

/-- Models `Watermark::setFontSize`. -/
def Watermark.setFontSize (w : Watermark) (size : Int) : Watermark :=
  if size > 0 then { w with fontSize := size } else w

/-- Models `Watermark::getFontSize`. -/
def Watermark.getFontSize (w : Watermark) : Int := w.fontSize

/-- Models `Watermark::setBold`. -/
def Watermark.setBold (w : Watermark) (bold : Bool) : Watermark := { w with isBold := bold }

/-- Models `Watermark::getBold`. -/
def Watermark.getBold (w : Watermark) : Bool := w.isBold

/-- Models `Watermark::setItalic`. -/
def Watermark.setItalic (w : Watermark) (italic : Bool) : Watermark :=
  { w with isItalic := italic }

/-- Models `Watermark::getItalic`. -/
def Watermark.getItalic (w : Watermark) : Bool := w.isItalic

/-- Models `Watermark::setColor`. -/
def Watermark.setColor (w : Watermark) (col : Color) : Watermark := { w with color := col }

/-- Models `Watermark::getColor`. -/
def Watermark.getColor (w : Watermark) : Color := w.color

/-- Models `Watermark::setOpacity`: clamp, store, then refresh the alpha channel with
`static_cast<int>(opac * 255)`.  The argument ranges over the finite values; a NaN, which
passes both comparisons of the source and is stored, has no counterpart here. -/
def Watermark.setOpacity (w : Watermark) (opac : ℚ) : Watermark :=
  let opac := if opac < 0 then 0 else opac
  let opac := if opac > 1 then 1 else opac
  { w with opacity := opac, color := { w.color with a := truncToInt (opac * 255) } }

/-- Models `Watermark::getOpacity`. -/
def Watermark.getOpacity (w : Watermark) : ℚ := w.opacity

/-- Models `Watermark::setOpacityPercentage`. -/
def Watermark.setOpacityPercentage (w : Watermark) (percent : Int) : Watermark :=
  let percent := if percent < 0 then 0 else percent
  let percent := if percent > 100 then 100 else percent
  let opacity : ℚ := (percent : ℚ) / 100
  { w with opacity := opacity, color := { w.color with a := truncToInt (opacity * 255) } }

/-- Models `Watermark::getOpacityPercentage`, with the product taken exactly; the
`float` product of the source can round (0.53f * 100 is below 53). -/
def Watermark.getOpacityPercentage (w : Watermark) : Int := truncToInt (w.opacity * 100)

/-- Models `Watermark::setPosition`. -/
def Watermark.setPosition (w : Watermark) (x y : Int) : Watermark :=
  { w with positionX := x, positionY := y }

/-- Models `Watermark::getPositionX`. -/
def Watermark.getPositionX (w : Watermark) : Int := w.positionX

/-- Models `Watermark::getPositionY`. -/
def Watermark.getPositionY (w : Watermark) : Int := w.positionY

/-- Models `Watermark::setRotationAngle`. -/
def Watermark.setRotationAngle (w : Watermark) (angle : ℚ) : Watermark :=
  { w with rotationAngle := angle }

/-- Models `Watermark::getRotationAngle`. -/
def Watermark.getRotationAngle (w : Watermark) : ℚ := w.rotationAngle

/-- Models `Watermark::resetToDefault`. -/
def Watermark.resetToDefault (_w : Watermark) : Watermark :=
  { text := "Sample Watermark".toList
    fontName := "Arial".toList
    fontSize := 24
    isBold := false
    isItalic := false
    color := ⟨0, 0, 0, 128⟩
    opacity := 1 / 2
    positionX := 0
    positionY := 0
    rotationAngle := 0 }

/-- The consistency relation of the data model: `color.a = round(opacity × 255)`. -/
def Watermark.alphaConsistent (w : Watermark) : Prop :=
  w.color.a = roundHalfAway (w.opacity * 255)

/-! ## String helpers of the C and C++ runtime -/

/-- Models `s.c_str()` as read by a C routine: the bytes before the first NUL. -/
def c_str (s : Str) : Str := s.takeWhile (fun c => c != '\x00')

/-- Models `std::string::find_last_of(c)`: the index of the last occurrence of `c`;
`none` stands for `std::string::npos`. -/
def find_last_of (s : Str) (c : Char) : Option Nat :=
  match s with
  | [] => none
  | x :: xs =>
    match find_last_of xs c with
    | some i => some (i + 1)
    | none => if x = c then some 0 else none

/-- One decimal digit as a character. -/
def digitChar (d : Nat) : Char := Char.ofNat (48 + d % 10)

/-- Decimal digits of `n`, most significant first; `fuel` bounds the number of digits. -/
def decimalDigits : Nat → Nat → Str
  | 0, _ => []
  | fuel + 1, n =>
    if n < 10 then [digitChar n] else decimalDigits fuel (n / 10) ++ [digitChar n]

/-- Models `std::to_string(int)`. -/
def to_string (n : Int) : Str :=
  if n < 0 then '-' :: decimalDigits (n.natAbs + 1) n.natAbs
  else decimalDigits (n.natAbs + 1) n.natAbs

/-- Scan of `PathFindFileNameA`: `lastSlash` is the candidate start of the file name,
the second argument is the rest of the path still to be read. -/
def pathFindFileNameScan : Str → Str → Str
  | lastSlash, [] => lastSlash
  | lastSlash, c :: rest =>
    if (c == '\\' || c == '/' || c == ':') &&
        (match rest with
         | [] => false
         | d :: _ => d != '\\' && d != '/')
    then pathFindFileNameScan rest rest
    else pathFindFileNameScan lastSlash rest

/-- The shlwapi routine `PathFindFileNameA` (Windows, not part of the repository),
after its documented behaviour: the result starts after the last `\`, `/` or `:` that is
followed by a character other than `\` and `/`; without such a separator it is the whole
path.  Single-byte characters are assumed. -/
def PathFindFileNameA (lpszPath : Str) : Str := pathFindFileNameScan lpszPath lpszPath

/-- Value of a string of decimal digits. -/
def decimalValue (s : Str) : Nat := s.foldl (fun acc c => acc * 10 + (c.toNat - 48)) 0

/-- Models `std::string::find(c)`: the index of the first occurrence of `c`; `none` stands
for `std::string::npos`. -/
def find (s : Str) (c : Char) : Option Nat :=
  match s with
  | [] => none
  | x :: xs => if x = c then some 0 else (find xs c).map (fun i => i + 1)

/-- Models `std::string::find_first_not_of(set)`. -/
def find_first_not_of (s : Str) (set : Str) : Option Nat :=
  match s with
  | [] => none
  | x :: xs =>
    if set.contains x then (find_first_not_of xs set).map (fun i => i + 1) else some 0

/-- Models `std::string::find_last_not_of(set)`. -/
def find_last_not_of (s : Str) (set : Str) : Option Nat :=
  match s with
  | [] => none
  | x :: xs =>
    match find_last_not_of xs set with
    | some i => some (i + 1)
    | none => if set.contains x then none else some 0

/-- Models `s.substr(pos, len)` for `pos <= s.size()`. -/
def substr (s : Str) (pos len : Nat) : Str := (s.drop pos).take len

/-- Models `s.erase(std::remove(s.begin(), s.end(), c), s.end())`: every `c` is removed. -/
def eraseRemove (s : Str) (c : Char) : Str := s.filter (fun x => x != c)

/-- The C function `isspace` in the "C" locale. -/
def isspace (c : Char) : Bool :=
  c == ' ' || c == '\t' || c == '\n' || c == '\x0b' || c == '\x0c' || c == '\r'

/-- Models `std::stoi(s)`: leading white space, an optional sign, decimal digits; what
follows the digits is ignored.  The result `none` stands for the exceptions
`std::invalid_argument` (no digits) and `std::out_of_range` (outside `int`). -/
def stoi (s : Str) : Option Int :=
  let s := s.dropWhile isspace
  let negative := s.head? == some '-'
  let s := if s.head? == some '-' || s.head? == some '+' then s.tail else s
  let digits := s.takeWhile Char.isDigit
  if digits.isEmpty then none
  else
    let value : Int := if negative then -(decimalValue digits : Int) else (decimalValue digits : Int)
    if value < -2147483648 || value > 2147483647 then none else some value

/-- Reading a stream with `std::getline` until it fails: `line` holds the characters of
the current line read so far. -/
def getlinesFrom : Str → Str → List Str
  | line, [] => if line.isEmpty then [] else [line]
  | line, c :: rest =>
    if c = '\n' then line :: getlinesFrom [] rest else getlinesFrom (line ++ [c]) rest

/-- The lines that a `while (std::getline(file, line))` loop sees for a file content. -/
def getlines (content : Str) : List Str := getlinesFrom [] content

/-- Output of `std::setw(width) << std::setfill('0') << n` for a number already
rendered as `s`. -/
def padZero (width : Nat) (s : Str) : Str := List.replicate (width - s.length) '0' ++ s

/-- Models `::tolower` in the "C" locale: the letters `A` to `Z` become `a` to `z`, every
other character is returned as it is. -/
def tolower (c : Char) : Char := c.toLower

/-! ## ImageProcessor.h: the image formats and the raster surface -/

/-- The `enum class ImageFormat`. -/
inductive ImageFormat where
  | JPEG
  | PNG
  | BMP
  | UNKNOWN
deriving DecidableEq, Repr

/-- The `class ImageProcessor`: the private data members.  Handles are numbers, `0` is `NULL`.
The ghost field `drawn` lists the watermarks rendered into the bitmap selected in `hMemDC`
since that bitmap was created; it stands for the pixel contents. -/
structure ImageProcessor where
  hBitmap : Nat
  hMemDC : Nat
  width : Int
  height : Int
  filePath : Str
  hasAlphaChannel : Bool
  drawn : List Watermark
deriving DecidableEq

/-- What `Gdiplus::Image` reports about a decoded file. -/
structure GdiImage where
  width : Nat
  height : Nat
  pixelFormat : Nat
deriving DecidableEq, Repr

/-- One call of `Gdiplus::Bitmap::Save`: the surface whose bitmap was encoded, the
destination, the encoder's MIME type and whether the status was `Ok`. -/
structure SaveCall where
  source : ImageProcessor
  filePath : Str
  mimeType : Str
  ok : Bool
deriving DecidableEq

/-- The environment: answers of Windows, GDI+ and `std::filesystem` in a world `W`.

* `parent_path p` is `fs::path(p).parent_path()`;
* `canonical w p` is `fs::canonical(p)`, `none` when it throws;
* `fsExists w p` is `fs::exists(p)` (taken to answer without throwing);
* `create_directories w p` is `fs::create_directories(p)`: `none` when it throws,
  otherwise its result and the world it leaves;
* `imageFromFile w p` is `Gdiplus::Image::FromFile(p)`, `none` when the pointer is null
  or `GetLastStatus()` is not `Ok`;
* `createCompatibleDC`, `createCompatibleBitmap` return the new handle (`0` on failure);
* `bitmapSave w src p mime` is `Bitmap(hBitmap).Save(p, encoder of mime) == Ok`
  together with the world after the call;
* `wstringFromCopies w s` is the outcome of `std::wstring(a.begin(), b.end())` where `a`
  and `b` are two separate temporary copies of the string `s`, as `drawTextWatermark`
  writes it: the two iterators belong to different objects and C++ leaves the behaviour
  undefined.  The answer is `none` when the construction throws, otherwise the wide
  string that was built. -/
structure Platform (W : Type) where
  parent_path : Str → Str
  canonical : W → Str → Option Str
  fsExists : W → Str → Bool
  create_directories : W → Str → Option (Bool × W)
  imageFromFile : W → Str → Option GdiImage
  createCompatibleDC : W → Nat
  createCompatibleBitmap : W → Int → Int → Nat
  bitmapSave : W → ImageProcessor → Str → Str → Bool × W
  wstringFromCopies : W → Str → Option Str

/-- The state threaded through the model: the world and the log of every
`Bitmap::Save` call made so far, oldest first. -/
structure Sys (W : Type) where
  world : W
  saves : List SaveCall

/-- GDI+ constant `PixelFormat32bppARGB`. -/
def PixelFormat32bppARGB : Nat := 0x26200A

/-- GDI+ constant `PixelFormat32bppPARGB`. -/
def PixelFormat32bppPARGB : Nat := 0xE200B

/-- GDI+ constant `PixelFormat64bppARGB`. -/
def PixelFormat64bppARGB : Nat := 0x34400D

/-- GDI+ constant `PixelFormat64bppPARGB`. -/
def PixelFormat64bppPARGB : Nat := 0x1C400E

/-- Conversion of a `UINT` to `int` (two's complement wrap-around). -/
def uintToInt (n : Nat) : Int :=
  if n % 4294967296 < 2147483648 then (n % 4294967296 : Nat) else (n % 4294967296 : Nat) - 4294967296

/-- Models `ImageProcessor::ImageProcessor()`. -/
def ImageProcessor.ctor : ImageProcessor :=
  { hBitmap := 0
    hMemDC := 0
    width := 0
    height := 0
    filePath := []
    hasAlphaChannel := false
    drawn := [] }

/-- Models `ImageProcessor::isLoaded`. -/
def ImageProcessor.isLoaded (p : ImageProcessor) : Bool := p.hBitmap != 0 && p.hMemDC != 0

/-- Models `ImageProcessor::getFilePath`. -/
def ImageProcessor.getFilePath (p : ImageProcessor) : Str := p.filePath

/-- Models `ImageProcessor::releaseResources`. -/
def ImageProcessor.releaseResources (p : ImageProcessor) : ImageProcessor :=
  let p := if p.hBitmap != 0 then { p with hBitmap := 0, drawn := [] } else p
  let p := if p.hMemDC != 0 then { p with hMemDC := 0 } else p
  { p with width := 0, height := 0, filePath := [], hasAlphaChannel := false }

/-- Models `ImageProcessor::loadImage`: the success flag and the object afterwards. -/
def ImageProcessor.loadImage {W : Type} (plat : Platform W) (w : W) (p : ImageProcessor)
    (filePath : Str) : Bool × ImageProcessor :=
  let p := p.releaseResources
  let p := { p with filePath := filePath }
  match plat.imageFromFile w filePath with
  | none => (false, p)
  | some image =>
    let p := { p with width := uintToInt image.width, height := uintToInt image.height }
    let p := { p with hasAlphaChannel :=
      image.pixelFormat == PixelFormat32bppARGB || image.pixelFormat == PixelFormat32bppPARGB ||
      image.pixelFormat == PixelFormat64bppARGB || image.pixelFormat == PixelFormat64bppPARGB }
    let p := { p with hMemDC := plat.createCompatibleDC w }
    let p := { p with hBitmap := plat.createCompatibleBitmap w p.width p.height }
    if p.hBitmap == 0 || p.hMemDC == 0 then (false, p.releaseResources)
    else (true, p)

/-- Models `ImageProcessor::drawTextWatermark`, as far as the surface is concerned.  Line
340 builds the font family name as
`std::wstring(watermark.getFontName().begin(), watermark.getFontName().end())` and line 357
builds the text in the same way from `getText()`.  Both getters return by value, so each
construction takes its iterators from two different temporaries; its outcome is asked of
the platform (`wstringFromCopies`).  The result is `none` when an exception leaves the
routine.  When both constructions complete on a loaded surface the text is drawn into the
bitmap: the ghost list records the watermark with the font family name and the text that
were built. -/
def ImageProcessor.drawTextWatermark {W : Type} (plat : Platform W) (w : W)
    (p : ImageProcessor) (watermark : Watermark) : Option ImageProcessor :=
  if !p.isLoaded then some p
  else
    match plat.wstringFromCopies w watermark.getFontName with
    | none => none
    | some fontFamily =>
      match plat.wstringFromCopies w watermark.getText with
      | none => none
      | some text =>
        some { p with
          drawn := p.drawn ++ [(watermark.setFontName fontFamily).setText text] }

/-- Models `ImageProcessor::applyWatermark`: the result and the surface afterwards; `none`
when the exception of `drawTextWatermark` leaves the routine. -/
def ImageProcessor.applyWatermark {W : Type} (plat : Platform W) (w : W)
    (p : ImageProcessor) (watermark : Watermark) : Option (Bool × ImageProcessor) :=
  if !p.isLoaded then some (false, p)
  else
    match p.drawTextWatermark plat w watermark with
    | none => none
    | some drawn => some (true, drawn)

/-- Common body of `saveAsJPEG`, `saveAsPNG`, `saveAsBMP`: encode with the given MIME type. -/
def ImageProcessor.saveAs {W : Type} (plat : Platform W) (p : ImageProcessor) (mime : Str)
    (filePath : Str) (s : Sys W) : Bool × Sys W :=
  if !p.isLoaded then (false, s)
  else
    let r := plat.bitmapSave s.world p filePath mime
    (r.1, { world := r.2, saves := s.saves ++ [⟨p, filePath, mime, r.1⟩] })

/-- Models `ImageProcessor::saveAsJPEG`. -/
def ImageProcessor.saveAsJPEG {W : Type} (plat : Platform W) (p : ImageProcessor)
    (filePath : Str) (s : Sys W) : Bool × Sys W :=
  p.saveAs plat "image/jpeg".toList filePath s

/-- Models `ImageProcessor::saveAsPNG`. -/
def ImageProcessor.saveAsPNG {W : Type} (plat : Platform W) (p : ImageProcessor)
    (filePath : Str) (s : Sys W) : Bool × Sys W :=
  p.saveAs plat "image/png".toList filePath s

/-- Models `ImageProcessor::saveAsBMP`. -/
def ImageProcessor.saveAsBMP {W : Type} (plat : Platform W) (p : ImageProcessor)
    (filePath : Str) (s : Sys W) : Bool × Sys W :=
  p.saveAs plat "image/bmp".toList filePath s

/-- Models `ImageProcessor::saveImage`. -/
def ImageProcessor.saveImage {W : Type} (plat : Platform W) (p : ImageProcessor)
    (filePath : Str) (format : ImageFormat) (s : Sys W) : Bool × Sys W :=
  if !p.isLoaded then (false, s)
  else
    match format with
    | ImageFormat.JPEG => p.saveAsJPEG plat filePath s
    | ImageFormat.PNG => p.saveAsPNG plat filePath s
    | ImageFormat.BMP => p.saveAsBMP plat filePath s
    | ImageFormat.UNKNOWN => (false, s)

/-- The path block of `ImageProcessor::batchProcessImages` (between the calls of
`applyWatermark` and `saveImage`): the output path built for one input. -/
def ImageProcessor.batchOutputPath (outputFolder inputPath : Str) (outputFormat : ImageFormat) :
    Str :=
  let fileName := PathFindFileNameA (c_str inputPath)
  let outputPath := outputFolder ++ "\\".toList ++ fileName
  let extension :=
    match outputFormat with
    | ImageFormat.JPEG => ".jpg".toList
    | ImageFormat.PNG => ".png".toList
    | ImageFormat.BMP => ".bmp".toList
    | ImageFormat.UNKNOWN => ".jpg".toList
  match find_last_of outputPath '.' with
  | some dotPos => outputPath.take dotPos ++ extension
  | none => outputPath ++ extension

/-- The loop of `ImageProcessor::batchProcessImages`: the inputs still to process, the
flag `allSuccess` and the state so far.  The routine has no `try` block: an exception of
`applyWatermark` leaves the loop and the routine, which is the result `none`. -/
def ImageProcessor.batchProcessLoop {W : Type} (plat : Platform W) (outputFolder : Str)
    (watermark : Watermark) (outputFormat : ImageFormat) :
    List Str → Bool → Sys W → Option (Bool × Sys W)
  | [], allSuccess, s => some (allSuccess, s)
  | inputPath :: rest, allSuccess, s =>
    let processor := ImageProcessor.ctor
    let loaded := processor.loadImage plat s.world inputPath
    if loaded.1 then
      match loaded.2.applyWatermark plat s.world watermark with
      | none => none
      | some applied =>
        let processor := applied.2
        let outputPath := ImageProcessor.batchOutputPath outputFolder inputPath outputFormat
        let saved := processor.saveImage plat outputPath outputFormat s
        if !saved.1 then
          ImageProcessor.batchProcessLoop plat outputFolder watermark outputFormat rest false
            saved.2
        else
          ImageProcessor.batchProcessLoop plat outputFolder watermark outputFormat rest
            allSuccess saved.2
    else
      ImageProcessor.batchProcessLoop plat outputFolder watermark outputFormat rest false s

/-- Models `ImageProcessor::batchProcessImages`; `none` when an exception leaves the
routine. -/
def ImageProcessor.batchProcessImages {W : Type} (plat : Platform W) (inputPaths : List Str)
    (outputFolder : Str) (watermark : Watermark) (outputFormat : ImageFormat) (s : Sys W) :
    Option (Bool × Sys W) :=
  ImageProcessor.batchProcessLoop plat outputFolder watermark outputFormat inputPaths true s

/-! ## ImageProcessor.cpp: further operations of the raster surface -/

/-- Models `ImageProcessor::clear`. -/
def ImageProcessor.clear (p : ImageProcessor) : ImageProcessor := p.releaseResources

/-- Models `ImageProcessor::getWidth`. -/
def ImageProcessor.getWidth (p : ImageProcessor) : Int := p.width

/-- Models `ImageProcessor::getHeight`. -/
def ImageProcessor.getHeight (p : ImageProcessor) : Int := p.height

/-- Models `ImageProcessor::getHBITMAP`. -/
def ImageProcessor.getHBITMAP (p : ImageProcessor) : Nat := p.hBitmap

/-- Models `ImageProcessor::hasAlpha`. -/
def ImageProcessor.hasAlpha (p : ImageProcessor) : Bool := p.hasAlphaChannel

/-- Models `ImageProcessor::createFromHBITMAP`: the result flag and the object afterwards. -/
def ImageProcessor.createFromHBITMAP {W : Type} (plat : Platform W) (w : W) (p : ImageProcessor)
    (bitmap : Nat) (width height : Int) : Bool × ImageProcessor :=
  let p := p.releaseResources
  let p := { p with hBitmap := bitmap }
  let p := { p with width := width }
  let p := { p with height := height }
  let p := { p with hMemDC := plat.createCompatibleDC w }
  (p.hMemDC != 0, p)

/-- One call `BitBlt(hdcDest, x, y, cx, cy, hdcSrc, x1, y1, SRCCOPY)`.  The Windows routine
copies pixels one to one: the `cx` by `cy` rectangle of the source at `(x1, y1)` goes to
the rectangle of the same size at `(x, y)` of the destination. -/
structure BitBltCall where
  x : Int
  y : Int
  cx : Int
  cy : Int
  x1 : Int
  y1 : Int
deriving DecidableEq, Repr

/-- The bitmap returned by `getPreview` and what has been painted into it: the size given
to `CreateCompatibleBitmap`, the colour of the `FillRect` over the whole bitmap, and the
`BitBlt` call that copies from the surface. -/
structure PreviewBitmap where
  handle : Nat
  width : Int
  height : Int
  background : Int × Int × Int
  blit : BitBltCall
deriving DecidableEq, Repr

/-- Models `ImageProcessor::getPreview`; `none` is the result `NULL`.  The scale and the
scaled sizes are computed exactly, which agrees with the `float` arithmetic of the source
where the quotients and products are binary32 numbers (as for a 640 by 480 surface and a
320 by 300 preview); a surface of width or height 0, for which the source divides by
zero, is outside the model. -/
def ImageProcessor.getPreview {W : Type} (plat : Platform W) (w : W) (p : ImageProcessor)
    (previewWidth previewHeight : Int) : Option PreviewBitmap :=
  if !p.isLoaded then none
  else
    let hPreviewBitmap := plat.createCompatibleBitmap w previewWidth previewHeight
    let hPreviewDC := plat.createCompatibleDC w
    if hPreviewBitmap == 0 || hPreviewDC == 0 then none
    else
      let scaleX : ℚ := (previewWidth : ℚ) / (p.width : ℚ)
      let scaleY : ℚ := (previewHeight : ℚ) / (p.height : ℚ)
      let scale : ℚ := min scaleX scaleY
      let scaledWidth := truncToInt ((p.width : ℚ) * scale)
      let scaledHeight := truncToInt ((p.height : ℚ) * scale)
      let offsetX := (previewWidth - scaledWidth).tdiv 2
      let offsetY := (previewHeight - scaledHeight).tdiv 2
      some
        { handle := hPreviewBitmap
          width := previewWidth
          height := previewHeight
          background := (240, 240, 240)
          blit := ⟨offsetX, offsetY, scaledWidth, scaledHeight, 0, 0⟩ }

/-- The graphics calls by which `drawTextWatermark` places the text, for a measured text
box `textWidth` by `textHeight`: the arguments of `TranslateTransform`, the argument of
`RotateTransform` (degrees) and the point given to `DrawString`. -/
structure TextPlacement where
  translateX : ℚ
  translateY : ℚ
  rotateAngle : ℚ
  originX : ℚ
  originY : ℚ
deriving DecidableEq

/-- Lines 367 to 374 of `ImageProcessor::drawTextWatermark`, computed in binary32 as the
source does: `textRect.Width / 2` is a `float` division, the `int` position is converted
to `float`, and their sum is a `float` addition.  `textWidth` and `textHeight` are the
`float` members `Width` and `Height` of the measured rectangle. -/
def ImageProcessor.textPlacement (watermark : Watermark) (textWidth textHeight : ℚ) :
    TextPlacement :=
  { translateX :=
      roundBinary32 (roundBinary32 (watermark.getPositionX : ℚ) + roundBinary32 (textWidth / 2))
    translateY :=
      roundBinary32 (roundBinary32 (watermark.getPositionY : ℚ) + roundBinary32 (textHeight / 2))
    rotateAngle := watermark.getRotationAngle
    originX := roundBinary32 (-textWidth / 2)
    originY := roundBinary32 (-textHeight / 2) }

/-! ## FileHandler.h / FileHandler.cpp -/

/-- The `enum class ExportNamingRule`: a value of the underlying type `int`.  Only `0`, `1`
and `2` are named; any other value is an unrecognized rule. -/
structure ExportNamingRule where
  value : Int
deriving DecidableEq, Repr

/-- Models `ExportNamingRule::KEEP_ORIGINAL`. -/
def ExportNamingRule.KEEP_ORIGINAL : ExportNamingRule := ⟨0⟩

/-- Models `ExportNamingRule::ADD_PREFIX`. -/
def ExportNamingRule.ADD_PREFIX : ExportNamingRule := ⟨1⟩

/-- Models `ExportNamingRule::ADD_SUFFIX`. -/
def ExportNamingRule.ADD_SUFFIX : ExportNamingRule := ⟨2⟩

/-- The `class FileHandler`: the private data members. -/
structure FileHandler where
  customPrefix : Str
  customSuffix : Str
deriving DecidableEq, Repr

/-- Models `FileHandler::FileHandler()`. -/
def FileHandler.ctor : FileHandler :=
  { customPrefix := "wm_".toList, customSuffix := "_watermarked".toList }

/-- Models `FileHandler::setCustomPrefix`. -/
def FileHandler.setCustomPrefix (fh : FileHandler) (pre : Str) : FileHandler :=
  { fh with customPrefix := pre }

/-- Models `FileHandler::setCustomSuffix`. -/
def FileHandler.setCustomSuffix (fh : FileHandler) (suf : Str) : FileHandler :=
  { fh with customSuffix := suf }

/-- Models `FileHandler::getFileExtension(ImageFormat)`. -/
def FileHandler.getFileExtension (format : ImageFormat) : Str :=
  match format with
  | ImageFormat.JPEG => ".jpg".toList
  | ImageFormat.PNG => ".png".toList
  | ImageFormat.BMP => ".bmp".toList
  | ImageFormat.UNKNOWN => ".jpg".toList

/-- Models `FileHandler::getFileNameWithoutExtension`. -/
def FileHandler.getFileNameWithoutExtension (filePath : Str) : Str :=
  let fileName := PathFindFileNameA (c_str filePath)
  match find_last_of fileName '.' with
  | some dotPos => fileName.take dotPos
  | none => fileName

/-- Models `FileHandler::getFileExtension(const std::string&)`. -/
def FileHandler.getFileExtensionOfPath (filePath : Str) : Str :=
  let fileName := PathFindFileNameA (c_str filePath)
  match find_last_of fileName '.' with
  | some dotPos => fileName.drop dotPos
  | none => []

/-- Models `FileHandler::generateOutputFileName`. -/
def FileHandler.generateOutputFileName (fh : FileHandler) (originalFileName : Str)
    (rule : ExportNamingRule) : Str :=
  let baseName := FileHandler.getFileNameWithoutExtension originalFileName
  if rule.value = 0 then baseName
  else if rule.value = 1 then fh.customPrefix ++ baseName
  else if rule.value = 2 then baseName ++ fh.customSuffix
  else baseName

/-- Models `FileHandler::validateOutputPath`; an exception of `fs::canonical` is caught and
answered with `false`. -/
def FileHandler.validateOutputPath {W : Type} (plat : Platform W) (w : W)
    (outputPath originalPath : Str) : Bool :=
  match plat.canonical w (plat.parent_path originalPath) with
  | none => false
  | some originalFolder =>
    match plat.canonical w outputPath with
    | none => false
    | some outputFolder => originalFolder != outputFolder

/-- The `try` block that opens both export routines: make sure the output folder exists.
The flag is `false` when the routine has to return `false`. -/
def FileHandler.ensureOutputFolder {W : Type} (plat : Platform W) (w : W)
    (outputFolder : Str) : Bool × W :=
  if !plat.fsExists w outputFolder then
    match plat.create_directories w outputFolder with
    | none => (false, w)
    | some r => if !r.1 then (false, r.2) else (true, r.2)
  else (true, w)

/-- The path tried for disambiguator `counter`:
`outputFolder + "\\" + baseName + "(" + std::to_string(counter) + ")" + extension`. -/
def FileHandler.numberedPath (outputFolder baseName extension : Str) (counter : Int) : Str :=
  outputFolder ++ "\\".toList ++ (baseName ++ "(".toList ++ to_string counter ++ ")".toList) ++
    extension

/-- The loop `while (fs::exists(outputFilePath)) { ...; counter++; }` of the export
routines.  The first argument counts the values the `int` counter can still take:
`none` is the signed overflow of `counter++`. -/
def FileHandler.collisionLoop {W : Type} (plat : Platform W) (w : W)
    (outputFolder baseName extension : Str) : Nat → Int → Str → Option Str
  | 0, _, _ => none
  | room + 1, counter, outputFilePath =>
    if plat.fsExists w outputFilePath then
      FileHandler.collisionLoop plat w outputFolder baseName extension room (counter + 1)
        (FileHandler.numberedPath outputFolder baseName extension counter)
    else some outputFilePath

/-- Lines 76 to 93 of `FileHandler.cpp` (the same lines appear in `batchExportFiles`):
the output path chosen for a source file.  `2147483647` is `INT_MAX`. -/
def FileHandler.chooseOutputPath {W : Type} (plat : Platform W) (fh : FileHandler) (w : W)
    (sourcePath outputFolder : Str) (rule : ExportNamingRule) (format : ImageFormat) :
    Option Str :=
  let originalFileName := PathFindFileNameA (c_str sourcePath)
  let outputFileName := fh.generateOutputFileName originalFileName rule
  let extension := FileHandler.getFileExtension format
  let outputFilePath := outputFolder ++ "\\".toList ++ outputFileName ++ extension
  FileHandler.collisionLoop plat w outputFolder outputFileName extension 2147483647 1
    outputFilePath

/-- Models `FileHandler::exportFile`.  The result is `none` when the collision counter
overflows. -/
def FileHandler.exportFile {W : Type} (plat : Platform W) (fh : FileHandler)
    (processor : ImageProcessor) (outputFolder : Str) (rule : ExportNamingRule)
    (format : ImageFormat) (s : Sys W) : Option (Bool × Sys W) :=
  if !processor.isLoaded then some (false, s)
  else if !FileHandler.validateOutputPath plat s.world outputFolder processor.getFilePath then
    some (false, s)
  else
    let ensured := FileHandler.ensureOutputFolder plat s.world outputFolder
    if !ensured.1 then some (false, { s with world := ensured.2 })
    else
      let s := { s with world := ensured.2 }
      match fh.chooseOutputPath plat s.world processor.getFilePath outputFolder rule format with
      | none => none
      | some outputFilePath => some (processor.saveImage plat outputFilePath format s)

/-- The loop of `FileHandler::batchExportFiles` over the processors (a null pointer is
`none`), with the flag `allSuccess`. -/
def FileHandler.batchExportLoop {W : Type} (plat : Platform W) (fh : FileHandler)
    (outputFolder : Str) (rule : ExportNamingRule) (format : ImageFormat) :
    List (Option ImageProcessor) → Bool → Sys W → Option (Bool × Sys W)
  | [], allSuccess, s => some (allSuccess, s)
  | none :: rest, _, s =>
    FileHandler.batchExportLoop plat fh outputFolder rule format rest false s
  | some processor :: rest, allSuccess, s =>
    if processor.isLoaded then
      if !FileHandler.validateOutputPath plat s.world outputFolder processor.getFilePath then
        FileHandler.batchExportLoop plat fh outputFolder rule format rest false s
      else
        match fh.chooseOutputPath plat s.world processor.getFilePath outputFolder rule format with
        | none => none
        | some outputFilePath =>
          let saved := processor.saveImage plat outputFilePath format s
          if !saved.1 then
            FileHandler.batchExportLoop plat fh outputFolder rule format rest false saved.2
          else
            FileHandler.batchExportLoop plat fh outputFolder rule format rest allSuccess saved.2
    else
      FileHandler.batchExportLoop plat fh outputFolder rule format rest false s

/-- Models `FileHandler::batchExportFiles`. -/
def FileHandler.batchExportFiles {W : Type} (plat : Platform W) (fh : FileHandler)
    (processors : List (Option ImageProcessor)) (outputFolder : Str) (rule : ExportNamingRule)
    (format : ImageFormat) (s : Sys W) : Option (Bool × Sys W) :=
  let ensured := FileHandler.ensureOutputFolder plat s.world outputFolder
  if !ensured.1 then some (false, { s with world := ensured.2 })
  else
    FileHandler.batchExportLoop plat fh outputFolder rule format processors true
      { s with world := ensured.2 }

/-- Models `FileHandler::isSupportedImageFormat`. -/
def FileHandler.isSupportedImageFormat (filePath : Str) : Bool :=
  let extension := FileHandler.getFileExtensionOfPath filePath
  let extension := extension.map tolower
  extension == ".jpg".toList || extension == ".jpeg".toList ||
    extension == ".png".toList || extension == ".bmp".toList

/-- One entry delivered by `fs::recursive_directory_iterator`: `entry.path().string()` and
`entry.is_regular_file()`. -/
structure RecursiveEntry where
  path : Str
  is_regular_file : Bool
deriving DecidableEq, Repr

/-- What `importFolder` asks of its environment in a world `W`.

* `getSelectFolderPath w initialDirectory` is the folder dialog: the chosen folder, `none`
  when the dialog is cancelled;
* `fsExists w p` and `is_directory w p` are `fs::exists(p)` and `fs::is_directory(p)`;
  a call that throws is answered `false` here, as the routine then returns the empty list
  either way;
* `recursive_directory_iterator w p` lists the entries the iteration delivers before it
  ends or throws. -/
structure ImportEnv (W : Type) where
  getSelectFolderPath : W → Str → Option Str
  fsExists : W → Str → Bool
  is_directory : W → Str → Bool
  recursive_directory_iterator : W → Str → List RecursiveEntry

/-- The loop of `FileHandler::importFolder` over the entries still to come, with the
vector `filePaths` collected so far. -/
def FileHandler.importFolderLoop : List RecursiveEntry → List Str → List Str
  | [], filePaths => filePaths
  | entry :: rest, filePaths =>
    if entry.is_regular_file && FileHandler.isSupportedImageFormat entry.path then
      FileHandler.importFolderLoop rest (filePaths ++ [entry.path])
    else FileHandler.importFolderLoop rest filePaths

/-- Models `FileHandler::importFolder`. -/
def FileHandler.importFolder {W : Type} (env : ImportEnv W) (w : W) (initialDirectory : Str) :
    List Str :=
  match env.getSelectFolderPath w initialDirectory with
  | none => []
  | some folderPath =>
    if env.fsExists w folderPath && env.is_directory w folderPath then
      FileHandler.importFolderLoop (env.recursive_directory_iterator w folderPath) []
    else []

/-! ## TemplateManager.h / TemplateManager.cpp -/

/-- The fields of the Windows structure `SYSTEMTIME` that the template store prints. -/
structure SYSTEMTIME where
  wYear : Nat
  wMonth : Nat
  wDay : Nat
  wHour : Nat
  wMinute : Nat
  wSecond : Nat
deriving DecidableEq, Repr

/-- One entry of a `fs::directory_iterator`: the file name and whether the entry is a
regular file. -/
structure DirEntry where
  filename : Str
  is_regular_file : Bool
deriving DecidableEq, Repr

/-- The environment of the template store in a world `W`.

* `fsExists w p` is `fs::exists(p)` (taken to answer without throwing);
* `is_directory w p` is `fs::is_directory(p)`;
* `directory_iterator w p` lists the entries of a folder, `none` when it throws;
* `create_directories w p` is `fs::create_directories(p)`: `none` when it throws,
  otherwise its result and the world it leaves;
* `writeFile w p text` is `std::ofstream file(p)`, the characters `text` sent to the
  stream, and `file.close()`: `none` when `file.is_open()` is false;
* `readFile w p` is the character sequence an `std::ifstream` delivers for `p`, `none`
  when `file.is_open()` is false;
* `remove w p` is `fs::remove(p)`: `none` when it throws;
* `getLocalTime w` is `GetLocalTime`;
* `showFloat x` is the text of `stream << x` for a `float`;
* `stof s` is `std::stof(s)`, `none` when it throws. -/
structure TemplateEnv (W : Type) where
  fsExists : W → Str → Bool
  is_directory : W → Str → Bool
  directory_iterator : W → Str → Option (List DirEntry)
  create_directories : W → Str → Option (Bool × W)
  writeFile : W → Str → Str → Option W
  readFile : W → Str → Option Str
  remove : W → Str → Option (Bool × W)
  getLocalTime : W → SYSTEMTIME
  showFloat : ℚ → Str
  stof : Str → Option ℚ

/-- Models `templates.find(key)` on the `std::map<std::string, Watermark>`, kept as an
association list with one entry per key; `none` is `templates.end()`. -/
def mapFind (m : List (Str × Watermark)) (key : Str) : Option Watermark :=
  match m with
  | [] => none
  | e :: rest => if e.1 = key then some e.2 else mapFind rest key

/-- Models `templates[key] = value`. -/
def mapAssign (m : List (Str × Watermark)) (key : Str) (value : Watermark) :
    List (Str × Watermark) :=
  match m with
  | [] => [(key, value)]
  | e :: rest => if e.1 = key then (key, value) :: rest else e :: mapAssign rest key value

/-- Models `templates.erase(key)`. -/
def mapErase (m : List (Str × Watermark)) (key : Str) : List (Str × Watermark) :=
  m.filter (fun e => e.1 != key)

/-- The `class TemplateManager`: the private data members. -/
structure TemplateManager where
  templatesFolder : Str
  templates : List (Str × Watermark)
  defaultTemplateName : Str
deriving DecidableEq

/-- Models `TemplateManager::TemplateManager()`; `appDataPath` is the folder returned by
`SHGetFolderPathA`, `none` when that call does not return `S_OK`. -/
def TemplateManager.ctor (appDataPath : Option Str) : TemplateManager :=
  { templatesFolder :=
      match appDataPath with
      | some path => c_str path ++ "\\PhotoWatermark2\\Templates".toList
      | none => ".\\Templates".toList
    templates := []
    defaultTemplateName := "Default".toList }

/-- The constant `illegalChars` of `sanitizeTemplateName`. -/
def illegalChars : Str := "\\/:*?\"<>|".toList

/-- Models `TemplateManager::sanitizeTemplateName`. -/
def TemplateManager.sanitizeTemplateName (name : Str) : Str :=
  let sanitized := illegalChars.foldl eraseRemove name
  let start := find_first_not_of sanitized " \t".toList
  let stop := find_last_not_of sanitized " \t".toList
  match start, stop with
  | some start, some stop =>
    let sanitized := substr sanitized start (stop - start + 1)
    if sanitized.length > 50 then substr sanitized 0 50 else sanitized
  | _, _ => []

/-- Models `TemplateManager::getTemplateFilePath`. -/
def TemplateManager.getTemplateFilePath (tm : TemplateManager) (name : Str) : Str :=
  tm.templatesFolder ++ "\\".toList ++ TemplateManager.sanitizeTemplateName name ++ ".tpl".toList

/-- Models `TemplateManager::getSettingsFilePath`. -/
def TemplateManager.getSettingsFilePath (tm : TemplateManager) : Str :=
  tm.templatesFolder ++ "\\settings.ini".toList

/-- Models `TemplateManager::getCurrentDateTimeString`. -/
def TemplateManager.getCurrentDateTimeString {W : Type} (env : TemplateEnv W) (w : W) : Str :=
  let st := env.getLocalTime w
  padZero 4 (to_string st.wYear) ++ "/".toList ++
    padZero 2 (to_string st.wMonth) ++ "/".toList ++
    padZero 2 (to_string st.wDay) ++ " ".toList ++
    padZero 2 (to_string st.wHour) ++ ":".toList ++
    padZero 2 (to_string st.wMinute) ++ ":".toList ++
    padZero 2 (to_string st.wSecond)

/-- Models `TemplateManager::ensureTemplatesFolderExists`: the result and the world
afterwards. -/
def TemplateManager.ensureTemplatesFolderExists {W : Type} (env : TemplateEnv W)
    (tm : TemplateManager) (w : W) : Bool × W :=
  if !env.fsExists w tm.templatesFolder then
    match env.create_directories w tm.templatesFolder with
    | none => (false, w)
    | some r => r
  else (true, w)

/-- Models `TemplateManager::templateExists`. -/
def TemplateManager.templateExists {W : Type} (env : TemplateEnv W) (tm : TemplateManager)
    (w : W) (name : Str) : Bool :=
  match mapFind tm.templates name with
  | some _ => true
  | none => env.fsExists w (tm.getTemplateFilePath name)

/-- One line sent to the stream with `std::endl`. -/
def endl (line : Str) : Str := line ++ ['\n']

/-- Lines 91 to 95 of `saveTemplate`: the header written to the stream. -/
def TemplateManager.templateHeader (sanitizedName description timestamp : Str) : Str :=
  endl "[Template]".toList ++
  endl ("Name=".toList ++ sanitizedName) ++
  endl ("Description=".toList ++ description) ++
  endl ("LastModified=".toList ++ timestamp) ++
  endl "[".toList

/-- Lines 98 to 113 of `saveTemplate`: the watermark properties written to the stream. -/
def TemplateManager.templateBody {W : Type} (env : TemplateEnv W) (watermark : Watermark) :
    Str :=
  endl ("Text=".toList ++ watermark.getText) ++
  endl ("FontName=".toList ++ watermark.getFontName) ++
  endl ("FontSize=".toList ++ to_string watermark.getFontSize) ++
  endl ("IsBold=".toList ++ (if watermark.getBold then "true".toList else "false".toList)) ++
  endl ("IsItalic=".toList ++
    (if watermark.getItalic then "true".toList else "false".toList)) ++
  endl ("ColorR=".toList ++ to_string watermark.getColor.r) ++
  endl ("ColorG=".toList ++ to_string watermark.getColor.g) ++
  endl ("ColorB=".toList ++ to_string watermark.getColor.b) ++
  endl ("ColorA=".toList ++ to_string watermark.getColor.a) ++
  endl ("Opacity=".toList ++ env.showFloat watermark.getOpacity) ++
  endl ("PositionX=".toList ++ to_string watermark.getPositionX) ++
  endl ("PositionY=".toList ++ to_string watermark.getPositionY) ++
  endl ("RotationAngle=".toList ++ env.showFloat watermark.getRotationAngle)

/-- Everything `saveTemplate` sends to the stream (lines 91 to 116). -/
def TemplateManager.templateText {W : Type} (env : TemplateEnv W) (w : W)
    (sanitizedName description : Str) (watermark : Watermark) : Str :=
  TemplateManager.templateHeader sanitizedName description
      (TemplateManager.getCurrentDateTimeString env w) ++
    TemplateManager.templateBody env watermark ++
    endl "]".toList

/-- Models `TemplateManager::saveTemplate`: the result, the manager and the world
afterwards. -/
def TemplateManager.saveTemplate {W : Type} (env : TemplateEnv W) (tm : TemplateManager)
    (name : Str) (watermark : Watermark) (description : Str) (w : W) :
    Bool × TemplateManager × W :=
  let ensured := tm.ensureTemplatesFolderExists env w
  if !ensured.1 then (false, tm, ensured.2)
  else
    let sanitizedName := TemplateManager.sanitizeTemplateName name
    if sanitizedName.isEmpty then (false, tm, ensured.2)
    else
      let filePath := tm.getTemplateFilePath sanitizedName
      match env.writeFile ensured.2 filePath
          (TemplateManager.templateText env ensured.2 sanitizedName description watermark) with
      | none => (false, tm, ensured.2)
      | some w2 =>
        (true, { tm with templates := mapAssign tm.templates sanitizedName watermark }, w2)

/-- The chain `if (key == "Text") ... else if (key == "RotationAngle") ...` of
`loadTemplate`; `none` when `std::stoi` or `std::stof` throws. -/
def TemplateManager.applyProperty {W : Type} (env : TemplateEnv W) (watermark : Watermark)
    (key value : Str) : Option Watermark :=
  if key = "Text".toList then some (watermark.setText value)
  else if key = "FontName".toList then some (watermark.setFontName value)
  else if key = "FontSize".toList then
    (stoi value).map (fun n => watermark.setFontSize n)
  else if key = "IsBold".toList then some (watermark.setBold (value == "true".toList))
  else if key = "IsItalic".toList then some (watermark.setItalic (value == "true".toList))
  else if key = "ColorR".toList then
    (stoi value).map (fun n => watermark.setColor { watermark.getColor with r := n })
  else if key = "ColorG".toList then
    (stoi value).map (fun n => watermark.setColor { watermark.getColor with g := n })
  else if key = "ColorB".toList then
    (stoi value).map (fun n => watermark.setColor { watermark.getColor with b := n })
  else if key = "ColorA".toList then
    (stoi value).map (fun n => watermark.setColor { watermark.getColor with a := n })
  else if key = "Opacity".toList then
    (env.stof value).map (fun x => watermark.setOpacity x)
  else if key = "PositionX".toList then
    (stoi value).map (fun n => watermark.setPosition n watermark.getPositionY)
  else if key = "PositionY".toList then
    (stoi value).map (fun n => watermark.setPosition watermark.getPositionX n)
  else if key = "RotationAngle".toList then
    (env.stof value).map (fun x => watermark.setRotationAngle x)
  else some watermark

/-- The reading loop of `loadTemplate` (lines 163 to 224) over the lines still to read,
with the flag `inWatermarkSection` and the caller's watermark.  The flag of the result is
`false` when an exception left the loop; the watermark is the caller's object as the
loop left it. -/
def TemplateManager.readLoop {W : Type} (env : TemplateEnv W) :
    List Str → Bool → Watermark → Bool × Watermark
  | [], _, watermark => (true, watermark)
  | line :: rest, inWatermarkSection, watermark =>
    if line.isEmpty then TemplateManager.readLoop env rest inWatermarkSection watermark
    else if line = "[".toList then TemplateManager.readLoop env rest true watermark
    else if line = "]".toList then (true, watermark)
    else if inWatermarkSection then
      match find line '=' with
      | some equalsPos =>
        match TemplateManager.applyProperty env watermark (substr line 0 equalsPos)
            (line.drop (equalsPos + 1)) with
        | none => (false, watermark)
        | some updated => TemplateManager.readLoop env rest inWatermarkSection updated
      | none => TemplateManager.readLoop env rest inWatermarkSection watermark
    else TemplateManager.readLoop env rest inWatermarkSection watermark

/-- Models `TemplateManager::loadTemplate`: the result, the caller's watermark and the
manager afterwards. -/
def TemplateManager.loadTemplate {W : Type} (env : TemplateEnv W) (tm : TemplateManager)
    (name : Str) (watermark : Watermark) (w : W) : Bool × Watermark × TemplateManager :=
  let sanitizedName := TemplateManager.sanitizeTemplateName name
  if sanitizedName.isEmpty then (false, watermark, tm)
  else
    match mapFind tm.templates sanitizedName with
    | some stored => (true, stored, tm)
    | none =>
      let filePath := tm.getTemplateFilePath sanitizedName
      if !env.fsExists w filePath then (false, watermark, tm)
      else
        match env.readFile w filePath with
        | none => (false, watermark, tm)
        | some content =>
          let read := TemplateManager.readLoop env (getlines content) false watermark
          if read.1 then
            (true, read.2, { tm with templates := mapAssign tm.templates sanitizedName read.2 })
          else (false, read.2, tm)

/-- Models `TemplateManager::deleteTemplate`: the result, the manager and the world
afterwards. -/
def TemplateManager.deleteTemplate {W : Type} (env : TemplateEnv W) (tm : TemplateManager)
    (name : Str) (w : W) : Bool × TemplateManager × W :=
  let sanitizedName := TemplateManager.sanitizeTemplateName name
  if sanitizedName.isEmpty then (false, tm, w)
  else if sanitizedName = tm.defaultTemplateName then (false, tm, w)
  else
    let filePath := tm.getTemplateFilePath sanitizedName
    if env.fsExists w filePath then
      match env.remove w filePath with
      | none => (false, tm, w)
      | some r =>
        if !r.1 then (false, tm, r.2)
        else (true, { tm with templates := mapErase tm.templates sanitizedName }, r.2)
    else (true, { tm with templates := mapErase tm.templates sanitizedName }, w)

/-- The three lines `saveApplicationSettings` sends to the stream of `settings.ini`. -/
def TemplateManager.settingsText (tm : TemplateManager) : Str :=
  endl "[ApplicationSettings]".toList ++
  endl ("DefaultTemplate=".toList ++ tm.defaultTemplateName) ++
  endl "AutoLoadLastUsedSettings=true".toList

/-- Models `TemplateManager::autoSaveLastUsedSettings`.  The description literal is kept
as its characters. -/
def TemplateManager.autoSaveLastUsedSettings {W : Type} (env : TemplateEnv W)
    (tm : TemplateManager) (settings : Watermark) (w : W) : Bool × TemplateManager × W :=
  tm.saveTemplate env "__LastUsedSettings".toList settings "上次使用的设置".toList w

/-- Models `TemplateManager::saveApplicationSettings`: the result, the manager and the
world afterwards. -/
def TemplateManager.saveApplicationSettings {W : Type} (env : TemplateEnv W)
    (tm : TemplateManager) (lastUsedSettings : Watermark) (w : W) :
    Bool × TemplateManager × W :=
  let ensured := tm.ensureTemplatesFolderExists env w
  if !ensured.1 then (false, tm, ensured.2)
  else
    let filePath := tm.getSettingsFilePath
    match env.writeFile ensured.2 filePath tm.settingsText with
    | none => (false, tm, ensured.2)
    | some w2 =>
      let saved := tm.autoSaveLastUsedSettings env lastUsedSettings w2
      (true, saved.2.1, saved.2.2)

/-- Models `TemplateManager::setDefaultTemplate`: the manager and the world afterwards. -/
def TemplateManager.setDefaultTemplate {W : Type} (env : TemplateEnv W) (tm : TemplateManager)
    (name : Str) (w : W) : TemplateManager × W :=
  if tm.templateExists env w name then
    let tm := { tm with defaultTemplateName := name }
    let dummy := Watermark.ctor
    let saved := tm.saveApplicationSettings env dummy w
    (saved.2.1, saved.2.2)
  else (tm, w)

/-- Models `TemplateManager::getDefaultTemplate`. -/
def TemplateManager.getDefaultTemplate (tm : TemplateManager) : Str := tm.defaultTemplateName

/-- Models `TemplateManager::loadDefaultTemplate`. -/
def TemplateManager.loadDefaultTemplate {W : Type} (env : TemplateEnv W) (tm : TemplateManager)
    (watermark : Watermark) (w : W) : Bool × Watermark × TemplateManager :=
  tm.loadTemplate env tm.defaultTemplateName watermark w

/-! ## A small concrete world -/

/-- A toy file system: the folders and the files that exist, each named by the exact
path string under which the program refers to it. -/
structure DemoWorld where
  dirs : List Str
  files : List Str
deriving DecidableEq, Repr

/-- Parent folder in the toy world: the text before the last backslash. -/
def demoParent (p : Str) : Str :=
  match find_last_of p '\\' with
  | some i => p.take i
  | none => []

/-- The toy platform.  Paths are already canonical, so `canonical` succeeds exactly on
existing entries; every file decodes as a 640 x 480 image in `PixelFormat24bppRGB`;
handles are always granted; a save succeeds exactly when the target's folder exists; the
two wide-string constructions of `drawTextWatermark` complete and deliver the text. -/
def demoPlatform : Platform DemoWorld where
  parent_path := demoParent
  canonical := fun w p => if p ∈ w.dirs ∨ p ∈ w.files then some p else none
  fsExists := fun w p => decide (p ∈ w.dirs ∨ p ∈ w.files)
  create_directories := fun w p => some (true, { w with dirs := w.dirs ++ [p] })
  imageFromFile := fun w p => if p ∈ w.files then some ⟨640, 480, 0x21808⟩ else none
  createCompatibleDC := fun _ => 1
  createCompatibleBitmap := fun _ _ _ => 2
  bitmapSave := fun w _ p _ =>
    if demoParent p ∈ w.dirs then
      (true, { w with files := if p ∈ w.files then w.files else w.files ++ [p] })
    else (false, w)
  wstringFromCopies := fun _ s => some s

/-- The toy platform in which the wide-string constructions of `drawTextWatermark`
throw, as `std::wstring` does when the distance between its two iterators is not a
valid length; everything else is as in `demoPlatform`. -/
def demoPlatformThrowing : Platform DemoWorld :=
  { demoPlatform with wstringFromCopies := fun _ _ => none }

/-- The surface obtained by loading `path` in a world of the toy platform. -/
def demoLoad (w : DemoWorld) (path : Str) : ImageProcessor :=
  (ImageProcessor.ctor.loadImage demoPlatform w path).2

/-- Toy world of the collision example: the folder `C:\\out` already holds `out.png` and
`out(1).png`; the source image is `C:\\in\\out.jpg`. -/
def demoWorldCollision : DemoWorld :=
  { dirs := ["C:\\in".toList, "C:\\out".toList]
    files := ["C:\\in\\out.jpg".toList, "C:\\out\\out.png".toList,
      "C:\\out\\out(1).png".toList] }

/-- Toy world with two source folders: `C:\\a` holds `x.jpg`, `C:\\b` holds `y.jpg`. -/
def demoWorldTwoFolders : DemoWorld :=
  { dirs := ["C:\\a".toList, "C:\\b".toList]
    files := ["C:\\a\\x.jpg".toList, "C:\\b\\y.jpg".toList] }

/-- The state of the toy world `demoWorldTwoFolders` after the surface of `C:\\b\\y.jpg`
has been exported to `C:\\a` as `wm_y.png`. -/
def demoStateAfterY : Sys DemoWorld :=
  { world :=
      { dirs := ["C:\\a".toList, "C:\\b".toList]
        files := ["C:\\a\\x.jpg".toList, "C:\\b\\y.jpg".toList, "C:\\a\\wm_y.png".toList] }
    saves := [⟨demoLoad demoWorldTwoFolders "C:\\b\\y.jpg".toList, "C:\\a\\wm_y.png".toList,
      "image/png".toList, true⟩] }

/-- Toy world with an output folder whose name contains a dot: `C:\\out.dir`; the source
`C:\\in\\README` has no extension. -/
def demoWorldDottedFolder : DemoWorld :=
  { dirs := ["C:".toList, "C:\\in".toList, "C:\\out.dir".toList]
    files := ["C:\\in\\README".toList] }

/-- A toy disk for the template store: the folders that exist and the text files with
their contents, each named by its exact path string. -/
structure DemoDisk where
  dirs : List Str
  files : List (Str × Str)
deriving DecidableEq, Repr

/-- Text of `stream << x` in the toy environment, given for the values that occur in the
examples: whole numbers print as integers, one half prints as `0.5`; any other value is
shown as `?`. -/
def demoShowFloat (x : ℚ) : Str :=
  if x.den = 1 then to_string x.num
  else if x = 1 / 2 then "0.5".toList
  else "?".toList

/-- The toy counterpart of `std::stof`, given for the texts that occur in the examples:
a text that `std::stoi` reads completely as an integer, and `0.5`. -/
def demoStof (s : Str) : Option ℚ :=
  if s = "0.5".toList then some (1 / 2)
  else if s.all Char.isDigit then (stoi s).map (fun n => (n : ℚ))
  else none

/-- The toy environment of the template store.  A file can be written when its folder
exists; the clock always shows 2024/01/02 03:04:05. -/
def demoTemplateEnv : TemplateEnv DemoDisk where
  fsExists := fun w p => decide (p ∈ w.dirs) || (w.files.map Prod.fst).contains p
  is_directory := fun w p => decide (p ∈ w.dirs)
  directory_iterator := fun w p =>
    if p ∈ w.dirs then
      some (((w.files.map Prod.fst).filter (fun q => demoParent q == p)).map
        (fun q => ⟨q.drop (p.length + 1), true⟩))
    else none
  create_directories := fun w p => some (true, { w with dirs := w.dirs ++ [p] })
  writeFile := fun w p text =>
    if demoParent p ∈ w.dirs then
      some { w with files := (p, text) :: w.files.filter (fun e => e.1 != p) }
    else none
  readFile := fun w p => (w.files.find? (fun e => e.1 == p)).map Prod.snd
  remove := fun w p =>
    if (w.files.map Prod.fst).contains p then
      some (true, { w with files := w.files.filter (fun e => e.1 != p) })
    else some (false, w)
  getLocalTime := fun _ => ⟨2024, 1, 2, 3, 4, 5⟩
  showFloat := demoShowFloat
  stof := demoStof

/-- A toy disk on which the templates folder `.\Templates` exists and is empty. -/
def demoDiskEmpty : DemoDisk := { dirs := [".\\Templates".toList], files := [] }

/-- A template manager, as constructed when `SHGetFolderPathA` fails: its folder is
`.\Templates`, it holds no templates. -/
def demoManager : TemplateManager := TemplateManager.ctor none

/-- The toy disk after a manager has saved `w` under the name `Demo`. -/
def demoSavedDisk (w : Watermark) : DemoDisk :=
  (demoManager.saveTemplate demoTemplateEnv "Demo".toList w "demo".toList demoDiskEmpty).2.2

/-- A fresh manager (nothing in its map) loads the template `Demo` from the disk on
which `w` was saved, into a default watermark. -/
def demoReload (w : Watermark) : Bool × Watermark × TemplateManager :=
  demoManager.loadTemplate demoTemplateEnv "Demo".toList Watermark.ctor (demoSavedDisk w)

/-- A watermark with bold text, colour (10, 20, 30) with alpha 127, opacity 0.5,
position (5, 6) and rotation 90. -/
def demoWatermark : Watermark :=
  Watermark.ctor10 "Hello".toList "Arial".toList 30 true false ⟨10, 20, 30, 127⟩ (1 / 2) 5 6 90

/-- A toy import environment: the dialog answers `C:\pics`, which holds `photo.JPG`,
`anim.gif`, `README`, the folder `sub.png` and, inside it, `b.Png` and `c.jpeg.gif`. -/
def demoImportEnv : ImportEnv Unit where
  getSelectFolderPath := fun _ _ => some "C:\\pics".toList
  fsExists := fun _ p => p == "C:\\pics".toList
  is_directory := fun _ p => p == "C:\\pics".toList
  recursive_directory_iterator := fun _ _ =>
    [⟨"C:\\pics\\photo.JPG".toList, true⟩, ⟨"C:\\pics\\anim.gif".toList, true⟩,
      ⟨"C:\\pics\\README".toList, true⟩, ⟨"C:\\pics\\sub.png".toList, false⟩,
      ⟨"C:\\pics\\sub.png\\b.Png".toList, true⟩,
      ⟨"C:\\pics\\sub.png\\c.jpeg.gif".toList, true⟩]

/-- The manager and the toy disk after `saveTemplate("My:Logo", demoWatermark, "demo")`
and `setDefaultTemplate("My:Logo")` on a fresh manager. -/
def demoDefaultSet : TemplateManager × DemoDisk :=
  (demoManager.saveTemplate demoTemplateEnv "My:Logo".toList demoWatermark "demo".toList
      demoDiskEmpty).2.1.setDefaultTemplate demoTemplateEnv "My:Logo".toList
    (demoManager.saveTemplate demoTemplateEnv "My:Logo".toList demoWatermark "demo".toList
      demoDiskEmpty).2.2

/-- The outcome of `deleteTemplate("My:Logo")` in the state `demoDefaultSet`. -/
def demoDefaultDeleted : Bool × TemplateManager × DemoDisk :=
  demoDefaultSet.1.deleteTemplate demoTemplateEnv "My:Logo".toList demoDefaultSet.2

/-- A template name of 51 characters: 49 letters `a`, a space and the letter `b`. -/
def demoLongName : Str := List.replicate 49 'a' ++ " b".toList

/-- The state of the toy world `demoWorldTwoFolders` after the folder `C:\\new` has been
created and the surface of `C:\\a\\x.jpg` has been saved there as `x.jpg`. -/
def demoStateNewFolder : Sys DemoWorld :=
  { world :=
      { dirs := ["C:\\a".toList, "C:\\b".toList, "C:\\new".toList]
        files := ["C:\\a\\x.jpg".toList, "C:\\b\\y.jpg".toList, "C:\\new\\x.jpg".toList] }
    saves := [⟨demoLoad demoWorldTwoFolders "C:\\a\\x.jpg".toList, "C:\\new\\x.jpg".toList,
      "image/jpeg".toList, true⟩] }

/-! ## Specification-side definitions -/

/-- The nine characters that a template name must not contain: `\ / : * ? " < > |`. -/
def forbiddenNameChars : List Char := ['\\', '/', ':', '*', '?', '"', '<', '>', '|']

/-- White space of a template name: space and tab. -/
def isBlank (c : Char) : Bool := c == ' ' || c == '\t'

/-- The reference definition of name sanitization: remove every forbidden character,
trim leading and trailing white space, keep at most the first 50 characters. -/
def sanitizeReference (name : Str) : Str :=
  ((((name.filter (fun c => !forbiddenNameChars.contains c)).dropWhile isBlank).reverse.dropWhile
    isBlank).reverse).take 50

/-- What the batch pipeline is to do with one input in state `s`: load it into a fresh
surface; if that succeeds, apply the watermark and save at the item's output path.  The
flag tells whether the item loaded and saved successfully; `none` when the exception of
`drawTextWatermark` ends the item. -/
def batchItem {W : Type} (plat : Platform W) (outputFolder : Str) (watermark : Watermark)
    (outputFormat : ImageFormat) (inputPath : Str) (s : Sys W) : Option (Bool × Sys W) :=
  let loaded := ImageProcessor.ctor.loadImage plat s.world inputPath
  if loaded.1 then
    (loaded.2.applyWatermark plat s.world watermark).map
      (fun applied => applied.2.saveImage plat
        (ImageProcessor.batchOutputPath outputFolder inputPath outputFormat) outputFormat s)
  else some (false, s)

/-- Collision avoidance as the specification words it: candidate `0` is
`outputFolder\B+ext`, candidate `k` for `k >= 1` is `outputFolder\B(k)+ext`. -/
def candidatePath (outputFolder B ext : Str) (k : Nat) : Str :=
  if k = 0 then outputFolder ++ "\\".toList ++ B ++ ext
  else outputFolder ++ "\\".toList ++ B ++ "(".toList ++ to_string (k : Int) ++ ")".toList ++ ext

/-- The loaded-state relation of the data model: loaded exactly when width and height are
positive and the bitmap handle is not null. -/
def ImageProcessor.loadedInvariant (p : ImageProcessor) : Prop :=
  p.isLoaded = true ↔ (0 < p.width ∧ 0 < p.height ∧ p.hBitmap ≠ 0)

/-- States reachable from construction through `loadImage`, `createFromHBITMAP` (any
handle, any `w`, `h`) and `clear`. -/
inductive ImageProcessor.Reachable {W : Type} (plat : Platform W) : ImageProcessor → Prop
  | ctor : ImageProcessor.Reachable plat ImageProcessor.ctor
  | loadImage (p : ImageProcessor) (w : W) (path : Str) :
      ImageProcessor.Reachable plat p →
      ImageProcessor.Reachable plat (p.loadImage plat w path).2
  | createFromHBITMAP (p : ImageProcessor) (w : W) (bitmap : Nat) (width height : Int) :
      ImageProcessor.Reachable plat p →
      ImageProcessor.Reachable plat (p.createFromHBITMAP plat w bitmap width height).2
  | clear (p : ImageProcessor) :
      ImageProcessor.Reachable plat p → ImageProcessor.Reachable plat p.clear

/-- States reachable when `createFromHBITMAP` is only called with positive `w` and `h`
and only its successful calls (result `true`) are followed. -/
inductive ImageProcessor.ReachableSized {W : Type} (plat : Platform W) : ImageProcessor → Prop
  | ctor : ImageProcessor.ReachableSized plat ImageProcessor.ctor
  | loadImage (p : ImageProcessor) (w : W) (path : Str) :
      ImageProcessor.ReachableSized plat p →
      ImageProcessor.ReachableSized plat (p.loadImage plat w path).2
  | createFromHBITMAP (p : ImageProcessor) (w : W) (bitmap : Nat) (width height : Int) :
      ImageProcessor.ReachableSized plat p → 0 < width → 0 < height →
      (p.createFromHBITMAP plat w bitmap width height).1 = true →
      ImageProcessor.ReachableSized plat (p.createFromHBITMAP plat w bitmap width height).2
  | clear (p : ImageProcessor) :
      ImageProcessor.ReachableSized plat p → ImageProcessor.ReachableSized plat p.clear

/-- The rectangle of the surface that a `BitBlt` call reads: origin and size; the size is
that of the destination rectangle, as `BitBlt` does not scale. -/
def BitBltCall.sourceRect (b : BitBltCall) : Int × Int × Int × Int := (b.x1, b.y1, b.cx, b.cy)

/-- The preview shows the whole image of the surface: the rectangle read from the
surface is the full `width` by `height` image. -/
def PreviewBitmap.showsWholeImage (pv : PreviewBitmap) (p : ImageProcessor) : Prop :=
  pv.blit.sourceRect = (0, 0, p.width, p.height)

/-- The value `q` is a finite binary32 number: rounding leaves it unchanged and its
magnitude is below 2^128. -/
def isBinary32 (q : ℚ) : Prop := roundBinary32 q = q ∧ |q| < (2 : ℚ) ^ 128

/-- The affine map that the GDI+ calls of a text placement denote, as documented: with
`TranslateTransform` followed by `RotateTransform` (both prepended to the world
transform), the point `p` of the drawing plane is rotated by the angle (degrees) about
the origin and then translated.  The map is taken in exact real arithmetic; the
single-precision evaluation inside GDI+ is not modelled. -/
noncomputable def TextPlacement.toDevice (pl : TextPlacement) (p : ℝ × ℝ) : ℝ × ℝ :=
  ((pl.translateX : ℝ) +
      (p.1 * Real.cos ((pl.rotateAngle : ℝ) * Real.pi / 180) -
        p.2 * Real.sin ((pl.rotateAngle : ℝ) * Real.pi / 180)),
    (pl.translateY : ℝ) +
      (p.1 * Real.sin ((pl.rotateAngle : ℝ) * Real.pi / 180) +
        p.2 * Real.cos ((pl.rotateAngle : ℝ) * Real.pi / 180)))

/-- The setter calls that the reading loop of `loadTemplate` makes for the body written
for `saved`, in the order of the keys, on the caller's watermark `start`. -/
def TemplateManager.replay (start saved : Watermark) : Watermark :=
  let w1 := start.setText saved.getText
  let w2 := w1.setFontName saved.getFontName
  let w3 := w2.setFontSize saved.getFontSize
  let w4 := w3.setBold saved.getBold
  let w5 := w4.setItalic saved.getItalic
  let w6 := w5.setColor { w5.getColor with r := saved.getColor.r }
  let w7 := w6.setColor { w6.getColor with g := saved.getColor.g }
  let w8 := w7.setColor { w7.getColor with b := saved.getColor.b }
  let w9 := w8.setColor { w8.getColor with a := saved.getColor.a }
  let w10 := w9.setOpacity saved.getOpacity
  let w11 := w10.setPosition saved.getPositionX w10.getPositionY
  let w12 := w11.setPosition w11.getPositionX saved.getPositionY
  w12.setRotationAngle saved.getRotationAngle

/-- Every `int` member of a watermark lies in the range of a 32-bit `int`. -/
def Watermark.intsInRange (w : Watermark) : Prop :=
  (-2147483648 ≤ w.fontSize ∧ w.fontSize ≤ 2147483647) ∧
  (-2147483648 ≤ w.color.r ∧ w.color.r ≤ 2147483647) ∧
  (-2147483648 ≤ w.color.g ∧ w.color.g ≤ 2147483647) ∧
  (-2147483648 ≤ w.color.b ∧ w.color.b ≤ 2147483647) ∧
  (-2147483648 ≤ w.color.a ∧ w.color.a ≤ 2147483647) ∧
  (-2147483648 ≤ w.positionX ∧ w.positionX ≤ 2147483647) ∧
  (-2147483648 ≤ w.positionY ∧ w.positionY ≤ 2147483647)

/-- Every channel of a colour lies in the range 0 to 255. -/
def Color.inRange (c : Color) : Prop :=
  (0 ≤ c.r ∧ c.r ≤ 255) ∧ (0 ≤ c.g ∧ c.g ≤ 255) ∧ (0 ≤ c.b ∧ c.b ≤ 255) ∧
    (0 ≤ c.a ∧ c.a ≤ 255)

/-- An opacity in the interval [0, 1]. -/
def opacityInRange (x : ℚ) : Prop := 0 ≤ x ∧ x ≤ 1

/-- Watermark values obtainable through the public interface: the default constructor,
the ten-argument constructor, `resetToDefault` and the setters.  The three parameters say
which sizes, colours and opacities the ten-argument constructor is given and which
colours `setColor` is given; every other argument is arbitrary, a `float` argument
ranging over the finite values (a NaN has no counterpart here). -/
inductive Watermark.ObtainableWhere (sizeOk : Int → Prop) (colOk : Color → Prop)
    (opacOk : ℚ → Prop) : Watermark → Prop
  | ctor : Watermark.ObtainableWhere sizeOk colOk opacOk Watermark.ctor
  | ctor10 (txt font : Str) (size : Int) (bold italic : Bool) (col : Color) (opac : ℚ)
      (posX posY : Int) (rotAngle : ℚ) :
      sizeOk size → colOk col → opacOk opac →
      Watermark.ObtainableWhere sizeOk colOk opacOk
        (Watermark.ctor10 txt font size bold italic col opac posX posY rotAngle)
  | resetToDefault (w : Watermark) :
      Watermark.ObtainableWhere sizeOk colOk opacOk w →
      Watermark.ObtainableWhere sizeOk colOk opacOk w.resetToDefault
  | setText (w : Watermark) (txt : Str) :
      Watermark.ObtainableWhere sizeOk colOk opacOk w →
      Watermark.ObtainableWhere sizeOk colOk opacOk (w.setText txt)
  | setFontName (w : Watermark) (font : Str) :
      Watermark.ObtainableWhere sizeOk colOk opacOk w →
      Watermark.ObtainableWhere sizeOk colOk opacOk (w.setFontName font)
  | setFontSize (w : Watermark) (size : Int) :
      Watermark.ObtainableWhere sizeOk colOk opacOk w →
      Watermark.ObtainableWhere sizeOk colOk opacOk (w.setFontSize size)
  | setBold (w : Watermark) (bold : Bool) :
      Watermark.ObtainableWhere sizeOk colOk opacOk w →
      Watermark.ObtainableWhere sizeOk colOk opacOk (w.setBold bold)
  | setItalic (w : Watermark) (italic : Bool) :
      Watermark.ObtainableWhere sizeOk colOk opacOk w →
      Watermark.ObtainableWhere sizeOk colOk opacOk (w.setItalic italic)
  | setColor (w : Watermark) (col : Color) :
      Watermark.ObtainableWhere sizeOk colOk opacOk w → colOk col →
      Watermark.ObtainableWhere sizeOk colOk opacOk (w.setColor col)
  | setOpacity (w : Watermark) (opac : ℚ) :
      Watermark.ObtainableWhere sizeOk colOk opacOk w →
      Watermark.ObtainableWhere sizeOk colOk opacOk (w.setOpacity opac)
  | setOpacityPercentage (w : Watermark) (percent : Int) :
      Watermark.ObtainableWhere sizeOk colOk opacOk w →
      Watermark.ObtainableWhere sizeOk colOk opacOk (w.setOpacityPercentage percent)
  | setPosition (w : Watermark) (x y : Int) :
      Watermark.ObtainableWhere sizeOk colOk opacOk w →
      Watermark.ObtainableWhere sizeOk colOk opacOk (w.setPosition x y)
  | setRotationAngle (w : Watermark) (angle : ℚ) :
      Watermark.ObtainableWhere sizeOk colOk opacOk w →
      Watermark.ObtainableWhere sizeOk colOk opacOk (w.setRotationAngle angle)

/-- Watermark values obtainable through the public interface with any arguments. -/
def Watermark.Obtainable (w : Watermark) : Prop :=
  Watermark.ObtainableWhere (fun _ => True) (fun _ => True) (fun _ => True) w

/-- Two texts are equal when letter case is ignored. -/
def equalsIgnoringCase (a b : Str) : Bool := a.map Char.toLower == b.map Char.toLower

/-- The extensions of the supported image formats. -/
def supportedExtensions : List Str :=
  [".jpg".toList, ".jpeg".toList, ".png".toList, ".bmp".toList]

/-- The text from the last `.` of the file name of a path, when the file name has one. -/
def extensionText (filePath : Str) : Option Str :=
  (find_last_of (PathFindFileNameA (c_str filePath)) '.').map
    (fun dotPos => (PathFindFileNameA (c_str filePath)).drop dotPos)

/-- The text ends in a space or a tab. -/
def endsInBlank (s : Str) : Bool :=
  match s.getLast? with
  | some c => isBlank c
  | none => false

/-- The text with its trailing spaces and tabs removed. -/
def trimRight (s : Str) : Str := (s.reverse.dropWhile isBlank).reverse

/-! ## Auxiliary lemmas on the string helpers -/

theorem digitChar_toNat (d : Nat) : (digitChar d).toNat - 48 = d % 10 := by
  have h : d % 10 < 10 := Nat.mod_lt _ (by decide)
  unfold digitChar
  generalize d % 10 = r at h
  interval_cases r <;> decide

theorem decimalValue_decimalDigits (fuel n : Nat) (h : n < fuel) :
    decimalValue (decimalDigits fuel n) = n := by
  induction fuel generalizing n with
  | zero => omega
  | succ f ih =>
    unfold decimalDigits
    split
    · rename_i h10
      simp [decimalValue, digitChar_toNat, Nat.mod_eq_of_lt h10]
    · rename_i h10
      have hlt : n / 10 < f := by omega
      have := ih (n / 10) hlt
      unfold decimalValue at this ⊢
      rw [List.foldl_append, this]
      simp [digitChar_toNat]
      omega

theorem to_string_injective (a b : Int) (ha : 0 ≤ a) (hb : 0 ≤ b)
    (h : to_string a = to_string b) : a = b := by
  have ha' : ¬ a < 0 := by omega
  have hb' : ¬ b < 0 := by omega
  simp only [to_string, ha', hb', if_false] at h
  have h2 := congrArg decimalValue h
  rw [decimalValue_decimalDigits _ _ (by omega), decimalValue_decimalDigits _ _ (by omega)] at h2
  omega

theorem numberedPath_injective (outputFolder baseName extension : Str) (a b : Int)
    (ha : 0 ≤ a) (hb : 0 ≤ b)
    (h : FileHandler.numberedPath outputFolder baseName extension a
      = FileHandler.numberedPath outputFolder baseName extension b) : a = b := by
  unfold FileHandler.numberedPath at h
  simp only [List.append_assoc] at h
  have h1 := List.append_cancel_left (List.append_cancel_left (List.append_cancel_left
    (List.append_cancel_left h)))
  have h2 : to_string a = to_string b := by
    have h3 : to_string a ++ (")".toList ++ extension) = to_string b ++ (")".toList ++ extension) :=
      h1
    exact List.append_cancel_right h3
  exact to_string_injective a b ha hb h2

theorem candidatePath_succ (outputFolder B ext : Str) (k : Nat) :
    candidatePath outputFolder B ext (k + 1)
      = FileHandler.numberedPath outputFolder B ext ((k : Int) + 1) := by
  simp [candidatePath, FileHandler.numberedPath, List.append_assoc]

theorem candidatePath_injective (outputFolder B ext : Str) (i j : Nat)
    (h : candidatePath outputFolder B ext (i + 1) = candidatePath outputFolder B ext (j + 1)) :
    i = j := by
  rw [candidatePath_succ, candidatePath_succ] at h
  have := numberedPath_injective outputFolder B ext _ _ (by omega) (by omega) h
  omega

/-- Pigeonhole: when every existing path is listed in `files`, one of the candidates
`1 .. files.length + 1` does not exist. -/
theorem exists_unused_candidate (ex : Str → Bool) (outputFolder B ext : Str) (files : List Str)
    (hfiles : ∀ k, ex (candidatePath outputFolder B ext k) = true →
      candidatePath outputFolder B ext k ∈ files) :
    ∃ k, k ≤ files.length + 1 ∧ ex (candidatePath outputFolder B ext k) = false := by
  by_contra hno
  have hall : ∀ k, k ≤ files.length + 1 → ex (candidatePath outputFolder B ext k) = true := by
    intro k hk
    by_contra hk2
    exact hno ⟨k, hk, by simpa using hk2⟩
  have hnodup : ((List.range (files.length + 1)).map
      (fun i => candidatePath outputFolder B ext (i + 1))).Nodup :=
    List.Nodup.map (fun i j hij => candidatePath_injective outputFolder B ext i j hij)
      (List.nodup_range _)
  have hsub : ((List.range (files.length + 1)).map
      (fun i => candidatePath outputFolder B ext (i + 1))) ⊆ files := by
    intro p hp
    rcases List.mem_map.1 hp with ⟨i, hi, rfl⟩
    have hi2 : i < files.length + 1 := List.mem_range.1 hi
    exact hfiles (i + 1) (hall (i + 1) (by omega))
  have hlen := (List.subperm_of_subset hnodup hsub).length_le
  simp at hlen

/-- The collision loop returns the first path of its sequence that does not exist,
provided the counter has room to reach it. -/
theorem collisionLoop_eq {W : Type} (plat : Platform W) (w : W)
    (outputFolder baseName extension : Str) (k : Nat) :
    ∀ (room : Nat) (counter : Int) (first : Str), k < room →
      (∀ j, j < k → plat.fsExists w
        (if j = 0 then first
         else FileHandler.numberedPath outputFolder baseName extension (counter + ((j : Int) - 1)))
          = true) →
      plat.fsExists w
        (if k = 0 then first
         else FileHandler.numberedPath outputFolder baseName extension (counter + ((k : Int) - 1)))
          = false →
      FileHandler.collisionLoop plat w outputFolder baseName extension room counter first
        = some (if k = 0 then first
          else FileHandler.numberedPath outputFolder baseName extension
            (counter + ((k : Int) - 1))) := by
  induction k with
  | zero =>
    intro room counter first hroom _ hk
    obtain ⟨r, rfl⟩ : ∃ r, room = r + 1 := ⟨room - 1, by omega⟩
    simp only [if_true] at hk
    simp [FileHandler.collisionLoop, hk]
  | succ k ih =>
    intro room counter first hroom hbelow hk
    obtain ⟨r, rfl⟩ : ∃ r, room = r + 1 := ⟨room - 1, by omega⟩
    have h0 : plat.fsExists w first = true := by
      have := hbelow 0 (by omega)
      simpa using this
    have hstep := ih r (counter + 1)
      (FileHandler.numberedPath outputFolder baseName extension counter) (by omega)
      (by
        intro j hj
        by_cases hj0 : j = 0
        · subst hj0
          have := hbelow 1 (by omega)
          simpa using this
        · have := hbelow (j + 1) (by omega)
          have e : counter + (((j + 1 : Nat) : Int) - 1) = counter + 1 + ((j : Int) - 1) := by
            push_cast
            ring
          simp only [Nat.succ_ne_zero, if_false, e] at this
          simpa [hj0] using this)
      (by
        by_cases hk0 : k = 0
        · subst hk0
          simpa using hk
        · have e : counter + (((k + 1 : Nat) : Int) - 1) = counter + 1 + ((k : Int) - 1) := by
            push_cast
            ring
          simp only [Nat.succ_ne_zero, if_false, e] at hk
          simpa [hk0] using hk)
    simp only [FileHandler.collisionLoop, h0, if_true]
    rw [hstep]
    by_cases hk0 : k = 0
    · subst hk0
      simp
    · have e : counter + (((k + 1 : Nat) : Int) - 1) = counter + 1 + ((k : Int) - 1) := by
        push_cast
        ring
      simp [hk0, e]

/-- The path chosen by the export routines is the first unused candidate. -/
theorem chooseOutputPath_eq {W : Type} (plat : Platform W) (fh : FileHandler) (w : W)
    (sourcePath outputFolder : Str) (rule : ExportNamingRule) (format : ImageFormat) (k : Nat)
    (hk : k < 2147483647)
    (hbelow : ∀ j, j < k → plat.fsExists w (candidatePath outputFolder
      (fh.generateOutputFileName (PathFindFileNameA (c_str sourcePath)) rule)
      (FileHandler.getFileExtension format) j) = true)
    (hfree : plat.fsExists w (candidatePath outputFolder
      (fh.generateOutputFileName (PathFindFileNameA (c_str sourcePath)) rule)
      (FileHandler.getFileExtension format) k) = false) :
    fh.chooseOutputPath plat w sourcePath outputFolder rule format
      = some (candidatePath outputFolder
          (fh.generateOutputFileName (PathFindFileNameA (c_str sourcePath)) rule)
          (FileHandler.getFileExtension format) k) := by
  have hc : ∀ j : Nat, candidatePath outputFolder
      (fh.generateOutputFileName (PathFindFileNameA (c_str sourcePath)) rule)
      (FileHandler.getFileExtension format) j
      = (if j = 0 then outputFolder ++ "\\".toList ++
            fh.generateOutputFileName (PathFindFileNameA (c_str sourcePath)) rule ++
            FileHandler.getFileExtension format
         else FileHandler.numberedPath outputFolder
            (fh.generateOutputFileName (PathFindFileNameA (c_str sourcePath)) rule)
            (FileHandler.getFileExtension format) (1 + ((j : Int) - 1))) := by
    intro j
    by_cases hj : j = 0
    · simp [candidatePath, hj]
    · obtain ⟨i, rfl⟩ : ∃ i, j = i + 1 := ⟨j - 1, by omega⟩
      rw [candidatePath_succ]
      have e : (1 : Int) + (((i + 1 : Nat) : Int) - 1) = (i : Int) + 1 := by
        push_cast
        ring
      rw [if_neg hj, e]
  unfold FileHandler.chooseOutputPath
  have := collisionLoop_eq plat w outputFolder
    (fh.generateOutputFileName (PathFindFileNameA (c_str sourcePath)) rule)
    (FileHandler.getFileExtension format) k 2147483647 1
    (outputFolder ++ "\\".toList ++
      fh.generateOutputFileName (PathFindFileNameA (c_str sourcePath)) rule ++
      FileHandler.getFileExtension format) hk
    (by intro j hj; rw [← hc j]; exact hbelow j hj)
    (by rw [← hc k]; exact hfree)
  rw [hc k]
  exact this

theorem c_str_eq_self (s : Str) (h : ∀ c ∈ s, c ≠ '\x00') : c_str s = s := by
  unfold c_str
  rw [List.takeWhile_eq_self_iff]
  intro c hc
  simpa using h c hc

theorem find_last_of_eq_none (s : Str) (c : Char) (h : c ∉ s) : find_last_of s c = none := by
  induction s with
  | nil => rfl
  | cons x xs ih =>
    have hx : x ≠ c := fun e => h (by simp [e])
    have hxs : c ∉ xs := fun e => h (by simp [e])
    simp [find_last_of, ih hxs, hx]

theorem pathFindFileNameScan_no_separator (lastSlash s : Str)
    (h : ∀ c ∈ s, c ≠ '\\' ∧ c ≠ '/' ∧ c ≠ ':') :
    pathFindFileNameScan lastSlash s = lastSlash := by
  induction s with
  | nil => rfl
  | cons x xs ih =>
    have hx := h x (by simp)
    have hxs : ∀ c ∈ xs, c ≠ '\\' ∧ c ≠ '/' ∧ c ≠ ':' := fun c hc => h c (by simp [hc])
    simp [pathFindFileNameScan, hx.1, hx.2.1, hx.2.2, ih hxs]

theorem getFileNameWithoutExtension_plain (b : Str)
    (h : ∀ c ∈ b, c ≠ '.' ∧ c ≠ '\\' ∧ c ≠ '/' ∧ c ≠ ':' ∧ c ≠ '\x00') :
    FileHandler.getFileNameWithoutExtension b = b := by
  have h0 : c_str b = b := c_str_eq_self b (fun c hc => (h c hc).2.2.2.2)
  have h1 : PathFindFileNameA b = b :=
    pathFindFileNameScan_no_separator b b
      (fun c hc => ⟨(h c hc).2.1, (h c hc).2.2.1, (h c hc).2.2.2.1⟩)
  have h2 : find_last_of b '.' = none :=
    find_last_of_eq_none b '.' (fun hc => (h '.' hc).1 rfl)
  simp [FileHandler.getFileNameWithoutExtension, h0, h1, h2]

theorem truncToInt_of_nonneg (q : ℚ) (h : 0 ≤ q) : truncToInt q = Int.floor q := by
  unfold truncToInt
  rw [Rat.floor_def,
    Int.tdiv_eq_ediv (Rat.num_nonneg.mpr h) (by exact_mod_cast Nat.zero_le _)]

theorem truncToInt_half_of_255 : truncToInt ((1 : ℚ) / 2 * 255) = 127 := by
  rw [truncToInt_of_nonneg _ (by norm_num)]
  norm_num [Int.floor_eq_iff]

theorem roundHalfAway_half_of_255 : roundHalfAway ((1 : ℚ) / 2 * 255) = 128 := by
  norm_num [roundHalfAway, Int.floor_eq_iff]

/-! ## Watermark: opacity and colour alpha -/

/-- C1: at opacity 0.5 (and at 50 percent) the setters store alpha 127, the truncation of
127.5, whereas `round(clamp(x,0,1)*255)` and `round(clamp(p,0,100)/100*255)` are 128; the
default constructor itself pairs opacity 0.5 with alpha 128. -/
theorem C1_setOpacity_truncates_alpha :
    (Watermark.ctor.setOpacity (1 / 2)).getColor.a = 127 ∧
    roundHalfAway (clampQ (1 / 2) 0 1 * 255) = 128 ∧
    (Watermark.ctor.setOpacityPercentage 50).getColor.a = 127 ∧
    roundHalfAway (clampQ 50 0 100 / 100 * 255) = 128 ∧
    Watermark.ctor.getOpacity = 1 / 2 ∧ Watermark.ctor.getColor.a = 128 := by
  have e1 : (Watermark.ctor.setOpacity (1 / 2)).getColor.a
      = truncToInt ((1 : ℚ) / 2 * 255) := by
    norm_num [Watermark.setOpacity, Watermark.getColor]
  have e2 : (Watermark.ctor.setOpacityPercentage 50).getColor.a
      = truncToInt ((1 : ℚ) / 2 * 255) := by
    norm_num [Watermark.setOpacityPercentage, Watermark.getColor]
  have e3 : clampQ (1 / 2) 0 1 * 255 = (1 : ℚ) / 2 * 255 := by
    norm_num [clampQ]
  have e4 : clampQ 50 0 100 / 100 * 255 = (1 : ℚ) / 2 * 255 := by
    norm_num [clampQ]
  rw [e1, e2, e3, e4, truncToInt_half_of_255, roundHalfAway_half_of_255]
  exact ⟨rfl, rfl, rfl, rfl, rfl, rfl⟩

/-- C2: the default watermark satisfies `color.a = round(opacity × 255)` (128 for 0.5), but
after `setColor` with alpha 255 the alpha is 255 while the opacity is still 0.5, and after
`setOpacity(0.5)` the alpha is 127: the relation is lost in both cases. -/
theorem C2_setters_break_alpha_consistency :
    Watermark.ctor.alphaConsistent ∧
    (Watermark.ctor.setColor ⟨0, 0, 0, 255⟩).getColor.a = 255 ∧
    (Watermark.ctor.setColor ⟨0, 0, 0, 255⟩).getOpacity = 1 / 2 ∧
    ¬ (Watermark.ctor.setColor ⟨0, 0, 0, 255⟩).alphaConsistent ∧
    ¬ (Watermark.ctor.setOpacity (1 / 2)).alphaConsistent := by
  have hr := roundHalfAway_half_of_255
  have ht := truncToInt_half_of_255
  refine ⟨?_, rfl, rfl, ?_, ?_⟩
  · show (128 : Int) = roundHalfAway ((1 : ℚ) / 2 * 255)
    rw [hr]
  · show ¬ ((255 : Int) = roundHalfAway ((1 : ℚ) / 2 * 255))
    rw [hr]
    decide
  · have hop : (Watermark.ctor.setOpacity (1 / 2)).opacity = 1 / 2 := by
      norm_num [Watermark.setOpacity]
    have hal : (Watermark.ctor.setOpacity (1 / 2)).color.a = 127 := by
      have : (Watermark.ctor.setOpacity (1 / 2)).color.a = truncToInt ((1 : ℚ) / 2 * 255) := by
        norm_num [Watermark.setOpacity]
      rw [this, ht]
    unfold Watermark.alphaConsistent
    rw [hop, hal, hr]
    decide

/-! ## FileHandler: the naming policy -/

/-- C3, as stated, fails: given the base name `photo.v2` the routine cuts at the last dot
and returns `photo` under KEEP_ORIGINAL. -/
theorem C3_counterexample_dotted_name :
    FileHandler.ctor.generateOutputFileName "photo.v2".toList ExportNamingRule.KEEP_ORIGINAL
        = "photo".toList ∧
    FileHandler.ctor.generateOutputFileName "photo.v2".toList ExportNamingRule.KEEP_ORIGINAL
        ≠ "photo.v2".toList := by
  decide

/-- C3, amended: `generateOutputFileName` applies the rule to the base name it derives
from its argument (`getFileNameWithoutExtension`): unchanged for KEEP_ORIGINAL, prefixed
for ADD_PREFIX, suffixed for ADD_SUFFIX, unchanged for every unrecognized rule value; and
an argument without `.`, `\`, `/`, `:` and NUL is its own base name, so for such an
`originalBaseName` the results are `originalBaseName`, `prefix ++ originalBaseName`,
`originalBaseName ++ suffix` and `originalBaseName`. -/
theorem C3_naming_policy (pre suf originalBaseName : Str) (rule : ExportNamingRule)
    (hplain : ∀ c ∈ originalBaseName,
      c ≠ '.' ∧ c ≠ '\\' ∧ c ≠ '/' ∧ c ≠ ':' ∧ c ≠ '\x00') :
    (∀ (arg : Str) (r : ExportNamingRule),
      (⟨pre, suf⟩ : FileHandler).generateOutputFileName arg r =
        if r = ExportNamingRule.ADD_PREFIX then
          pre ++ FileHandler.getFileNameWithoutExtension arg
        else if r = ExportNamingRule.ADD_SUFFIX then
          FileHandler.getFileNameWithoutExtension arg ++ suf
        else FileHandler.getFileNameWithoutExtension arg) ∧
    (⟨pre, suf⟩ : FileHandler).generateOutputFileName originalBaseName
        ExportNamingRule.KEEP_ORIGINAL = originalBaseName ∧
    (⟨pre, suf⟩ : FileHandler).generateOutputFileName originalBaseName
        ExportNamingRule.ADD_PREFIX = pre ++ originalBaseName ∧
    (⟨pre, suf⟩ : FileHandler).generateOutputFileName originalBaseName
        ExportNamingRule.ADD_SUFFIX = originalBaseName ++ suf ∧
    (rule ≠ ExportNamingRule.KEEP_ORIGINAL → rule ≠ ExportNamingRule.ADD_PREFIX →
      rule ≠ ExportNamingRule.ADD_SUFFIX →
      (⟨pre, suf⟩ : FileHandler).generateOutputFileName originalBaseName rule
        = originalBaseName) := by
  have hb := getFileNameWithoutExtension_plain originalBaseName hplain
  have hval : ∀ (r : ExportNamingRule) (n : Int), r.value = n ↔ r = ⟨n⟩ := by
    intro r n
    cases r
    simp
  refine ⟨?_, ?_, ?_, ?_, ?_⟩
  · intro arg r
    rcases r with ⟨v⟩
    simp only [FileHandler.generateOutputFileName, ExportNamingRule.ADD_PREFIX,
      ExportNamingRule.ADD_SUFFIX, ExportNamingRule.mk.injEq]
    by_cases h0 : v = 0
    · subst h0; simp
    · by_cases h1 : v = 1
      · subst h1; simp
      · by_cases h2 : v = 2
        · subst h2; simp
        · simp [h0, h1, h2]
  · simp [FileHandler.generateOutputFileName, ExportNamingRule.KEEP_ORIGINAL, hb]
  · simp [FileHandler.generateOutputFileName, ExportNamingRule.ADD_PREFIX, hb]
  · simp [FileHandler.generateOutputFileName, ExportNamingRule.ADD_SUFFIX, hb]
  · intro h0 h1 h2
    have e0 : rule.value ≠ 0 := fun e => h0 ((hval rule 0).1 e)
    have e1 : rule.value ≠ 1 := fun e => h1 ((hval rule 1).1 e)
    have e2 : rule.value ≠ 2 := fun e => h2 ((hval rule 2).1 e)
    simp [FileHandler.generateOutputFileName, e0, e1, e2, hb]

/-- C3, witness: with the default prefix `wm_` and suffix `_watermarked`, `photo` yields
`photo`, `wm_photo`, `photo_watermarked`, and `photo` again for the unnamed rule value 7. -/
theorem C3_naming_policy_witness :
    FileHandler.ctor.generateOutputFileName "photo".toList ExportNamingRule.KEEP_ORIGINAL
        = "photo".toList ∧
    FileHandler.ctor.generateOutputFileName "photo".toList ExportNamingRule.ADD_PREFIX
        = "wm_photo".toList ∧
    FileHandler.ctor.generateOutputFileName "photo".toList ExportNamingRule.ADD_SUFFIX
        = "photo_watermarked".toList ∧
    FileHandler.ctor.generateOutputFileName "photo".toList ⟨7⟩ = "photo".toList := by
  have h := C3_naming_policy "wm_".toList "_watermarked".toList "photo".toList ⟨7⟩
    (by decide)
  exact ⟨h.2.1, h.2.2.1, h.2.2.2.1, h.2.2.2.2 (by decide) (by decide) (by decide)⟩

/-! ## FileHandler: collision avoidance and the output-safety check -/

/-- On a loaded surface and for JPEG, PNG or BMP, `saveImage` makes exactly one
`Bitmap::Save` call, at the given path, and returns its status. -/
theorem saveImage_loaded {W : Type} (plat : Platform W) (p : ImageProcessor) (path : Str)
    (format : ImageFormat) (s : Sys W) (hl : p.isLoaded = true)
    (hf : format ≠ ImageFormat.UNKNOWN) :
    ∃ mime : Str, p.saveImage plat path format s
      = ((plat.bitmapSave s.world p path mime).1,
          ⟨(plat.bitmapSave s.world p path mime).2,
            s.saves ++ [⟨p, path, mime, (plat.bitmapSave s.world p path mime).1⟩]⟩) := by
  cases format with
  | JPEG =>
    exact ⟨"image/jpeg".toList, by
      simp [ImageProcessor.saveImage, ImageProcessor.saveAsJPEG, ImageProcessor.saveAs, hl]⟩
  | PNG =>
    exact ⟨"image/png".toList, by
      simp [ImageProcessor.saveImage, ImageProcessor.saveAsPNG, ImageProcessor.saveAs, hl]⟩
  | BMP =>
    exact ⟨"image/bmp".toList, by
      simp [ImageProcessor.saveImage, ImageProcessor.saveAsBMP, ImageProcessor.saveAs, hl]⟩
  | UNKNOWN => exact absurd rfl hf

theorem batchExportLoop_flag {W : Type} (plat : Platform W) (fh : FileHandler)
    (outputFolder : Str) (rule : ExportNamingRule) (format : ImageFormat)
    (l : List (Option ImageProcessor)) :
    ∀ (a : Bool) (s : Sys W),
      fh.batchExportLoop plat outputFolder rule format l a s
        = (fh.batchExportLoop plat outputFolder rule format l true s).map
            (fun r => (a && r.1, r.2)) := by
  induction l with
  | nil => intro a s; simp [FileHandler.batchExportLoop]
  | cons x rest ih =>
    intro a s
    have ihf := fun s' => ih false s'
    cases x with
    | none =>
      simp only [FileHandler.batchExportLoop]
      rw [ihf s]
      simp [Option.map_map, Function.comp_def]
    | some p =>
      simp only [FileHandler.batchExportLoop]
      split
      · split
        · rw [ihf s]
          simp [Option.map_map, Function.comp_def]
        · split
          · rfl
          · split
            · rw [ihf _]
              simp [Option.map_map, Function.comp_def]
            · exact ih a _
      · rw [ihf s]
        simp [Option.map_map, Function.comp_def]

theorem batchExportLoop_append {W : Type} (plat : Platform W) (fh : FileHandler)
    (outputFolder : Str) (rule : ExportNamingRule) (format : ImageFormat)
    (pre l : List (Option ImageProcessor)) :
    ∀ (a : Bool) (s : Sys W),
      fh.batchExportLoop plat outputFolder rule format (pre ++ l) a s
        = (fh.batchExportLoop plat outputFolder rule format pre a s).bind
            (fun r => fh.batchExportLoop plat outputFolder rule format l r.1 r.2) := by
  induction pre with
  | nil => intro a s; simp [FileHandler.batchExportLoop]
  | cons x rest ih =>
    intro a s
    cases x with
    | none =>
      simp only [List.cons_append, FileHandler.batchExportLoop]
      exact ih false s
    | some p =>
      simp only [List.cons_append, FileHandler.batchExportLoop]
      split
      · split
        · exact ih false s
        · split
          · rfl
          · split
            · exact ih false _
            · exact ih a _
      · exact ih false s

/-- C4: in `exportFile`, once the surface is loaded, the safety check has passed and the
output folder exists, and when the candidate paths `outputFolder\B+ext`,
`outputFolder\B(1)+ext`, ... that exist all belong to a list `files` of fewer than
2^31 - 2 entries (such as the finite set of files present in the output folder; the bound
is the range of the `int` counter), the image is handed to `saveImage` at the first unused candidate: at
`outputFolder\B+ext` when unused (`k = 0`), otherwise at `outputFolder\B(k)+ext` for the
smallest `k >= 1` whose path is unused; the chosen path does not exist beforehand, and for
JPEG, PNG and BMP it is the destination of the one `Bitmap::Save` call that is made. -/
theorem C4_export_collision_avoidance {W : Type} (plat : Platform W) (fh : FileHandler)
    (processor : ImageProcessor) (outputFolder : Str) (rule : ExportNamingRule)
    (format : ImageFormat) (s : Sys W) (files : List Str)
    (hloaded : processor.isLoaded = true)
    (hvalid : FileHandler.validateOutputPath plat s.world outputFolder
      processor.getFilePath = true)
    (hfolder : plat.fsExists s.world outputFolder = true)
    (hfiles : ∀ k, plat.fsExists s.world (candidatePath outputFolder
        (fh.generateOutputFileName (PathFindFileNameA (c_str processor.getFilePath)) rule)
        (FileHandler.getFileExtension format) k) = true →
      candidatePath outputFolder
        (fh.generateOutputFileName (PathFindFileNameA (c_str processor.getFilePath)) rule)
        (FileHandler.getFileExtension format) k ∈ files)
    (hcount : files.length < 2147483646) :
    ∃ k : Nat,
      (∀ j, j < k → plat.fsExists s.world (candidatePath outputFolder
        (fh.generateOutputFileName (PathFindFileNameA (c_str processor.getFilePath)) rule)
        (FileHandler.getFileExtension format) j) = true) ∧
      plat.fsExists s.world (candidatePath outputFolder
        (fh.generateOutputFileName (PathFindFileNameA (c_str processor.getFilePath)) rule)
        (FileHandler.getFileExtension format) k) = false ∧
      fh.exportFile plat processor outputFolder rule format s
        = some (processor.saveImage plat (candidatePath outputFolder
            (fh.generateOutputFileName (PathFindFileNameA (c_str processor.getFilePath)) rule)
            (FileHandler.getFileExtension format) k) format s) ∧
      (format ≠ ImageFormat.UNKNOWN →
        ∃ (mime : Str) (ok : Bool) (w2 : W),
          fh.exportFile plat processor outputFolder rule format s
            = some (ok, ⟨w2, s.saves ++ [⟨processor, candidatePath outputFolder
                (fh.generateOutputFileName (PathFindFileNameA (c_str processor.getFilePath))
                  rule)
                (FileHandler.getFileExtension format) k, mime, ok⟩]⟩)) := by
  classical
  have hex := exists_unused_candidate (plat.fsExists s.world) outputFolder
    (fh.generateOutputFileName (PathFindFileNameA (c_str processor.getFilePath)) rule)
    (FileHandler.getFileExtension format) files hfiles
  have hex2 : ∃ k, plat.fsExists s.world (candidatePath outputFolder
      (fh.generateOutputFileName (PathFindFileNameA (c_str processor.getFilePath)) rule)
      (FileHandler.getFileExtension format) k) = false := by
    rcases hex with ⟨k, _, hk⟩
    exact ⟨k, hk⟩
  have hmin : ∀ j, j < Nat.find hex2 → plat.fsExists s.world (candidatePath outputFolder
      (fh.generateOutputFileName (PathFindFileNameA (c_str processor.getFilePath)) rule)
      (FileHandler.getFileExtension format) j) = true := by
    intro j hj
    have := Nat.find_min hex2 hj
    simpa using this
  have hle : Nat.find hex2 < 2147483647 := by
    rcases hex with ⟨k, hk1, hk2⟩
    have := Nat.find_min' hex2 hk2
    omega
  have hpath := chooseOutputPath_eq plat fh s.world processor.getFilePath outputFolder rule
    format (Nat.find hex2) hle hmin (Nat.find_spec hex2)
  have hrun : fh.exportFile plat processor outputFolder rule format s
      = some (processor.saveImage plat (candidatePath outputFolder
          (fh.generateOutputFileName (PathFindFileNameA (c_str processor.getFilePath)) rule)
          (FileHandler.getFileExtension format) (Nat.find hex2)) format s) := by
    simp only [FileHandler.exportFile, FileHandler.ensureOutputFolder, hloaded, hvalid,
      hfolder, Bool.not_true, Bool.false_eq_true, if_false, hpath]
  refine ⟨Nat.find hex2, hmin, Nat.find_spec hex2, hrun, ?_⟩
  intro hfmt
  rw [hrun]
  rcases saveImage_loaded plat processor (candidatePath outputFolder
      (fh.generateOutputFileName (PathFindFileNameA (c_str processor.getFilePath)) rule)
      (FileHandler.getFileExtension format) (Nat.find hex2)) format s hloaded hfmt
    with ⟨mime, hm⟩
  exact ⟨mime, _, _, by rw [hm]⟩

/-- C4, witness: with `out.png` and `out(1).png` present in `C:\out`, exporting the
surface loaded from `C:\in\out.jpg` as PNG under KEEP_ORIGINAL saves `C:\out\out(2).png`. -/
theorem C4_export_collision_avoidance_witness :
    (FileHandler.ctor.exportFile demoPlatform
        (demoLoad demoWorldCollision "C:\\in\\out.jpg".toList) "C:\\out".toList
        ExportNamingRule.KEEP_ORIGINAL ImageFormat.PNG ⟨demoWorldCollision, []⟩).map
      (fun r => (r.1, r.2.saves.map (fun call => call.filePath)))
      = some (true, ["C:\\out\\out(2).png".toList]) ∧
    ∃ k : Nat,
      (∀ j, j < k → demoPlatform.fsExists demoWorldCollision (candidatePath "C:\\out".toList
        (FileHandler.ctor.generateOutputFileName (PathFindFileNameA (c_str
          (demoLoad demoWorldCollision "C:\\in\\out.jpg".toList).getFilePath))
          ExportNamingRule.KEEP_ORIGINAL)
        (FileHandler.getFileExtension ImageFormat.PNG) j) = true) ∧
      demoPlatform.fsExists demoWorldCollision (candidatePath "C:\\out".toList
        (FileHandler.ctor.generateOutputFileName (PathFindFileNameA (c_str
          (demoLoad demoWorldCollision "C:\\in\\out.jpg".toList).getFilePath))
          ExportNamingRule.KEEP_ORIGINAL)
        (FileHandler.getFileExtension ImageFormat.PNG) k) = false := by
  refine ⟨by decide, ?_⟩
  have h := C4_export_collision_avoidance demoPlatform FileHandler.ctor
    (demoLoad demoWorldCollision "C:\\in\\out.jpg".toList) "C:\\out".toList
    ExportNamingRule.KEEP_ORIGINAL ImageFormat.PNG ⟨demoWorldCollision, []⟩
    (demoWorldCollision.dirs ++ demoWorldCollision.files)
    (by decide) (by decide) (by decide)
    (by
      intro k hk
      simpa [demoPlatform] using hk)
    (by decide)
  rcases h with ⟨k, h1, h2, _⟩
  exact ⟨k, h1, h2⟩

/-- C5: `validateOutputPath` answers `true` exactly when the parent directory of
`originalPath` and `outputPath` both canonicalize and the canonical forms differ; it
answers `false` when they are equal and when either canonicalization fails. -/
theorem C5_validateOutputPath_iff {W : Type} (plat : Platform W) (w : W)
    (outputPath originalPath : Str) :
    (FileHandler.validateOutputPath plat w outputPath originalPath = true ↔
      ∃ a b, plat.canonical w (plat.parent_path originalPath) = some a ∧
        plat.canonical w outputPath = some b ∧ a ≠ b) ∧
    (FileHandler.validateOutputPath plat w outputPath originalPath = false ↔
      plat.canonical w (plat.parent_path originalPath) = none ∨
      plat.canonical w outputPath = none ∨
      plat.canonical w (plat.parent_path originalPath) = plat.canonical w outputPath) := by
  unfold FileHandler.validateOutputPath
  cases h1 : plat.canonical w (plat.parent_path originalPath) with
  | none => simp
  | some a =>
    cases h2 : plat.canonical w outputPath with
    | none => simp
    | some b => simp

/-- C5, witness in the toy world: `C:\b` is accepted for the source `C:\a\x.jpg`, the
source's own folder `C:\a` is refused, and so is the folder `C:\c`, which does not exist. -/
theorem C5_validateOutputPath_iff_witness :
    FileHandler.validateOutputPath demoPlatform demoWorldTwoFolders "C:\\b".toList
      "C:\\a\\x.jpg".toList = true ∧
    FileHandler.validateOutputPath demoPlatform demoWorldTwoFolders "C:\\a".toList
      "C:\\a\\x.jpg".toList = false ∧
    FileHandler.validateOutputPath demoPlatform demoWorldTwoFolders "C:\\c".toList
      "C:\\a\\x.jpg".toList = false := by
  refine ⟨?_, ?_, ?_⟩
  · exact (C5_validateOutputPath_iff demoPlatform demoWorldTwoFolders "C:\\b".toList
      "C:\\a\\x.jpg".toList).1.2 ⟨"C:\\a".toList, "C:\\b".toList, by decide, by decide, by decide⟩
  · exact (C5_validateOutputPath_iff demoPlatform demoWorldTwoFolders "C:\\a".toList
      "C:\\a\\x.jpg".toList).2.2 (Or.inr (Or.inr (by decide)))
  · exact (C5_validateOutputPath_iff demoPlatform demoWorldTwoFolders "C:\\c".toList
      "C:\\a\\x.jpg".toList).2.2 (Or.inr (Or.inl (by decide)))

/-- C6: when, in state `s`, the canonical directory of a surface's source file equals the
canonical output folder, then for every naming rule and format `exportFile` returns
`false` and leaves the state (world and save log) untouched; and `batchExportFiles`, on
reaching that item in state `s` (the state left by the items `pre` that precede it),
skips it: the batch goes on from the same state `s` with the flag forced to `false`, so
its result is `false` and no `Bitmap::Save` call is made for the item.  A batch whose
output folder cannot be created returns `false` before any item is looked at. -/
theorem C6_same_folder_export_refused {W : Type} (plat : Platform W) (fh : FileHandler)
    (p : ImageProcessor) (outputFolder : Str) (rule : ExportNamingRule) (format : ImageFormat)
    (s : Sys W) (c : Str)
    (hsrc : plat.canonical s.world (plat.parent_path p.getFilePath) = some c)
    (hout : plat.canonical s.world outputFolder = some c) :
    fh.exportFile plat p outputFolder rule format s = some (false, s) ∧
    (∀ (pre post : List (Option ImageProcessor)) (s0 : Sys W) (b1 : Bool),
      (FileHandler.ensureOutputFolder plat s0.world outputFolder).1 = true →
      fh.batchExportLoop plat outputFolder rule format pre true
        { s0 with world := (FileHandler.ensureOutputFolder plat s0.world outputFolder).2 }
          = some (b1, s) →
      fh.batchExportFiles plat (pre ++ some p :: post) outputFolder rule format s0
        = (fh.batchExportLoop plat outputFolder rule format post true s).map
            (fun r => (false, r.2)) ∧
      fh.batchExportFiles plat (pre ++ [some p]) outputFolder rule format s0
        = some (false, s)) ∧
    (∀ (processors : List (Option ImageProcessor)) (s0 : Sys W),
      (FileHandler.ensureOutputFolder plat s0.world outputFolder).1 = false →
      fh.batchExportFiles plat processors outputFolder rule format s0
        = some (false, { s0 with
            world := (FileHandler.ensureOutputFolder plat s0.world outputFolder).2 })) := by
  have hval : FileHandler.validateOutputPath plat s.world outputFolder p.getFilePath = false := by
    simp [FileHandler.validateOutputPath, hsrc, hout]
  have hstep : ∀ (rest : List (Option ImageProcessor)) (a : Bool),
      fh.batchExportLoop plat outputFolder rule format (some p :: rest) a s
        = (fh.batchExportLoop plat outputFolder rule format rest true s).map
            (fun r => (false, r.2)) := by
    intro rest a
    have hskip : fh.batchExportLoop plat outputFolder rule format (some p :: rest) a s
        = fh.batchExportLoop plat outputFolder rule format rest false s := by
      simp only [FileHandler.batchExportLoop, hval]
      cases p.isLoaded <;> simp
    rw [hskip, batchExportLoop_flag]
    simp
  refine ⟨?_, ?_, ?_⟩
  · simp only [FileHandler.exportFile, hval]
    cases p.isLoaded <;> simp
  · intro pre post s0 b1 hens hpre
    have hbatch : ∀ post2 : List (Option ImageProcessor),
        fh.batchExportFiles plat (pre ++ some p :: post2) outputFolder rule format s0
          = (fh.batchExportLoop plat outputFolder rule format post2 true s).map
              (fun r => (false, r.2)) := by
      intro post2
      simp only [FileHandler.batchExportFiles, hens, Bool.not_true, Bool.false_eq_true,
        if_false]
      rw [batchExportLoop_append, hpre]
      exact hstep post2 b1
    refine ⟨hbatch post, ?_⟩
    rw [hbatch []]
    simp [FileHandler.batchExportLoop]
  · intro processors s0 hens
    simp [FileHandler.batchExportFiles, hens]

/-- C6, witness in the toy world: the batch first exports the surface of `C:\b\y.jpg` to
`C:\a`, then reaches the surface of `C:\a\x.jpg`, whose own folder is `C:\a`. -/
theorem C6_same_folder_export_refused_witness :
    FileHandler.ctor.exportFile demoPlatform (demoLoad demoWorldTwoFolders "C:\\a\\x.jpg".toList)
        "C:\\a".toList ExportNamingRule.ADD_PREFIX ImageFormat.PNG demoStateAfterY
      = some (false, demoStateAfterY) ∧
    FileHandler.ctor.batchExportFiles demoPlatform
        [some (demoLoad demoWorldTwoFolders "C:\\b\\y.jpg".toList),
          some (demoLoad demoWorldTwoFolders "C:\\a\\x.jpg".toList)]
        "C:\\a".toList ExportNamingRule.ADD_PREFIX ImageFormat.PNG
        ⟨demoWorldTwoFolders, []⟩
      = some (false, demoStateAfterY) := by
  have h := C6_same_folder_export_refused demoPlatform FileHandler.ctor
    (demoLoad demoWorldTwoFolders "C:\\a\\x.jpg".toList) "C:\\a".toList
    ExportNamingRule.ADD_PREFIX ImageFormat.PNG
    demoStateAfterY "C:\\a".toList (by decide) (by decide)
  exact ⟨h.1, (h.2.1 [some (demoLoad demoWorldTwoFolders "C:\\b\\y.jpg".toList)] []
    ⟨demoWorldTwoFolders, []⟩ true (by decide) (by rfl)).2⟩

/-! ## ImageProcessor: the batch pipeline -/

theorem batchProcessLoop_cons {W : Type} (plat : Platform W) (outputFolder : Str)
    (watermark : Watermark) (outputFormat : ImageFormat) (x : Str) (rest : List Str)
    (a : Bool) (s : Sys W) :
    ImageProcessor.batchProcessLoop plat outputFolder watermark outputFormat (x :: rest) a s
      = (batchItem plat outputFolder watermark outputFormat x s).bind
          (fun r => ImageProcessor.batchProcessLoop plat outputFolder watermark outputFormat
            rest (a && r.1) r.2) := by
  simp only [ImageProcessor.batchProcessLoop, batchItem]
  split
  · cases happly : (ImageProcessor.ctor.loadImage plat s.world x).2.applyWatermark plat s.world
        watermark with
    | none => rfl
    | some applied =>
      simp only [Option.map_some', Option.some_bind]
      split
      · rename_i h2
        simp only [Bool.not_eq_true'] at h2
        simp [h2]
      · rename_i h2
        simp only [Bool.not_eq_true', Bool.not_eq_false] at h2
        simp [h2]
  · simp

/-- The flag `allSuccess` only accumulates: starting the loop with `a` gives the
conjunction of `a` with the result of the loop started with `true`. -/
theorem batchProcessLoop_flag {W : Type} (plat : Platform W) (outputFolder : Str)
    (watermark : Watermark) (outputFormat : ImageFormat) (l : List Str) :
    ∀ (a : Bool) (s : Sys W),
      ImageProcessor.batchProcessLoop plat outputFolder watermark outputFormat l a s
        = (ImageProcessor.batchProcessLoop plat outputFolder watermark outputFormat l true
            s).map (fun r => (a && r.1, r.2)) := by
  induction l with
  | nil => intro a s; simp [ImageProcessor.batchProcessLoop]
  | cons x rest ih =>
    intro a s
    rw [batchProcessLoop_cons, batchProcessLoop_cons]
    cases batchItem plat outputFolder watermark outputFormat x s with
    | none => rfl
    | some r =>
      simp only [Option.some_bind]
      rw [ih (a && r.1), ih (true && r.1)]
      cases ImageProcessor.batchProcessLoop plat outputFolder watermark outputFormat rest true
          r.2 with
      | none => rfl
      | some q => simp [Bool.and_assoc]

/-- The loop over `xs ++ ys` is the loop over `xs` followed, when no exception ended it,
by the loop over `ys` in the state and with the flag that `xs` left. -/
theorem batchProcessLoop_append {W : Type} (plat : Platform W) (outputFolder : Str)
    (watermark : Watermark) (outputFormat : ImageFormat) (xs ys : List Str) :
    ∀ (a : Bool) (s : Sys W),
      ImageProcessor.batchProcessLoop plat outputFolder watermark outputFormat (xs ++ ys) a s
        = (ImageProcessor.batchProcessLoop plat outputFolder watermark outputFormat xs a
            s).bind (fun r =>
              ImageProcessor.batchProcessLoop plat outputFolder watermark outputFormat ys
                r.1 r.2) := by
  induction xs with
  | nil => intro a s; simp [ImageProcessor.batchProcessLoop]
  | cons x rest ih =>
    intro a s
    rw [List.cons_append, batchProcessLoop_cons, batchProcessLoop_cons]
    cases batchItem plat outputFolder watermark outputFormat x s with
    | none => rfl
    | some r =>
      simp only [Option.some_bind]
      exact ih _ _

/-- After a successful `loadImage` on a fresh surface the surface is loaded and nothing
has been drawn on it. -/
theorem loadImage_ctor_success {W : Type} (plat : Platform W) (w : W) (path : Str)
    (h : (ImageProcessor.ctor.loadImage plat w path).1 = true) :
    (ImageProcessor.ctor.loadImage plat w path).2.isLoaded = true ∧
    (ImageProcessor.ctor.loadImage plat w path).2.drawn = [] ∧
    (ImageProcessor.ctor.loadImage plat w path).2.filePath = path := by
  unfold ImageProcessor.loadImage at h ⊢
  cases hi : plat.imageFromFile w path with
  | none => simp [hi] at h
  | some image =>
    simp only [hi] at h ⊢
    split at h
    · simp at h
    · rename_i hh
      simp only [hh]
      simp only [Bool.or_eq_true, beq_iff_eq, not_or] at hh
      simp [ImageProcessor.isLoaded, ImageProcessor.releaseResources, ImageProcessor.ctor, hh.1,
        hh.2]

/-- On a loaded surface `applyWatermark` returns `true` exactly when the two wide-string
constructions of `drawTextWatermark` complete; when one of them throws, the exception
leaves `applyWatermark`. -/
theorem applyWatermark_loaded {W : Type} (plat : Platform W) (w : W) (p : ImageProcessor)
    (watermark : Watermark) (hl : p.isLoaded = true) :
    (∀ fontFamily text, plat.wstringFromCopies w watermark.getFontName = some fontFamily →
      plat.wstringFromCopies w watermark.getText = some text →
      p.applyWatermark plat w watermark
        = some (true, { p with
            drawn := p.drawn ++ [(watermark.setFontName fontFamily).setText text] })) ∧
    (plat.wstringFromCopies w watermark.getFontName = none →
      p.applyWatermark plat w watermark = none) ∧
    (plat.wstringFromCopies w watermark.getText = none →
      p.applyWatermark plat w watermark = none) := by
  refine ⟨?_, ?_, ?_⟩
  · intro fontFamily text h1 h2
    simp [ImageProcessor.applyWatermark, ImageProcessor.drawTextWatermark, hl, h1, h2]
  · intro h1
    simp [ImageProcessor.applyWatermark, ImageProcessor.drawTextWatermark, hl, h1]
  · intro h2
    cases h1 : plat.wstringFromCopies w watermark.getFontName <;>
      simp [ImageProcessor.applyWatermark, ImageProcessor.drawTextWatermark, hl, h1, h2]

/-- One item of the batch when its input loads, the two wide-string constructions
complete and the format is JPEG, PNG or BMP: the surface is watermarked, one
`Bitmap::Save` call is made at the item's output path, and the item's outcome is the
answer of that call. -/
theorem batchItem_loaded {W : Type} (plat : Platform W) (outputFolder : Str)
    (watermark : Watermark) (outputFormat : ImageFormat) (x : Str) (t : Sys W)
    (fontFamily text : Str)
    (hload : (ImageProcessor.ctor.loadImage plat t.world x).1 = true)
    (hfont : plat.wstringFromCopies t.world watermark.getFontName = some fontFamily)
    (htext : plat.wstringFromCopies t.world watermark.getText = some text)
    (hfmt : outputFormat ≠ ImageFormat.UNKNOWN) :
    ∃ mime : Str,
      batchItem plat outputFolder watermark outputFormat x t
        = some ((plat.bitmapSave t.world
              { (ImageProcessor.ctor.loadImage plat t.world x).2 with
                drawn := [(watermark.setFontName fontFamily).setText text] }
              (ImageProcessor.batchOutputPath outputFolder x outputFormat) mime).1,
            ⟨(plat.bitmapSave t.world
              { (ImageProcessor.ctor.loadImage plat t.world x).2 with
                drawn := [(watermark.setFontName fontFamily).setText text] }
              (ImageProcessor.batchOutputPath outputFolder x outputFormat) mime).2,
             t.saves ++ [⟨{ (ImageProcessor.ctor.loadImage plat t.world x).2 with
                drawn := [(watermark.setFontName fontFamily).setText text] },
              ImageProcessor.batchOutputPath outputFolder x outputFormat, mime,
              (plat.bitmapSave t.world
                { (ImageProcessor.ctor.loadImage plat t.world x).2 with
                  drawn := [(watermark.setFontName fontFamily).setText text] }
                (ImageProcessor.batchOutputPath outputFolder x outputFormat) mime).1⟩]⟩) := by
  obtain ⟨hl, hd, _⟩ := loadImage_ctor_success plat t.world x hload
  have happly := (applyWatermark_loaded plat t.world
    (ImageProcessor.ctor.loadImage plat t.world x).2 watermark hl).1 fontFamily text hfont htext
  rw [hd, List.nil_append] at happly
  have hl2 : ({ (ImageProcessor.ctor.loadImage plat t.world x).2 with
      drawn := [(watermark.setFontName fontFamily).setText text] } : ImageProcessor).isLoaded
        = true := hl
  rcases saveImage_loaded plat
      { (ImageProcessor.ctor.loadImage plat t.world x).2 with
        drawn := [(watermark.setFontName fontFamily).setText text] }
      (ImageProcessor.batchOutputPath outputFolder x outputFormat) outputFormat t hl2 hfmt
    with ⟨mime, hm⟩
  refine ⟨mime, ?_⟩
  simp only [batchItem, hload, if_true, happly, Option.map_some']
  rw [hm]

/-- C7: the batch pipeline run on the input `C:\a\x.jpg` with output folder `C:\a` and
format JPEG builds the output path `C:\a\x.jpg`, the input's own path, and saves there
with success; the output-safety check of `FileHandler`, which refuses this very pair, is
never consulted. -/
theorem C7_batch_overwrites_source :
    ImageProcessor.batchOutputPath "C:\\a".toList "C:\\a\\x.jpg".toList ImageFormat.JPEG
      = "C:\\a\\x.jpg".toList ∧
    ((ImageProcessor.batchProcessImages demoPlatform ["C:\\a\\x.jpg".toList] "C:\\a".toList
        Watermark.ctor ImageFormat.JPEG ⟨demoWorldTwoFolders, []⟩).map (fun r => r.1)
        = some true ∧
     (ImageProcessor.batchProcessImages demoPlatform ["C:\\a\\x.jpg".toList] "C:\\a".toList
        Watermark.ctor ImageFormat.JPEG ⟨demoWorldTwoFolders, []⟩).map
          (fun r => r.2.saves.map (fun call => (call.filePath, call.ok)))
        = some [("C:\\a\\x.jpg".toList, true)]) ∧
    FileHandler.validateOutputPath demoPlatform demoWorldTwoFolders "C:\\a".toList
      "C:\\a\\x.jpg".toList = false := by
  refine ⟨by decide, ⟨?_, ?_⟩, by decide⟩
  · rfl
  · rfl

/-- C8: two runs of the batch pipeline on the input `C:\b\y.jpg` with output folder `C:\a`
and format PNG both report success and both save at `C:\a\y.png`: the second run writes
over the output of the first, no disambiguator is added. -/
theorem C8_second_batch_run_overwrites :
    (ImageProcessor.batchProcessImages demoPlatform ["C:\\b\\y.jpg".toList] "C:\\a".toList
        Watermark.ctor ImageFormat.PNG ⟨demoWorldTwoFolders, []⟩).map (fun r => r.1)
      = some true ∧
    (ImageProcessor.batchProcessImages demoPlatform ["C:\\b\\y.jpg".toList] "C:\\a".toList
        Watermark.ctor ImageFormat.PNG ⟨demoWorldTwoFolders, []⟩).map
          (fun r => r.2.saves.map (fun call => (call.filePath, call.ok)))
      = some [("C:\\a\\y.png".toList, true)] ∧
    ((ImageProcessor.batchProcessImages demoPlatform ["C:\\b\\y.jpg".toList] "C:\\a".toList
        Watermark.ctor ImageFormat.PNG ⟨demoWorldTwoFolders, []⟩).bind
      (fun first => ImageProcessor.batchProcessImages demoPlatform ["C:\\b\\y.jpg".toList]
        "C:\\a".toList Watermark.ctor ImageFormat.PNG first.2)).map (fun r => r.1)
      = some true ∧
    ((ImageProcessor.batchProcessImages demoPlatform ["C:\\b\\y.jpg".toList] "C:\\a".toList
        Watermark.ctor ImageFormat.PNG ⟨demoWorldTwoFolders, []⟩).bind
      (fun first => ImageProcessor.batchProcessImages demoPlatform ["C:\\b\\y.jpg".toList]
        "C:\\a".toList Watermark.ctor ImageFormat.PNG first.2)).map
          (fun r => r.2.saves.map (fun call => (call.filePath, call.ok)))
      = some [("C:\\a\\y.png".toList, true), ("C:\\a\\y.png".toList, true)] := by
  refine ⟨?_, ?_, ?_, ?_⟩ <;> rfl

/-- C9: for the extensionless input `C:\in\README` and the output folder `C:\out.dir` the
batch pipeline cuts the path at the dot of the folder name: the image is saved at
`C:\out.jpg`, which is neither `C:\out.dir\README.jpg` nor a path below `C:\out.dir\`. -/
theorem C9_batch_path_cut_at_folder_dot :
    ImageProcessor.batchOutputPath "C:\\out.dir".toList "C:\\in\\README".toList
        ImageFormat.JPEG = "C:\\out.jpg".toList ∧
    ImageProcessor.batchOutputPath "C:\\out.dir".toList "C:\\in\\README".toList
        ImageFormat.JPEG ≠ "C:\\out.dir".toList ++ "\\".toList ++ "README".toList ++ ".jpg".toList ∧
    ("C:\\out.dir".toList ++ "\\".toList).isPrefixOf
      (ImageProcessor.batchOutputPath "C:\\out.dir".toList "C:\\in\\README".toList
        ImageFormat.JPEG) = false ∧
    (ImageProcessor.batchProcessImages demoPlatform ["C:\\in\\README".toList]
        "C:\\out.dir".toList Watermark.ctor ImageFormat.JPEG
        ⟨demoWorldDottedFolder, []⟩).map
          (fun r => r.2.saves.map (fun call => (call.filePath, call.ok)))
      = some [("C:\\out.jpg".toList, true)] := by
  refine ⟨by decide, by decide, by decide, ?_⟩
  rfl

/-- C10: the batch of the two inputs `C:\a\x.jpg` and `C:\b\y.jpg`, which both load, with
the default watermark, output folder `C:\b` and format BMP.  `drawTextWatermark` builds
its wide strings from the iterators of two different temporaries; where that construction
throws, the exception leaves `applyWatermark` and, as `batchProcessImages` has no `try`
block, the batch: no result is returned, the first input is not saved and the second is
never reached.  Where the construction completes, the same batch returns `true` and saves
both inputs. -/
theorem C10_batch_aborted_by_exception :
    (ImageProcessor.ctor.loadImage demoPlatformThrowing demoWorldTwoFolders
      "C:\\a\\x.jpg".toList).1 = true ∧
    (ImageProcessor.ctor.loadImage demoPlatformThrowing demoWorldTwoFolders
      "C:\\b\\y.jpg".toList).1 = true ∧
    (demoLoad demoWorldTwoFolders "C:\\a\\x.jpg".toList).applyWatermark demoPlatformThrowing
      demoWorldTwoFolders Watermark.ctor = none ∧
    (ImageProcessor.batchProcessImages demoPlatformThrowing
        ["C:\\a\\x.jpg".toList, "C:\\b\\y.jpg".toList]
        "C:\\b".toList Watermark.ctor ImageFormat.BMP ⟨demoWorldTwoFolders, []⟩).isNone
      = true ∧
    (ImageProcessor.batchProcessImages demoPlatformThrowing
        ["C:\\a\\missing.jpg".toList, "C:\\a\\x.jpg".toList, "C:\\b\\y.jpg".toList]
        "C:\\b".toList Watermark.ctor ImageFormat.BMP ⟨demoWorldTwoFolders, []⟩).isNone
      = true ∧
    (ImageProcessor.batchProcessImages demoPlatform
        ["C:\\a\\x.jpg".toList, "C:\\b\\y.jpg".toList]
        "C:\\b".toList Watermark.ctor ImageFormat.BMP ⟨demoWorldTwoFolders, []⟩).map
          (fun r => (r.1, r.2.saves.map (fun call => (call.filePath, call.ok))))
      = some (true, [("C:\\b\\x.bmp".toList, true), ("C:\\b\\y.bmp".toList, true)]) := by
  refine ⟨by decide, by decide, ?_, ?_, ?_, ?_⟩ <;> rfl

/-! ## ImageProcessor: the life cycle of the raster surface -/

/-- A failed `loadImage` leaves the handles null, the size zero and the alpha flag off;
the stored path is the argument when the decoder refused the file and is empty when the
handles could not be created. -/
theorem loadImage_failure_state {W : Type} (plat : Platform W) (w : W) (p : ImageProcessor)
    (path : Str) (h : (p.loadImage plat w path).1 = false) :
    (p.loadImage plat w path).2.isLoaded = false ∧
    (p.loadImage plat w path).2.width = 0 ∧
    (p.loadImage plat w path).2.height = 0 ∧
    (p.loadImage plat w path).2.hasAlphaChannel = false ∧
    (p.loadImage plat w path).2.filePath
      = (if plat.imageFromFile w path = none then path else []) := by
  unfold ImageProcessor.loadImage at h ⊢
  cases hi : plat.imageFromFile w path with
  | none =>
    simp only [ImageProcessor.releaseResources, ImageProcessor.isLoaded]
    by_cases hb : p.hBitmap = 0 <;> by_cases hd : p.hMemDC = 0 <;> simp [hb, hd]
  | some image =>
    simp only [hi] at h ⊢
    split at h
    · rename_i hh
      simp only [hh, if_true]
      simp only [ImageProcessor.releaseResources, ImageProcessor.isLoaded]
      by_cases hb : plat.createCompatibleBitmap w (uintToInt image.width)
          (uintToInt image.height) = 0 <;>
        by_cases hd : plat.createCompatibleDC w = 0 <;> simp [hb, hd]
    · simp at h

/-- C15: a fresh surface asked to load the missing file `C:\a\missing.jpg` returns `false`
and is unloaded with size zero and no alpha flag, but it keeps the path of the failed
load: `getFilePath()` is `C:\a\missing.jpg`, not the empty string. -/
theorem C15_failed_load_keeps_path :
    (ImageProcessor.ctor.loadImage demoPlatform demoWorldTwoFolders
      "C:\\a\\missing.jpg".toList).1 = false ∧
    (ImageProcessor.ctor.loadImage demoPlatform demoWorldTwoFolders
      "C:\\a\\missing.jpg".toList).2.isLoaded = false ∧
    (ImageProcessor.ctor.loadImage demoPlatform demoWorldTwoFolders
      "C:\\a\\missing.jpg".toList).2.getWidth = 0 ∧
    (ImageProcessor.ctor.loadImage demoPlatform demoWorldTwoFolders
      "C:\\a\\missing.jpg".toList).2.getHeight = 0 ∧
    (ImageProcessor.ctor.loadImage demoPlatform demoWorldTwoFolders
      "C:\\a\\missing.jpg".toList).2.hasAlpha = false ∧
    (ImageProcessor.ctor.loadImage demoPlatform demoWorldTwoFolders
      "C:\\a\\missing.jpg".toList).2.getFilePath = "C:\\a\\missing.jpg".toList ∧
    (ImageProcessor.ctor.loadImage demoPlatform demoWorldTwoFolders
      "C:\\a\\missing.jpg".toList).2.getFilePath ≠ [] := by
  decide

/-- C16, as stated, fails: after `createFromHBITMAP(bitmap, 0, 0)` with a valid bitmap
handle the surface is reachable and `isLoaded()` is true while width and height are 0. -/
theorem C16_counterexample_zero_size :
    ImageProcessor.Reachable demoPlatform
      (ImageProcessor.ctor.createFromHBITMAP demoPlatform demoWorldTwoFolders 7 0 0).2 ∧
    (ImageProcessor.ctor.createFromHBITMAP demoPlatform demoWorldTwoFolders 7 0 0).2.isLoaded
      = true ∧
    (ImageProcessor.ctor.createFromHBITMAP demoPlatform demoWorldTwoFolders 7 0 0).2.getWidth
      = 0 ∧
    ¬ (ImageProcessor.ctor.createFromHBITMAP demoPlatform demoWorldTwoFolders 7 0
      0).2.loadedInvariant := by
  refine ⟨ImageProcessor.Reachable.createFromHBITMAP _ _ _ _ _ ImageProcessor.Reachable.ctor,
    by decide, by decide, ?_⟩
  intro h
  have h2 := h.1 (by decide)
  exact absurd h2.1 (by decide)

/-- C16, amended: `isLoaded()` is true exactly when the bitmap handle and the memory DC
handle are both non-null; and in every state reachable from construction through
`loadImage` (the decoder reporting a positive width and height below 2^31), `clear`, and
successful `createFromHBITMAP` calls with `w > 0` and `h > 0`, `isLoaded()` is true if
and only if width > 0 and height > 0 and the bitmap handle is non-null. -/
theorem C16_loaded_invariant {W : Type} (plat : Platform W) (p : ImageProcessor)
    (hdims : ∀ (w : W) (path : Str) (image : GdiImage),
      plat.imageFromFile w path = some image →
      0 < image.width ∧ image.width < 2147483648 ∧ 0 < image.height ∧
        image.height < 2147483648)
    (hreach : ImageProcessor.ReachableSized plat p) :
    p.loadedInvariant ∧ (p.isLoaded = true ↔ (p.hBitmap ≠ 0 ∧ p.hMemDC ≠ 0)) := by
  refine ⟨?_, by simp [ImageProcessor.isLoaded]⟩
  have hrel : ∀ q : ImageProcessor, (q.releaseResources).loadedInvariant := by
    intro q
    simp only [ImageProcessor.loadedInvariant, ImageProcessor.releaseResources,
      ImageProcessor.isLoaded]
    by_cases hb : q.hBitmap = 0 <;> by_cases hd : q.hMemDC = 0 <;> simp [hb, hd]
  induction hreach with
  | ctor => simp [ImageProcessor.loadedInvariant, ImageProcessor.isLoaded, ImageProcessor.ctor]
  | loadImage q w path _ _ =>
    cases hres : (q.loadImage plat w path).1 with
    | false =>
      obtain ⟨h1, h2, _, _, _⟩ := loadImage_failure_state plat w q path hres
      simp [ImageProcessor.loadedInvariant, h1, h2]
    | true =>
      unfold ImageProcessor.loadImage at hres ⊢
      cases hi : plat.imageFromFile w path with
      | none => simp [hi] at hres
      | some image =>
        simp only [hi] at hres ⊢
        obtain ⟨hw1, hw2, hh1, hh2⟩ := hdims w path image hi
        split at hres
        · simp at hres
        · rename_i hh
          simp only [hh]
          simp only [Bool.or_eq_true, beq_iff_eq, not_or] at hh
          have e1 : uintToInt image.width = (image.width : Int) := by
            unfold uintToInt
            have : image.width % 4294967296 = image.width := Nat.mod_eq_of_lt (by omega)
            rw [this]
            simp [hw2]
          have e2 : uintToInt image.height = (image.height : Int) := by
            unfold uintToInt
            have : image.height % 4294967296 = image.height := Nat.mod_eq_of_lt (by omega)
            rw [this]
            simp [hh2]
          simp only [ImageProcessor.loadedInvariant, ImageProcessor.isLoaded, e1, e2]
          simp [hh.1, hh.2, hw1, hh1]
  | createFromHBITMAP q w bitmap width height _ hw hh hok _ =>
    simp only [ImageProcessor.createFromHBITMAP] at hok ⊢
    simp only [ImageProcessor.loadedInvariant, ImageProcessor.isLoaded]
    simp only [bne_iff_ne, ne_eq] at hok
    simp [hok, hw, hh]
  | clear q _ _ => exact hrel q

/-- C16, witness in the toy world: the surface obtained by loading `C:\a\x.jpg`, clearing
and loading again is loaded, 640 by 480, with a bitmap. -/
theorem C16_loaded_invariant_witness :
    ((ImageProcessor.ctor.loadImage demoPlatform demoWorldTwoFolders
        "C:\\a\\x.jpg".toList).2.clear.loadImage demoPlatform demoWorldTwoFolders
        "C:\\a\\x.jpg".toList).2.loadedInvariant ∧
    ((ImageProcessor.ctor.loadImage demoPlatform demoWorldTwoFolders
        "C:\\a\\x.jpg".toList).2.clear.loadImage demoPlatform demoWorldTwoFolders
        "C:\\a\\x.jpg".toList).2.isLoaded = true := by
  refine ⟨(C16_loaded_invariant demoPlatform _ ?_ ?_).1, by decide⟩
  · intro w path image h
    simp only [demoPlatform] at h
    split at h
    · cases h
      decide
    · cases h
  · exact ImageProcessor.ReachableSized.loadImage _ _ _
      (ImageProcessor.ReachableSized.clear _
        (ImageProcessor.ReachableSized.loadImage _ _ _ ImageProcessor.ReachableSized.ctor))

/-- On an unloaded surface `saveImage` returns `false` and leaves the state (world and
save log) as it was, `applyWatermark` returns `false` and leaves the surface as it was,
and `getPreview` returns `NULL`. -/
theorem unloaded_operations_fail {W : Type} (plat : Platform W) (p : ImageProcessor)
    (filePath : Str) (format : ImageFormat) (watermark : Watermark) (s : Sys W)
    (previewWidth previewHeight : Int) (hp : p.isLoaded = false) :
    p.saveImage plat filePath format s = (false, s) ∧
    p.applyWatermark plat s.world watermark = some (false, p) ∧
    p.getPreview plat s.world previewWidth previewHeight = none := by
  refine ⟨?_, ?_, ?_⟩
  · simp [ImageProcessor.saveImage, hp]
  · simp [ImageProcessor.applyWatermark, hp]
  · simp [ImageProcessor.getPreview, hp]

/-- C17: on the unloaded fresh surface `saveImage` returns `false` without a save,
`applyWatermark` returns `false` and `getPreview` returns `NULL`, as claimed.  On the
surface loaded from `C:\a\x.jpg`, however, `applyWatermark` with the default watermark
does not return `true` where the wide-string construction of `drawTextWatermark` (built
from the iterators of two different temporaries) throws: the exception leaves
`applyWatermark`.  The same happens for a watermark with empty text and for one with
opacity 0. -/
theorem C17_loaded_applyWatermark_throws :
    ImageProcessor.ctor.isLoaded = false ∧
    ImageProcessor.ctor.saveImage demoPlatformThrowing "C:\\b\\out.png".toList ImageFormat.PNG
        ⟨demoWorldTwoFolders, []⟩ = (false, ⟨demoWorldTwoFolders, []⟩) ∧
    ImageProcessor.ctor.applyWatermark demoPlatformThrowing demoWorldTwoFolders Watermark.ctor
      = some (false, ImageProcessor.ctor) ∧
    ImageProcessor.ctor.getPreview demoPlatformThrowing demoWorldTwoFolders 320 240 = none ∧
    (demoLoad demoWorldTwoFolders "C:\\a\\x.jpg".toList).isLoaded = true ∧
    (demoLoad demoWorldTwoFolders "C:\\a\\x.jpg".toList).applyWatermark demoPlatformThrowing
      demoWorldTwoFolders Watermark.ctor = none ∧
    (demoLoad demoWorldTwoFolders "C:\\a\\x.jpg".toList).applyWatermark demoPlatformThrowing
      demoWorldTwoFolders (Watermark.ctor.setText []) = none ∧
    (demoLoad demoWorldTwoFolders "C:\\a\\x.jpg".toList).applyWatermark demoPlatformThrowing
      demoWorldTwoFolders (Watermark.ctor.setOpacity 0) = none := by
  refine ⟨by decide, ?_, ?_, ?_, by decide, ?_, ?_, ?_⟩ <;> rfl

/-- C18: after `clear()` the surface is unloaded, width and height are 0, the file path
is empty and the alpha flag is off; a second `clear()` changes nothing. -/
theorem C18_clear_idempotent (p : ImageProcessor) :
    p.clear.isLoaded = false ∧ p.clear.getWidth = 0 ∧ p.clear.getHeight = 0 ∧
    p.clear.getFilePath = [] ∧ p.clear.hasAlpha = false ∧
    p.clear.getHBITMAP = 0 ∧ p.clear.hMemDC = 0 ∧
    p.clear.clear = p.clear := by
  simp only [ImageProcessor.clear, ImageProcessor.releaseResources, ImageProcessor.isLoaded,
    ImageProcessor.getWidth, ImageProcessor.getHeight, ImageProcessor.getFilePath,
    ImageProcessor.hasAlpha, ImageProcessor.getHBITMAP]
  by_cases hb : p.hBitmap = 0 <;> by_cases hd : p.hMemDC = 0 <;> simp [hb, hd]

/-! ## ImageProcessor: preview and text placement -/

/-- The geometry of `getPreview` in exact arithmetic, for a loaded surface of positive
size, a positive target size and handles that are granted: the `BitBlt` rectangle has the
size `(trunc(width*s), trunc(height*s))` with `s = min(previewWidth/width,
previewHeight/height)`, fits into the target and is centred in it.  The rectangle read
from the surface has that same size, at the surface origin. -/
theorem getPreview_geometry {W : Type} (plat : Platform W) (w : W) (p : ImageProcessor)
    (previewWidth previewHeight : Int)
    (hl : p.isLoaded = true) (hw : 0 < p.width) (hh : 0 < p.height)
    (hpw : 0 < previewWidth) (hph : 0 < previewHeight)
    (hb : plat.createCompatibleBitmap w previewWidth previewHeight ≠ 0)
    (hd : plat.createCompatibleDC w ≠ 0) :
    ∃ pv : PreviewBitmap,
      p.getPreview plat w previewWidth previewHeight = some pv ∧
      pv.blit.cx = truncToInt ((p.width : ℚ) *
        min ((previewWidth : ℚ) / p.width) ((previewHeight : ℚ) / p.height)) ∧
      pv.blit.cy = truncToInt ((p.height : ℚ) *
        min ((previewWidth : ℚ) / p.width) ((previewHeight : ℚ) / p.height)) ∧
      0 ≤ pv.blit.cx ∧ pv.blit.cx ≤ previewWidth ∧
      0 ≤ pv.blit.cy ∧ pv.blit.cy ≤ previewHeight ∧
      pv.blit.x = (previewWidth - pv.blit.cx).tdiv 2 ∧ 0 ≤ pv.blit.x ∧
      pv.blit.y = (previewHeight - pv.blit.cy).tdiv 2 ∧ 0 ≤ pv.blit.y ∧
      pv.blit.sourceRect = (0, 0, pv.blit.cx, pv.blit.cy) := by
  have hwq : (0 : ℚ) < (p.width : ℚ) := by exact_mod_cast hw
  have hhq : (0 : ℚ) < (p.height : ℚ) := by exact_mod_cast hh
  have hpwq : (0 : ℚ) < (previewWidth : ℚ) := by exact_mod_cast hpw
  have hphq : (0 : ℚ) < (previewHeight : ℚ) := by exact_mod_cast hph
  have hs0 : (0 : ℚ) ≤ min ((previewWidth : ℚ) / p.width) ((previewHeight : ℚ) / p.height) :=
    le_min (div_nonneg hpwq.le hwq.le) (div_nonneg hphq.le hhq.le)
  have hx0 : (0 : ℚ) ≤ (p.width : ℚ) *
      min ((previewWidth : ℚ) / p.width) ((previewHeight : ℚ) / p.height) :=
    mul_nonneg hwq.le hs0
  have hy0 : (0 : ℚ) ≤ (p.height : ℚ) *
      min ((previewWidth : ℚ) / p.width) ((previewHeight : ℚ) / p.height) :=
    mul_nonneg hhq.le hs0
  have hxle : (p.width : ℚ) *
      min ((previewWidth : ℚ) / p.width) ((previewHeight : ℚ) / p.height)
      ≤ (previewWidth : ℚ) := by
    calc (p.width : ℚ) * min ((previewWidth : ℚ) / p.width) ((previewHeight : ℚ) / p.height)
        ≤ (p.width : ℚ) * ((previewWidth : ℚ) / p.width) :=
          mul_le_mul_of_nonneg_left (min_le_left _ _) hwq.le
      _ = (previewWidth : ℚ) := by field_simp
  have hyle : (p.height : ℚ) *
      min ((previewWidth : ℚ) / p.width) ((previewHeight : ℚ) / p.height)
      ≤ (previewHeight : ℚ) := by
    calc (p.height : ℚ) * min ((previewWidth : ℚ) / p.width) ((previewHeight : ℚ) / p.height)
        ≤ (p.height : ℚ) * ((previewHeight : ℚ) / p.height) :=
          mul_le_mul_of_nonneg_left (min_le_right _ _) hhq.le
      _ = (previewHeight : ℚ) := by field_simp
  have hcx0 : 0 ≤ truncToInt ((p.width : ℚ) *
      min ((previewWidth : ℚ) / p.width) ((previewHeight : ℚ) / p.height)) := by
    rw [truncToInt_of_nonneg _ hx0]
    exact Int.floor_nonneg.mpr hx0
  have hcy0 : 0 ≤ truncToInt ((p.height : ℚ) *
      min ((previewWidth : ℚ) / p.width) ((previewHeight : ℚ) / p.height)) := by
    rw [truncToInt_of_nonneg _ hy0]
    exact Int.floor_nonneg.mpr hy0
  have hcxle : truncToInt ((p.width : ℚ) *
      min ((previewWidth : ℚ) / p.width) ((previewHeight : ℚ) / p.height)) ≤ previewWidth := by
    rw [truncToInt_of_nonneg _ hx0]
    have : ((Int.floor ((p.width : ℚ) *
      min ((previewWidth : ℚ) / p.width) ((previewHeight : ℚ) / p.height)) : Int) : ℚ)
        ≤ (previewWidth : ℚ) := le_trans (Int.floor_le _) hxle
    exact_mod_cast this
  have hcyle : truncToInt ((p.height : ℚ) *
      min ((previewWidth : ℚ) / p.width) ((previewHeight : ℚ) / p.height)) ≤ previewHeight := by
    rw [truncToInt_of_nonneg _ hy0]
    have : ((Int.floor ((p.height : ℚ) *
      min ((previewWidth : ℚ) / p.width) ((previewHeight : ℚ) / p.height)) : Int) : ℚ)
        ≤ (previewHeight : ℚ) := le_trans (Int.floor_le _) hyle
    exact_mod_cast this
  refine ⟨{ handle := plat.createCompatibleBitmap w previewWidth previewHeight
            width := previewWidth
            height := previewHeight
            background := (240, 240, 240)
            blit := ⟨(previewWidth - truncToInt ((p.width : ℚ) *
                min ((previewWidth : ℚ) / p.width) ((previewHeight : ℚ) / p.height))).tdiv 2,
              (previewHeight - truncToInt ((p.height : ℚ) *
                min ((previewWidth : ℚ) / p.width) ((previewHeight : ℚ) / p.height))).tdiv 2,
              truncToInt ((p.width : ℚ) *
                min ((previewWidth : ℚ) / p.width) ((previewHeight : ℚ) / p.height)),
              truncToInt ((p.height : ℚ) *
                min ((previewWidth : ℚ) / p.width) ((previewHeight : ℚ) / p.height)),
              0, 0⟩ },
    ?_, rfl, rfl, hcx0, hcxle, hcy0, hcyle, rfl, ?_, rfl, ?_, rfl⟩
  · simp [ImageProcessor.getPreview, hl, hb, hd]
  · exact Int.tdiv_nonneg (by omega) (by decide)
  · exact Int.tdiv_nonneg (by omega) (by decide)

/-- C19: for the loaded 640 by 480 surface and the target 320 by 300, `getPreview`
computes the scale 1/2, the rectangle 320 by 240 and the offsets (0, 30) as claimed, but
it copies with `BitBlt`, which does not scale: the rectangle shows the top-left 320 by
240 pixels of the surface one to one, not the whole 640 by 480 image scaled by 1/2. -/
theorem C19_preview_copies_unscaled :
    (demoLoad demoWorldTwoFolders "C:\\a\\x.jpg".toList).getWidth = 640 ∧
    (demoLoad demoWorldTwoFolders "C:\\a\\x.jpg".toList).getHeight = 480 ∧
    (demoLoad demoWorldTwoFolders "C:\\a\\x.jpg".toList).getPreview demoPlatform
        demoWorldTwoFolders 320 300
      = some ⟨2, 320, 300, (240, 240, 240), ⟨0, 30, 320, 240, 0, 0⟩⟩ ∧
    (⟨0, 30, 320, 240, 0, 0⟩ : BitBltCall).sourceRect = (0, 0, 320, 240) ∧
    ¬ (⟨2, 320, 300, (240, 240, 240), ⟨0, 30, 320, 240, 0, 0⟩⟩ : PreviewBitmap).showsWholeImage
        (demoLoad demoWorldTwoFolders "C:\\a\\x.jpg".toList) := by
  refine ⟨by decide, by decide, ?_, rfl, ?_⟩
  · with_unfolding_all decide
  · unfold PreviewBitmap.showsWholeImage
    decide

/-! ## TemplateManager: name sanitization -/

theorem foldl_eraseRemove (set s : Str) :
    set.foldl eraseRemove s = s.filter (fun c => !set.contains c) := by
  induction set generalizing s with
  | nil => simp
  | cons c cs ih =>
    rw [List.foldl_cons, ih, eraseRemove, List.filter_filter]
    apply List.filter_congr
    intro x _
    by_cases hx : x = c
    · simp [hx]
    · have hx2 : (x == c) = false := by simpa using hx
      simp [hx, hx2]

theorem blankSet_contains (c : Char) : " \t".toList.contains c = isBlank c := by
  by_cases h1 : c = ' '
  · subst h1; rfl
  · by_cases h2 : c = '\t'
    · subst h2; rfl
    · have e1 : (c == ' ') = false := by simpa using h1
      have e2 : (c == '\t') = false := by simpa using h2
      show List.elem c [' ', '\t'] = isBlank c
      simp [isBlank, List.elem, e1, e2]

theorem find_first_not_of_cons (x : Char) (xs set : Str) :
    find_first_not_of (x :: xs) set
      = if set.contains x then (find_first_not_of xs set).map (fun i => i + 1) else some 0 := by
  rw [find_first_not_of]

theorem find_last_not_of_cons (x : Char) (xs set : Str) :
    find_last_not_of (x :: xs) set
      = match find_last_not_of xs set with
        | some i => some (i + 1)
        | none => if set.contains x then none else some 0 := by
  rw [find_last_not_of]

theorem dropWhile_append_singleton (p : Char → Bool) (l : Str) (x : Char) :
    (l ++ [x]).dropWhile p
      = if l.dropWhile p = [] then [x].dropWhile p else l.dropWhile p ++ [x] := by
  induction l with
  | nil => simp
  | cons a t ih =>
    by_cases ha : p a = true
    · simp [List.dropWhile, ha, ih]
    · simp [List.dropWhile, ha]

/-- Trailing trim, seen from the front of the string. -/
theorem rdrop_cons (p : Char → Bool) (x : Char) (xs : Str) :
    ((x :: xs).reverse.dropWhile p).reverse
      = if (xs.reverse.dropWhile p).reverse = [] then (if p x then [] else [x])
        else x :: (xs.reverse.dropWhile p).reverse := by
  rw [List.reverse_cons, dropWhile_append_singleton]
  by_cases h : xs.reverse.dropWhile p = []
  · by_cases hx : p x = true <;> simp [h, hx, List.dropWhile]
  · simp [h]

theorem find_last_not_of_spec (set s : Str) (hset : ∀ c, set.contains c = isBlank c) :
    (s.reverse.dropWhile isBlank).reverse
      = match find_last_not_of s set with
        | some j => s.take (j + 1)
        | none => [] := by
  induction s with
  | nil => simp [find_last_not_of]
  | cons x xs ih =>
    rw [rdrop_cons, ih, find_last_not_of_cons]
    cases hx : find_last_not_of xs set with
    | some j =>
      have hne : xs ≠ [] := by
        intro hxs
        subst hxs
        simp [find_last_not_of] at hx
      simp [hne]
    | none =>
      simp only [hset]
      by_cases hb : isBlank x = true <;> simp [hb]

theorem trim_source_eq (set s : Str) (hset : ∀ c, set.contains c = isBlank c) :
    (match find_first_not_of s set, find_last_not_of s set with
      | some start, some stop => substr s start (stop - start + 1)
      | _, _ => [])
      = ((s.dropWhile isBlank).reverse.dropWhile isBlank).reverse := by
  induction s with
  | nil => simp [find_first_not_of, find_last_not_of]
  | cons x xs ih =>
    by_cases hb : isBlank x = true
    · have hd : (x :: xs).dropWhile isBlank = xs.dropWhile isBlank := by
        simp [List.dropWhile, hb]
      rw [hd, ← ih, find_first_not_of_cons, find_last_not_of_cons]
      simp only [hset, hb, if_true]
      cases h1 : find_first_not_of xs set with
      | none => simp
      | some i =>
        cases h2 : find_last_not_of xs set with
        | none => simp
        | some j =>
          simp only [Option.map_some', substr, List.drop_succ_cons]
          congr 1
          omega
    · have hd : (x :: xs).dropWhile isBlank = x :: xs := by
        simp [List.dropWhile, hb]
      rw [hd, find_last_not_of_spec set (x :: xs) hset, find_first_not_of_cons]
      simp only [hset, hb]
      cases h2 : find_last_not_of (x :: xs) set with
      | none =>
        rw [find_last_not_of_cons] at h2
        cases h3 : find_last_not_of xs set with
        | some j => simp [h3] at h2
        | none =>
          rw [h3] at h2
          simp only [hset] at h2
          rw [if_neg hb] at h2
          cases h2
      | some j => simp [substr]

theorem sanitizeTemplateName_eq_reference (name : Str) :
    TemplateManager.sanitizeTemplateName name = sanitizeReference name := by
  have hset : illegalChars = forbiddenNameChars := by decide
  have hfold : illegalChars.foldl eraseRemove name
      = name.filter (fun c => !forbiddenNameChars.contains c) := by
    rw [foldl_eraseRemove, hset]
  have htrim := trim_source_eq " \t".toList
    (name.filter (fun c => !forbiddenNameChars.contains c)) blankSet_contains
  unfold TemplateManager.sanitizeTemplateName sanitizeReference
  simp only [hfold]
  rw [← htrim]
  cases h1 : find_first_not_of (name.filter (fun c => !forbiddenNameChars.contains c))
      " \t".toList with
  | none => simp
  | some i =>
    cases h2 : find_last_not_of (name.filter (fun c => !forbiddenNameChars.contains c))
        " \t".toList with
    | none => simp
    | some j =>
      simp only []
      split
      · simp [substr]
      · rename_i hlen
        rw [List.take_of_length_le (by omega)]

/-- C13: `sanitizeTemplateName` equals the reference definition (remove the nine forbidden
characters, trim leading and trailing space and tab, keep at most the first 50
characters); its result contains no forbidden character, has length at most 50, and is
empty exactly when only white space remains after the forbidden characters are removed. -/
theorem C13_sanitize_matches_reference (name : Str) :
    TemplateManager.sanitizeTemplateName name = sanitizeReference name ∧
    (∀ c ∈ TemplateManager.sanitizeTemplateName name, c ∉ forbiddenNameChars) ∧
    (TemplateManager.sanitizeTemplateName name).length ≤ 50 ∧
    (TemplateManager.sanitizeTemplateName name = [] ↔
      ∀ c ∈ name.filter (fun c => !forbiddenNameChars.contains c), isBlank c = true) := by
  rw [sanitizeTemplateName_eq_reference]
  refine ⟨rfl, ?_, ?_, ?_⟩
  · intro c hc
    unfold sanitizeReference at hc
    have h1 := List.mem_of_mem_take hc
    rw [List.mem_reverse] at h1
    have h2 := (List.dropWhile_suffix isBlank).subset h1
    rw [List.mem_reverse] at h2
    have h3 := (List.dropWhile_suffix isBlank).subset h2
    have h4 := (List.mem_filter.1 h3).2
    simpa using h4
  · unfold sanitizeReference
    exact List.length_take_le _ _
  · unfold sanitizeReference
    rw [List.take_eq_nil_iff]
    constructor
    · intro h c hc
      rcases h with h | h
      · exact absurd h (by decide)
      · rw [List.reverse_eq_nil_iff, List.dropWhile_eq_nil_iff] at h
        have hsplit := List.takeWhile_append_dropWhile isBlank
          (name.filter (fun c => !forbiddenNameChars.contains c))
        rw [← hsplit] at hc
        rcases List.mem_append.1 hc with hc1 | hc2
        · exact (List.mem_takeWhile_imp hc1)
        · exact h c (List.mem_reverse.2 hc2)
    · intro h
      right
      rw [List.reverse_eq_nil_iff, List.dropWhile_eq_nil_iff]
      intro c hc
      rw [List.mem_reverse] at hc
      exact h c ((List.dropWhile_suffix isBlank).subset hc)

/-! ## TemplateManager: saving, loading and deleting templates -/

theorem mapFind_mapAssign (m : List (Str × Watermark)) (key : Str) (value : Watermark) :
    mapFind (mapAssign m key value) key = some value := by
  induction m with
  | nil => simp [mapAssign, mapFind]
  | cons e rest ih =>
    by_cases h : e.1 = key
    · simp [mapAssign, mapFind, h]
    · simp [mapAssign, mapFind, h, ih]

/-- C11: when `saveTemplate(name, w, description)` returns `true`, the name sanitizes to a
non-empty string and `loadTemplate(name, out)` on the same manager, in whatever world and
whatever the previous content of `out`, returns `true` with `out` equal to `w`, that is
equal in every field; the manager is left as it was. -/
theorem C11_round_trip_in_memory {W : Type} (env : TemplateEnv W) (tm : TemplateManager)
    (name description : Str) (saved out : Watermark) (w w2 : W)
    (hsave : (tm.saveTemplate env name saved description w).1 = true) :
    TemplateManager.sanitizeTemplateName name ≠ [] ∧
    (tm.saveTemplate env name saved description w).2.1.loadTemplate env name out w2
      = (true, saved, (tm.saveTemplate env name saved description w).2.1) ∧
    ((tm.saveTemplate env name saved description w).2.1.loadTemplate env name out
      (tm.saveTemplate env name saved description w).2.2).2.1 = saved := by
  unfold TemplateManager.saveTemplate at hsave ⊢
  cases hens : (tm.ensureTemplatesFolderExists env w).1 with
  | false => simp [hens] at hsave
  | true =>
    simp only [hens, Bool.not_true, Bool.false_eq_true, if_false] at hsave ⊢
    cases hname : (TemplateManager.sanitizeTemplateName name).isEmpty with
    | true => simp [hname] at hsave
    | false =>
      simp only [hname, Bool.false_eq_true, if_false] at hsave ⊢
      have hne : TemplateManager.sanitizeTemplateName name ≠ [] := by
        intro h
        rw [h] at hname
        simp at hname
      cases hwrite : env.writeFile (tm.ensureTemplatesFolderExists env w).2
          (tm.getTemplateFilePath (TemplateManager.sanitizeTemplateName name))
          (TemplateManager.templateText env (tm.ensureTemplatesFolderExists env w).2
            (TemplateManager.sanitizeTemplateName name) description saved) with
      | none => simp [hwrite] at hsave
      | some w3 =>
        simp only []
        refine ⟨hne, ?_, ?_⟩ <;>
          simp [TemplateManager.loadTemplate, hname, mapFind_mapAssign]

/-- C11, witness on the toy disk: the watermark with bold text, colour (10, 20, 30, 255)
and rotation 90 is saved under the name `My: Tpl` and loaded back unchanged. -/
theorem C11_round_trip_in_memory_witness :
    (demoManager.saveTemplate demoTemplateEnv "My: Tpl".toList
      (Watermark.ctor10 "Hello".toList "Arial".toList 30 true false ⟨10, 20, 30, 255⟩ (1 / 2)
        5 6 90) "demo".toList demoDiskEmpty).1 = true ∧
    ((demoManager.saveTemplate demoTemplateEnv "My: Tpl".toList
      (Watermark.ctor10 "Hello".toList "Arial".toList 30 true false ⟨10, 20, 30, 255⟩ (1 / 2)
        5 6 90) "demo".toList demoDiskEmpty).2.1.loadTemplate demoTemplateEnv "My: Tpl".toList
      Watermark.ctor
      (demoManager.saveTemplate demoTemplateEnv "My: Tpl".toList
        (Watermark.ctor10 "Hello".toList "Arial".toList 30 true false ⟨10, 20, 30, 255⟩ (1 / 2)
          5 6 90) "demo".toList demoDiskEmpty).2.2).2.1
      = Watermark.ctor10 "Hello".toList "Arial".toList 30 true false ⟨10, 20, 30, 255⟩ (1 / 2)
          5 6 90 := by
  have hs : (demoManager.saveTemplate demoTemplateEnv "My: Tpl".toList
      (Watermark.ctor10 "Hello".toList "Arial".toList 30 true false ⟨10, 20, 30, 255⟩ (1 / 2)
        5 6 90) "demo".toList demoDiskEmpty).1 = true := by
    with_unfolding_all decide
  exact ⟨hs, (C11_round_trip_in_memory demoTemplateEnv demoManager "My: Tpl".toList
    "demo".toList _ Watermark.ctor demoDiskEmpty demoDiskEmpty hs).2.2⟩

/-- C14: for a name whose sanitized form is empty, `saveTemplate` returns `false` with
the manager unchanged, and the only step it has taken in the world is to make sure the
templates folder exists (nothing is written; with the folder present the world is
unchanged); `loadTemplate` returns `false` and leaves the caller's watermark and the
manager unchanged; `deleteTemplate` returns `false` and leaves manager and world
unchanged. -/
theorem C14_invalid_name_rejected {W : Type} (env : TemplateEnv W) (tm : TemplateManager)
    (name description : Str) (watermark : Watermark) (w : W)
    (hname : TemplateManager.sanitizeTemplateName name = []) :
    tm.saveTemplate env name watermark description w
      = (false, tm, (tm.ensureTemplatesFolderExists env w).2) ∧
    (env.fsExists w tm.templatesFolder = true →
      tm.saveTemplate env name watermark description w = (false, tm, w)) ∧
    tm.loadTemplate env name watermark w = (false, watermark, tm) ∧
    tm.deleteTemplate env name w = (false, tm, w) := by
  have hsave : tm.saveTemplate env name watermark description w
      = (false, tm, (tm.ensureTemplatesFolderExists env w).2) := by
    unfold TemplateManager.saveTemplate
    cases hens : (tm.ensureTemplatesFolderExists env w).1 <;> simp [hname]
  refine ⟨hsave, ?_, ?_, ?_⟩
  · intro hfolder
    rw [hsave]
    simp [TemplateManager.ensureTemplatesFolderExists, hfolder]
  · simp [TemplateManager.loadTemplate, hname]
  · simp [TemplateManager.deleteTemplate, hname]

/-- C14, witness on the toy disk: the names of one blank-only and one forbidden-only
string, and the empty name, are refused by all three operations. -/
theorem C14_invalid_name_rejected_witness :
    TemplateManager.sanitizeTemplateName "".toList = [] ∧
    TemplateManager.sanitizeTemplateName "   ".toList = [] ∧
    TemplateManager.sanitizeTemplateName "<>|".toList = [] ∧
    demoManager.saveTemplate demoTemplateEnv "<>|".toList Watermark.ctor "demo".toList
      demoDiskEmpty = (false, demoManager, demoDiskEmpty) ∧
    demoManager.loadTemplate demoTemplateEnv "   ".toList Watermark.ctor demoDiskEmpty
      = (false, Watermark.ctor, demoManager) ∧
    demoManager.deleteTemplate demoTemplateEnv "".toList demoDiskEmpty
      = (false, demoManager, demoDiskEmpty) := by
  refine ⟨by decide, by decide, by decide, ?_, ?_, ?_⟩
  · exact (C14_invalid_name_rejected demoTemplateEnv demoManager "<>|".toList "demo".toList
      Watermark.ctor demoDiskEmpty (by decide)).2.1 (by decide)
  · exact (C14_invalid_name_rejected demoTemplateEnv demoManager "   ".toList "demo".toList
      Watermark.ctor demoDiskEmpty (by decide)).2.2.1
  · exact (C14_invalid_name_rejected demoTemplateEnv demoManager "".toList "demo".toList
      Watermark.ctor demoDiskEmpty (by decide)).2.2.2

/-! ## TemplateManager: the template file read back -/

theorem digitChar_props (d : Nat) :
    (digitChar d).isDigit = true ∧ digitChar d ≠ '\n' ∧ isspace (digitChar d) = false ∧
      digitChar d ≠ '-' ∧ digitChar d ≠ '+' := by
  have h : d % 10 < 10 := Nat.mod_lt _ (by decide)
  unfold digitChar
  generalize d % 10 = r at h
  interval_cases r <;> decide

theorem decimalDigits_mem (fuel n : Nat) (c : Char) (h : c ∈ decimalDigits fuel n) :
    ∃ d, c = digitChar d := by
  induction fuel generalizing n with
  | zero => simp [decimalDigits] at h
  | succ f ih =>
    unfold decimalDigits at h
    split at h
    · exact ⟨n, by simpa using h⟩
    · rcases List.mem_append.1 h with h1 | h1
      · exact ih _ h1
      · exact ⟨n, by simpa using h1⟩

theorem decimalDigits_ne_nil (fuel n : Nat) : decimalDigits (fuel + 1) n ≠ [] := by
  unfold decimalDigits
  split <;> simp

theorem to_string_no_newline (n : Int) : '\n' ∉ to_string n := by
  intro h
  unfold to_string at h
  split at h
  · rcases List.mem_cons.1 h with h1 | h1
    · exact absurd h1 (by decide)
    · obtain ⟨d, hd⟩ := decimalDigits_mem _ _ _ h1
      exact (digitChar_props d).2.1 hd.symm
  · obtain ⟨d, hd⟩ := decimalDigits_mem _ _ _ h
    exact (digitChar_props d).2.1 hd.symm

theorem stoi_digits (ds : Str) (hne : ds ≠ []) (hall : ∀ c ∈ ds, ∃ d, c = digitChar d)
    (hrange : (decimalValue ds : Int) ≤ 2147483647) :
    stoi ds = some (decimalValue ds : Int) := by
  obtain ⟨c, t, rfl⟩ := List.exists_cons_of_ne_nil hne
  obtain ⟨d, hd⟩ := hall c (by simp)
  have hp := digitChar_props d
  rw [← hd] at hp
  have htake : (c :: t).takeWhile Char.isDigit = c :: t := by
    rw [List.takeWhile_eq_self_iff]
    intro x hx
    obtain ⟨e, he⟩ := hall x hx
    rw [he]
    exact (digitChar_props e).1
  have hdrop : (c :: t).dropWhile isspace = c :: t := by
    simp [List.dropWhile, hp.2.2.1]
  have h1 : ((some c : Option Char) == some '-') = false := by
    simpa using hp.2.2.2.1
  have h2 : ((some c : Option Char) == some '+') = false := by
    simpa using hp.2.2.2.2
  unfold stoi
  simp only [hdrop, List.head?_cons, h1, h2, Bool.or_self, Bool.false_eq_true, if_false,
    htake]
  have hnn : (0 : Int) ≤ (decimalValue (c :: t) : Int) := Int.natCast_nonneg _
  have hlow : ¬ ((decimalValue (c :: t) : Int) < -2147483648) := by omega
  have hhigh : ¬ ((decimalValue (c :: t) : Int) > 2147483647) := by omega
  simp [hlow, hhigh]

theorem stoi_minus_digits (ds : Str) (hne : ds ≠ []) (hall : ∀ c ∈ ds, ∃ d, c = digitChar d)
    (hrange : (decimalValue ds : Int) ≤ 2147483648) :
    stoi ('-' :: ds) = some (-(decimalValue ds : Int)) := by
  have htake : ds.takeWhile Char.isDigit = ds := by
    rw [List.takeWhile_eq_self_iff]
    intro x hx
    obtain ⟨e, he⟩ := hall x hx
    rw [he]
    exact (digitChar_props e).1
  have hempty : ds.isEmpty = false := by
    cases ds with
    | nil => exact absurd rfl hne
    | cons c t => rfl
  have hdrop : ('-' :: ds).dropWhile isspace = '-' :: ds := by
    rw [List.dropWhile_cons_of_neg (by decide)]
  have hh : ((some '-' : Option Char) == some '-') = true := by decide
  unfold stoi
  simp only [hdrop, List.head?_cons, hh, Bool.true_or, if_true, List.tail_cons, htake, hempty,
    Bool.false_eq_true, if_false]
  have hnn : (0 : Int) ≤ (decimalValue ds : Int) := Int.natCast_nonneg _
  have hlow : ¬ (-(decimalValue ds : Int) < -2147483648) := by omega
  have hhigh : ¬ (-(decimalValue ds : Int) > 2147483647) := by omega
  simp [hlow, hhigh]

theorem stoi_to_string (n : Int) (h1 : -2147483648 ≤ n) (h2 : n ≤ 2147483647) :
    stoi (to_string n) = some n := by
  have hval : decimalValue (decimalDigits (n.natAbs + 1) n.natAbs) = n.natAbs :=
    decimalValue_decimalDigits _ _ (by omega)
  by_cases hn : n < 0
  · have hs : to_string n = '-' :: decimalDigits (n.natAbs + 1) n.natAbs := by
      simp [to_string, hn]
    rw [hs, stoi_minus_digits _ (decimalDigits_ne_nil _ _)
      (fun x hx => decimalDigits_mem _ _ x hx) (by rw [hval]; omega), hval]
    congr 1
    omega
  · have hs : to_string n = decimalDigits (n.natAbs + 1) n.natAbs := by
      simp [to_string, hn]
    rw [hs, stoi_digits _ (decimalDigits_ne_nil _ _) (fun x hx => decimalDigits_mem _ _ x hx)
      (by rw [hval]; omega), hval]
    congr 1
    omega

theorem getlinesFrom_line (l : Str) (h : '\n' ∉ l) :
    ∀ (acc rest : Str), getlinesFrom acc (l ++ '\n' :: rest) = (acc ++ l) :: getlinesFrom [] rest := by
  induction l with
  | nil => intro acc rest; simp [getlinesFrom]
  | cons c t ih =>
    intro acc rest
    have hc : c ≠ '\n' := fun e => h (by simp [e])
    have ht : '\n' ∉ t := fun e => h (by simp [e])
    rw [List.cons_append, getlinesFrom, if_neg hc, ih ht]
    simp

theorem getlines_endl (l rest : Str) (h : '\n' ∉ l) :
    getlines (endl l ++ rest) = l :: getlines rest := by
  unfold getlines endl
  have := getlinesFrom_line l h [] rest
  simpa using this

theorem find_key (key value : Str) (h : '=' ∉ key) :
    find (key ++ '=' :: value) '=' = some key.length := by
  induction key with
  | nil => simp [find]
  | cons c t ih =>
    have hc : c ≠ '=' := fun e => h (by simp [e])
    have ht : '=' ∉ t := fun e => h (by simp [e])
    simp [find, hc, ih ht]

/-- One `key=value` line inside the watermark section. -/
theorem readLoop_keyValue {W : Type} (env : TemplateEnv W) (key value : Str)
    (rest : List Str) (watermark : Watermark) (hne : key ≠ []) (h : '=' ∉ key) :
    TemplateManager.readLoop env ((key ++ '=' :: value) :: rest) true watermark
      = match TemplateManager.applyProperty env watermark key value with
        | none => (false, watermark)
        | some updated => TemplateManager.readLoop env rest true updated := by
  obtain ⟨c, t, rfl⟩ := List.exists_cons_of_ne_nil hne
  have h1 : ((c :: t) ++ '=' :: value).isEmpty = false := rfl
  have h2 : (c :: t) ++ '=' :: value ≠ "[".toList := by
    intro e
    have := congrArg List.length e
    simp at this
  have h3 : (c :: t) ++ '=' :: value ≠ "]".toList := by
    intro e
    have := congrArg List.length e
    simp at this
  have h4 : substr ((c :: t) ++ '=' :: value) 0 (c :: t).length = c :: t := by
    unfold substr
    rw [List.drop_zero, List.take_left']
    rfl
  have h5 : ((c :: t) ++ '=' :: value).drop ((c :: t).length + 1) = value := by
    rw [← List.drop_drop, List.drop_left']
    · rfl
    · rfl
  rw [TemplateManager.readLoop]
  simp only [h1, Bool.false_eq_true, if_false, h2, h3, if_true, find_key _ _ h, h4, h5]

/-- A line outside the watermark section that is neither `[` nor `]` is passed over. -/
theorem readLoop_skip {W : Type} (env : TemplateEnv W) (line : Str) (rest : List Str)
    (watermark : Watermark) (h1 : line ≠ "[".toList) (h2 : line ≠ "]".toList) :
    TemplateManager.readLoop env (line :: rest) false watermark
      = TemplateManager.readLoop env rest false watermark := by
  have h3 : line ≠ ['['] := h1
  have h4 : line ≠ [']'] := h2
  rw [TemplateManager.readLoop]
  by_cases he : line.isEmpty = true
  · simp [he]
  · simp [he, h3, h4]

theorem applyProperty_Text {W : Type} (env : TemplateEnv W) (wm : Watermark) (v : Str) :
    TemplateManager.applyProperty env wm "Text".toList v = some (wm.setText v) := rfl

theorem applyProperty_FontName {W : Type} (env : TemplateEnv W) (wm : Watermark) (v : Str) :
    TemplateManager.applyProperty env wm "FontName".toList v = some (wm.setFontName v) := rfl

theorem applyProperty_FontSize {W : Type} (env : TemplateEnv W) (wm : Watermark) (v : Str) :
    TemplateManager.applyProperty env wm "FontSize".toList v
      = (stoi v).map (fun n => wm.setFontSize n) := rfl

theorem applyProperty_IsBold {W : Type} (env : TemplateEnv W) (wm : Watermark) (v : Str) :
    TemplateManager.applyProperty env wm "IsBold".toList v
      = some (wm.setBold (v == "true".toList)) := rfl

theorem applyProperty_IsItalic {W : Type} (env : TemplateEnv W) (wm : Watermark) (v : Str) :
    TemplateManager.applyProperty env wm "IsItalic".toList v
      = some (wm.setItalic (v == "true".toList)) := rfl

theorem applyProperty_ColorR {W : Type} (env : TemplateEnv W) (wm : Watermark) (v : Str) :
    TemplateManager.applyProperty env wm "ColorR".toList v
      = (stoi v).map (fun n => wm.setColor { wm.getColor with r := n }) := rfl

theorem applyProperty_ColorG {W : Type} (env : TemplateEnv W) (wm : Watermark) (v : Str) :
    TemplateManager.applyProperty env wm "ColorG".toList v
      = (stoi v).map (fun n => wm.setColor { wm.getColor with g := n }) := rfl

theorem applyProperty_ColorB {W : Type} (env : TemplateEnv W) (wm : Watermark) (v : Str) :
    TemplateManager.applyProperty env wm "ColorB".toList v
      = (stoi v).map (fun n => wm.setColor { wm.getColor with b := n }) := rfl

theorem applyProperty_ColorA {W : Type} (env : TemplateEnv W) (wm : Watermark) (v : Str) :
    TemplateManager.applyProperty env wm "ColorA".toList v
      = (stoi v).map (fun n => wm.setColor { wm.getColor with a := n }) := rfl

theorem applyProperty_Opacity {W : Type} (env : TemplateEnv W) (wm : Watermark) (v : Str) :
    TemplateManager.applyProperty env wm "Opacity".toList v
      = (env.stof v).map (fun x => wm.setOpacity x) := rfl

theorem applyProperty_PositionX {W : Type} (env : TemplateEnv W) (wm : Watermark) (v : Str) :
    TemplateManager.applyProperty env wm "PositionX".toList v
      = (stoi v).map (fun n => wm.setPosition n wm.getPositionY) := rfl

theorem applyProperty_PositionY {W : Type} (env : TemplateEnv W) (wm : Watermark) (v : Str) :
    TemplateManager.applyProperty env wm "PositionY".toList v
      = (stoi v).map (fun n => wm.setPosition wm.getPositionX n) := rfl

theorem applyProperty_RotationAngle {W : Type} (env : TemplateEnv W) (wm : Watermark)
    (v : Str) :
    TemplateManager.applyProperty env wm "RotationAngle".toList v
      = (env.stof v).map (fun x => wm.setRotationAngle x) := rfl

theorem readLoop_property {W : Type} (env : TemplateEnv W) (key value line : Str)
    (rest : List Str) (watermark : Watermark) (hline : line = key ++ '=' :: value)
    (hne : key ≠ []) (h : '=' ∉ key) :
    TemplateManager.readLoop env (line :: rest) true watermark
      = match TemplateManager.applyProperty env watermark key value with
        | none => (false, watermark)
        | some updated => TemplateManager.readLoop env rest true updated := by
  rw [hline]
  exact readLoop_keyValue env key value rest watermark hne h

theorem readLoop_open {W : Type} (env : TemplateEnv W) (rest : List Str) (b : Bool)
    (watermark : Watermark) :
    TemplateManager.readLoop env ("[".toList :: rest) b watermark
      = TemplateManager.readLoop env rest true watermark := by
  rw [TemplateManager.readLoop]
  rfl

theorem readLoop_close {W : Type} (env : TemplateEnv W) (rest : List Str) (b : Bool)
    (watermark : Watermark) :
    TemplateManager.readLoop env ("]".toList :: rest) b watermark = (true, watermark) := by
  rw [TemplateManager.readLoop]
  rfl

theorem padZero_no_newline (k : Nat) (s : Str) (h : '\n' ∉ s) : '\n' ∉ padZero k s := by
  unfold padZero
  intro hm
  rcases List.mem_append.1 hm with h1 | h1
  · have := List.eq_of_mem_replicate h1
    exact absurd this (by decide)
  · exact h h1

theorem dateTime_no_newline {W : Type} (env : TemplateEnv W) (w : W) :
    '\n' ∉ TemplateManager.getCurrentDateTimeString env w := by
  unfold TemplateManager.getCurrentDateTimeString
  intro hm
  simp only [List.mem_append] at hm
  have hp : ∀ (k n : Nat), '\n' ∉ padZero k (to_string (n : Int)) :=
    fun k n => padZero_no_newline k _ (to_string_no_newline _)
  rcases hm with ((((((((((h | h) | h) | h) | h) | h) | h) | h) | h) | h) | h)
  · exact hp _ _ h
  · exact absurd h (by decide)
  · exact hp _ _ h
  · exact absurd h (by decide)
  · exact hp _ _ h
  · exact absurd h (by decide)
  · exact hp _ _ h
  · exact absurd h (by decide)
  · exact hp _ _ h
  · exact absurd h (by decide)
  · exact hp _ _ h

theorem key_line_no_newline (key value : Str) (hk : '\n' ∉ key) (hv : '\n' ∉ value) :
    '\n' ∉ key ++ value := by
  intro hm
  rcases List.mem_append.1 hm with h | h
  · exact hk h
  · exact hv h

/-- The lines that the reading loop sees for the text written by `saveTemplate`. -/
theorem getlines_templateText {W : Type} (env : TemplateEnv W) (w : W)
    (sanitizedName description : Str) (saved : Watermark)
    (hn : '\n' ∉ sanitizedName) (hd : '\n' ∉ description)
    (ht : '\n' ∉ saved.text) (hf : '\n' ∉ saved.fontName)
    (ho : '\n' ∉ env.showFloat saved.opacity)
    (hr : '\n' ∉ env.showFloat saved.rotationAngle) :
    getlines (TemplateManager.templateText env w sanitizedName description saved)
      = [ "[Template]".toList,
          "Name=".toList ++ sanitizedName,
          "Description=".toList ++ description,
          "LastModified=".toList ++ TemplateManager.getCurrentDateTimeString env w,
          "[".toList,
          "Text=".toList ++ saved.getText,
          "FontName=".toList ++ saved.getFontName,
          "FontSize=".toList ++ to_string saved.getFontSize,
          "IsBold=".toList ++ (if saved.getBold then "true".toList else "false".toList),
          "IsItalic=".toList ++ (if saved.getItalic then "true".toList else "false".toList),
          "ColorR=".toList ++ to_string saved.getColor.r,
          "ColorG=".toList ++ to_string saved.getColor.g,
          "ColorB=".toList ++ to_string saved.getColor.b,
          "ColorA=".toList ++ to_string saved.getColor.a,
          "Opacity=".toList ++ env.showFloat saved.getOpacity,
          "PositionX=".toList ++ to_string saved.getPositionX,
          "PositionY=".toList ++ to_string saved.getPositionY,
          "RotationAngle=".toList ++ env.showFloat saved.getRotationAngle,
          "]".toList ] := by
  have hb1 : '\n' ∉ (if saved.getBold then "true".toList else "false".toList) := by
    cases saved.getBold <;> decide
  have hb2 : '\n' ∉ (if saved.getItalic then "true".toList else "false".toList) := by
    cases saved.getItalic <;> decide
  have hlast : getlines (endl "]".toList) = ["]".toList] := by decide
  have ht : '\n' ∉ saved.getText := ht
  have hf : '\n' ∉ saved.getFontName := hf
  have ho : '\n' ∉ env.showFloat saved.getOpacity := ho
  have hr : '\n' ∉ env.showFloat saved.getRotationAngle := hr
  unfold TemplateManager.templateText TemplateManager.templateHeader
    TemplateManager.templateBody
  simp only [List.append_assoc]
  rw [getlines_endl _ _ (by decide),
    getlines_endl _ _ (key_line_no_newline _ _ (by decide) hn),
    getlines_endl _ _ (key_line_no_newline _ _ (by decide) hd),
    getlines_endl _ _ (key_line_no_newline _ _ (by decide) (dateTime_no_newline env w)),
    getlines_endl _ _ (by decide),
    getlines_endl _ _ (key_line_no_newline _ _ (by decide) ht),
    getlines_endl _ _ (key_line_no_newline _ _ (by decide) hf),
    getlines_endl _ _ (key_line_no_newline _ _ (by decide) (to_string_no_newline _)),
    getlines_endl _ _ (key_line_no_newline _ _ (by decide) hb1),
    getlines_endl _ _ (key_line_no_newline _ _ (by decide) hb2),
    getlines_endl _ _ (key_line_no_newline _ _ (by decide) (to_string_no_newline _)),
    getlines_endl _ _ (key_line_no_newline _ _ (by decide) (to_string_no_newline _)),
    getlines_endl _ _ (key_line_no_newline _ _ (by decide) (to_string_no_newline _)),
    getlines_endl _ _ (key_line_no_newline _ _ (by decide) (to_string_no_newline _)),
    getlines_endl _ _ (key_line_no_newline _ _ (by decide) ho),
    getlines_endl _ _ (key_line_no_newline _ _ (by decide) (to_string_no_newline _)),
    getlines_endl _ _ (key_line_no_newline _ _ (by decide) (to_string_no_newline _)),
    getlines_endl _ _ (key_line_no_newline _ _ (by decide) hr),
    hlast]

/-- The reading loop, run on the text that `saveTemplate` writes for `saved`, makes the
setter calls of `TemplateManager.replay` and ends normally. -/
theorem readLoop_templateText {W : Type} (env : TemplateEnv W) (w : W)
    (sanitizedName description : Str) (saved start : Watermark)
    (hn : '\n' ∉ sanitizedName) (hd : '\n' ∉ description)
    (ht : '\n' ∉ saved.text) (hf : '\n' ∉ saved.fontName)
    (ho : '\n' ∉ env.showFloat saved.opacity)
    (hr : '\n' ∉ env.showFloat saved.rotationAngle)
    (hints : saved.intsInRange)
    (hso : env.stof (env.showFloat saved.opacity) = some saved.opacity)
    (hsr : env.stof (env.showFloat saved.rotationAngle) = some saved.rotationAngle) :
    TemplateManager.readLoop env
        (getlines (TemplateManager.templateText env w sanitizedName description saved))
        false start
      = (true, TemplateManager.replay start saved) := by
  obtain ⟨hi1, hi2, hi3, hi4, hi5, hi6, hi7⟩ := hints
  have hbold : ((if saved.getBold then "true".toList else "false".toList) == "true".toList)
      = saved.getBold := by
    cases saved.getBold <;> decide
  have hitalic : ((if saved.getItalic then "true".toList else "false".toList)
      == "true".toList) = saved.getItalic := by
    cases saved.getItalic <;> decide
  have hso2 : env.stof (env.showFloat saved.getOpacity) = some saved.getOpacity := hso
  have hsr2 : env.stof (env.showFloat saved.getRotationAngle) = some saved.getRotationAngle :=
    hsr
  rw [getlines_templateText env w sanitizedName description saved hn hd ht hf ho hr]
  rw [readLoop_skip env _ _ _ (by decide) (by decide),
    readLoop_skip env _ _ _ (by simp) (by simp),
    readLoop_skip env _ _ _ (by simp) (by simp),
    readLoop_skip env _ _ _ (by simp) (by simp),
    readLoop_open]
  rw [readLoop_property env "Text".toList
      saved.getText
      ("Text=".toList ++ saved.getText) _ _ rfl (by decide) (by decide),
    applyProperty_Text]
  simp only []
  rw [readLoop_property env "FontName".toList
      saved.getFontName
      ("FontName=".toList ++ saved.getFontName) _ _ rfl (by decide)
      (by decide), applyProperty_FontName]
  simp only []
  rw [readLoop_property env "FontSize".toList
      (to_string saved.getFontSize)
      ("FontSize=".toList ++ (to_string saved.getFontSize)) _ _ rfl
      (by decide) (by decide), applyProperty_FontSize, 
    (show stoi (to_string saved.getFontSize) = some saved.getFontSize from stoi_to_string _ hi1.1 hi1.2)]
  simp only [Option.map_some']
  rw [readLoop_property env "IsBold".toList
      (if saved.getBold then "true".toList else "false".toList)
      ("IsBold=".toList ++ (if saved.getBold then "true".toList else "false".toList)) _ _ rfl (by decide) (by decide),
    applyProperty_IsBold, hbold]
  simp only []
  rw [readLoop_property env "IsItalic".toList
      (if saved.getItalic then "true".toList else "false".toList)
      ("IsItalic=".toList ++ (if saved.getItalic then "true".toList else "false".toList)) _ _ rfl (by decide) (by decide),
    applyProperty_IsItalic, hitalic]
  simp only []
  rw [readLoop_property env "ColorR".toList
      (to_string saved.getColor.r)
      ("ColorR=".toList ++ (to_string saved.getColor.r)) _ _ rfl
      (by decide) (by decide), applyProperty_ColorR, 
    (show stoi (to_string saved.getColor.r) = some saved.getColor.r from stoi_to_string _ hi2.1 hi2.2)]
  simp only [Option.map_some']
  rw [readLoop_property env "ColorG".toList
      (to_string saved.getColor.g)
      ("ColorG=".toList ++ (to_string saved.getColor.g)) _ _ rfl
      (by decide) (by decide), applyProperty_ColorG, 
    (show stoi (to_string saved.getColor.g) = some saved.getColor.g from stoi_to_string _ hi3.1 hi3.2)]
  simp only [Option.map_some']
  rw [readLoop_property env "ColorB".toList
      (to_string saved.getColor.b)
      ("ColorB=".toList ++ (to_string saved.getColor.b)) _ _ rfl
      (by decide) (by decide), applyProperty_ColorB, 
    (show stoi (to_string saved.getColor.b) = some saved.getColor.b from stoi_to_string _ hi4.1 hi4.2)]
  simp only [Option.map_some']
  rw [readLoop_property env "ColorA".toList
      (to_string saved.getColor.a)
      ("ColorA=".toList ++ (to_string saved.getColor.a)) _ _ rfl
      (by decide) (by decide), applyProperty_ColorA, 
    (show stoi (to_string saved.getColor.a) = some saved.getColor.a from stoi_to_string _ hi5.1 hi5.2)]
  simp only [Option.map_some']
  rw [readLoop_property env "Opacity".toList
      (env.showFloat saved.getOpacity)
      ("Opacity=".toList ++ (env.showFloat saved.getOpacity)) _ _ rfl
      (by decide) (by decide), applyProperty_Opacity, hso2]
  simp only [Option.map_some']
  rw [readLoop_property env "PositionX".toList
      (to_string saved.getPositionX)
      ("PositionX=".toList ++ (to_string saved.getPositionX)) _ _ rfl
      (by decide) (by decide), applyProperty_PositionX, 
    (show stoi (to_string saved.getPositionX) = some saved.getPositionX from stoi_to_string _ hi6.1 hi6.2)]
  simp only [Option.map_some']
  rw [readLoop_property env "PositionY".toList
      (to_string saved.getPositionY)
      ("PositionY=".toList ++ (to_string saved.getPositionY)) _ _ rfl
      (by decide) (by decide), applyProperty_PositionY, 
    (show stoi (to_string saved.getPositionY) = some saved.getPositionY from stoi_to_string _ hi7.1 hi7.2)]
  simp only [Option.map_some']
  rw [readLoop_property env "RotationAngle".toList
      (env.showFloat saved.getRotationAngle)
      ("RotationAngle=".toList ++ env.showFloat saved.getRotationAngle) _ _ rfl (by decide) (by decide), applyProperty_RotationAngle, hsr2]
  simp only [Option.map_some']
  rw [readLoop_close]
  rfl

/-- With a positive font size and an opacity in [0, 1] the replayed setter calls rebuild
`saved` in every member except the colour alpha, which `setOpacity` derives from the
opacity. -/
theorem replay_eq (start saved : Watermark) (hsize : 0 < saved.fontSize)
    (hop0 : 0 ≤ saved.opacity) (hop1 : saved.opacity ≤ 1) :
    TemplateManager.replay start saved
      = { saved with color := { saved.color with a := truncToInt (saved.opacity * 255) } } := by
  have h0 : ¬ saved.opacity < 0 := not_lt.mpr hop0
  have h1 : ¬ saved.opacity > 1 := not_lt.mpr hop1
  simp [TemplateManager.replay, Watermark.setText, Watermark.setFontName,
    Watermark.setFontSize, Watermark.setBold, Watermark.setItalic, Watermark.setColor,
    Watermark.setOpacity, Watermark.setPosition, Watermark.setRotationAngle,
    Watermark.getText, Watermark.getFontName, Watermark.getFontSize, Watermark.getBold,
    Watermark.getItalic, Watermark.getColor, Watermark.getOpacity, Watermark.getPositionX,
    Watermark.getPositionY, Watermark.getRotationAngle, hsize, h0, h1]

/-- C12, as stated, fails.  The default watermark (alpha 128, opacity 0.5), saved and
read back by a fresh manager, comes back with alpha 127: `ColorA=128` is read first and
the later `Opacity=0.5` makes `setOpacity` overwrite the alpha with the truncation of
127.5.  A watermark built with font size 0 comes back with font size 24, the size of the
caller's watermark, since `setFontSize` ignores a size that is not positive; and one built
with opacity 2 comes back with opacity 1. -/
theorem C12_counterexample_default_alpha :
    (demoReload Watermark.ctor).1 = true ∧
    Watermark.ctor.getColor.a = 128 ∧
    (demoReload Watermark.ctor).2.1.getColor.a = 127 ∧
    (demoReload Watermark.ctor).2.1 ≠ Watermark.ctor ∧
    (demoReload (Watermark.ctor10 "x".toList "Arial".toList 0 false false ⟨0, 0, 0, 127⟩
      (1 / 2) 0 0 0)).1 = true ∧
    (demoReload (Watermark.ctor10 "x".toList "Arial".toList 0 false false ⟨0, 0, 0, 127⟩
      (1 / 2) 0 0 0)).2.1.getFontSize = 24 ∧
    (demoReload (Watermark.ctor10 "x".toList "Arial".toList 24 false false ⟨0, 0, 0, 255⟩
      2 0 0 0)).2.1.getOpacity = 1 := by
  refine ⟨?_, rfl, ?_, ?_, ?_, ?_, ?_⟩ <;> with_unfolding_all decide

/-- C12, amended: let the template file hold what `saveTemplate` wrote for `saved` under
a name and description without line breaks, and let a manager that does not hold the
name in its map load it.  If the text and font name of `saved` contain no line break, its
font size is positive, its opacity lies in [0, 1], and the stream's text for its opacity
and rotation angle contains no line break and is read back by `std::stof` as the same
value, then `loadTemplate` returns `true` and the caller's watermark, whatever it was
before, agrees with `saved` in text, font name, font size, bold, italic, ColorR, ColorG,
ColorB, opacity, position x, position y and rotation angle. -/
theorem C12_disk_round_trip {W : Type} (env : TemplateEnv W) (tm : TemplateManager)
    (name description : Str) (saved start : Watermark) (w1 w2 : W)
    (hname : TemplateManager.sanitizeTemplateName name ≠ [])
    (hfresh : mapFind tm.templates (TemplateManager.sanitizeTemplateName name) = none)
    (hexists : env.fsExists w2
      (tm.getTemplateFilePath (TemplateManager.sanitizeTemplateName name)) = true)
    (hfile : env.readFile w2
      (tm.getTemplateFilePath (TemplateManager.sanitizeTemplateName name))
        = some (TemplateManager.templateText env w1
            (TemplateManager.sanitizeTemplateName name) description saved))
    (hn : '\n' ∉ TemplateManager.sanitizeTemplateName name) (hd : '\n' ∉ description)
    (ht : '\n' ∉ saved.text) (hf : '\n' ∉ saved.fontName)
    (ho : '\n' ∉ env.showFloat saved.opacity)
    (hr : '\n' ∉ env.showFloat saved.rotationAngle)
    (hints : saved.intsInRange)
    (hso : env.stof (env.showFloat saved.opacity) = some saved.opacity)
    (hsr : env.stof (env.showFloat saved.rotationAngle) = some saved.rotationAngle)
    (hsize : 0 < saved.fontSize) (hop0 : 0 ≤ saved.opacity) (hop1 : saved.opacity ≤ 1) :
    (tm.loadTemplate env name start w2).1 = true ∧
    (tm.loadTemplate env name start w2).2.1.getText = saved.getText ∧
    (tm.loadTemplate env name start w2).2.1.getFontName = saved.getFontName ∧
    (tm.loadTemplate env name start w2).2.1.getFontSize = saved.getFontSize ∧
    (tm.loadTemplate env name start w2).2.1.getBold = saved.getBold ∧
    (tm.loadTemplate env name start w2).2.1.getItalic = saved.getItalic ∧
    (tm.loadTemplate env name start w2).2.1.getColor.r = saved.getColor.r ∧
    (tm.loadTemplate env name start w2).2.1.getColor.g = saved.getColor.g ∧
    (tm.loadTemplate env name start w2).2.1.getColor.b = saved.getColor.b ∧
    (tm.loadTemplate env name start w2).2.1.getOpacity = saved.getOpacity ∧
    (tm.loadTemplate env name start w2).2.1.getPositionX = saved.getPositionX ∧
    (tm.loadTemplate env name start w2).2.1.getPositionY = saved.getPositionY ∧
    (tm.loadTemplate env name start w2).2.1.getRotationAngle = saved.getRotationAngle := by
  have hempty : (TemplateManager.sanitizeTemplateName name).isEmpty = false := by
    cases hs : TemplateManager.sanitizeTemplateName name with
    | nil => exact absurd hs hname
    | cons c t => rfl
  have hloop := readLoop_templateText env w1 (TemplateManager.sanitizeTemplateName name)
    description saved start hn hd ht hf ho hr hints hso hsr
  have hload : tm.loadTemplate env name start w2
      = (true, TemplateManager.replay start saved,
          { tm with templates := (mapAssign tm.templates
              (TemplateManager.sanitizeTemplateName name)
              (TemplateManager.replay start saved)) }) := by
    unfold TemplateManager.loadTemplate
    simp only [hempty, Bool.false_eq_true, if_false, hfresh, hexists, Bool.not_true, hfile,
      hloop, if_true]
  rw [hload, replay_eq start saved hsize hop0 hop1]
  exact ⟨rfl, rfl, rfl, rfl, rfl, rfl, rfl, rfl, rfl, rfl, rfl, rfl, rfl⟩

/-- C12, witness on the toy disk: the watermark `demoWatermark` is saved under the name
`Demo` and read back by a fresh manager. -/
theorem C12_disk_round_trip_witness :
    (demoReload demoWatermark).1 = true ∧
    (demoReload demoWatermark).2.1.getText = "Hello".toList ∧
    (demoReload demoWatermark).2.1.getFontSize = 30 ∧
    (demoReload demoWatermark).2.1.getBold = true ∧
    (demoReload demoWatermark).2.1.getColor.g = 20 ∧
    (demoReload demoWatermark).2.1.getOpacity = 1 / 2 ∧
    (demoReload demoWatermark).2.1.getPositionY = 6 ∧
    (demoReload demoWatermark).2.1.getRotationAngle = 90 := by
  have h := C12_disk_round_trip demoTemplateEnv demoManager "Demo".toList "demo".toList
    demoWatermark Watermark.ctor demoDiskEmpty (demoSavedDisk demoWatermark)
    (by decide) (by decide) (by with_unfolding_all decide) (by with_unfolding_all rfl)
    (by decide) (by decide) (by decide) (by decide)
    (by with_unfolding_all decide) (by with_unfolding_all decide)
    (by unfold Watermark.intsInRange; decide)
    (by with_unfolding_all decide) (by with_unfolding_all decide)
    (by decide) (by with_unfolding_all decide) (by with_unfolding_all decide)
  exact ⟨h.1, h.2.1, h.2.2.2.1, h.2.2.2.2.1, h.2.2.2.2.2.2.2.1, h.2.2.2.2.2.2.2.2.2.1,
    h.2.2.2.2.2.2.2.2.2.2.2.1, h.2.2.2.2.2.2.2.2.2.2.2.2⟩

/-! ## Watermark: the invariants of the value object -/

theorem setFontSize_of_nonpos (w : Watermark) (size : Int) (h : size ≤ 0) :
    w.setFontSize size = w := by
  unfold Watermark.setFontSize
  rw [if_neg (by omega)]

theorem setFontSize_fontSize_pos (w : Watermark) (size : Int) (h : 0 < w.fontSize) :
    0 < (w.setFontSize size).fontSize := by
  unfold Watermark.setFontSize
  split
  · rename_i hs
    exact hs
  · exact h

/-- When the ten-argument constructor is only given positive sizes, every obtainable
watermark has a positive font size. -/
theorem fontSize_pos_of_obtainable (colOk : Color → Prop) (opacOk : ℚ → Prop) (w : Watermark)
    (h : Watermark.ObtainableWhere (fun size => 0 < size) colOk opacOk w) :
    0 < w.getFontSize := by
  unfold Watermark.getFontSize
  induction h with
  | ctor => decide
  | ctor10 txt font size bold italic col opac posX posY rotAngle hs _ _ => exact hs
  | resetToDefault w _ _ =>
    show (0 : Int) < 24
    decide
  | setText w txt _ ih => exact ih
  | setFontName w font _ ih => exact ih
  | setFontSize w size _ ih => exact setFontSize_fontSize_pos w size ih
  | setBold w bold _ ih => exact ih
  | setItalic w italic _ ih => exact ih
  | setColor w col _ _ ih => exact ih
  | setOpacity w opac _ ih => exact ih
  | setOpacityPercentage w percent _ ih => exact ih
  | setPosition w x y _ ih => exact ih
  | setRotationAngle w angle _ ih => exact ih

/-- C21: the ten-argument constructor stores the size it is given without the test that
`setFontSize` makes.  The watermark built with size 0 is obtainable through the public
interface and has `getFontSize() = 0`; `applyWatermark` on a loaded surface accepts it and
draws it (in the toy platform, where the wide strings of `drawTextWatermark` are built).
`setFontSize(0)` and `setFontSize(-3)` leave it unchanged, as they leave every
watermark. -/
theorem C21_ctor10_accepts_zero_font_size :
    Watermark.Obtainable
      (Watermark.ctor10 "x".toList "Arial".toList 0 false false ⟨0, 0, 0, 255⟩ (1 / 2) 0 0 0) ∧
    (Watermark.ctor10 "x".toList "Arial".toList 0 false false ⟨0, 0, 0, 255⟩ (1 / 2) 0 0
      0).getFontSize = 0 ∧
    ¬ 0 < (Watermark.ctor10 "x".toList "Arial".toList 0 false false ⟨0, 0, 0, 255⟩ (1 / 2) 0 0
      0).getFontSize ∧
    ((demoLoad demoWorldTwoFolders "C:\\a\\x.jpg".toList).applyWatermark demoPlatform
      demoWorldTwoFolders
      (Watermark.ctor10 "x".toList "Arial".toList 0 false false ⟨0, 0, 0, 255⟩ (1 / 2) 0 0
        0)).map (fun r => r.1) = some true ∧
    ((demoLoad demoWorldTwoFolders "C:\\a\\x.jpg".toList).applyWatermark demoPlatform
      demoWorldTwoFolders
      (Watermark.ctor10 "x".toList "Arial".toList 0 false false ⟨0, 0, 0, 255⟩ (1 / 2) 0 0
        0)).map (fun r => r.2.drawn)
      = some [Watermark.ctor10 "x".toList "Arial".toList 0 false false ⟨0, 0, 0, 255⟩ (1 / 2) 0
        0 0] ∧
    (Watermark.ctor10 "x".toList "Arial".toList 0 false false ⟨0, 0, 0, 255⟩ (1 / 2) 0 0
      0).setFontSize 0
      = Watermark.ctor10 "x".toList "Arial".toList 0 false false ⟨0, 0, 0, 255⟩ (1 / 2) 0 0 0 ∧
    (Watermark.ctor10 "x".toList "Arial".toList 0 false false ⟨0, 0, 0, 255⟩ (1 / 2) 0 0
      0).setFontSize (-3)
      = Watermark.ctor10 "x".toList "Arial".toList 0 false false ⟨0, 0, 0, 255⟩ (1 / 2) 0 0
        0 := by
  refine ⟨Watermark.ObtainableWhere.ctor10 _ _ _ _ _ _ _ _ _ _ trivial trivial trivial,
    rfl, by decide, by decide, ?_, rfl, rfl⟩
  with_unfolding_all decide

theorem truncToInt_scaled_range (x : ℚ) (h0 : 0 ≤ x) (h1 : x ≤ 1) :
    0 ≤ truncToInt (x * 255) ∧ truncToInt (x * 255) ≤ 255 := by
  have hx : (0 : ℚ) ≤ x * 255 := by positivity
  rw [truncToInt_of_nonneg _ hx]
  refine ⟨Int.floor_nonneg.mpr hx, ?_⟩
  have h2 : ((Int.floor (x * 255) : Int) : ℚ) ≤ ((255 : Int) : ℚ) := by
    have := Int.floor_le (x * 255)
    push_cast
    linarith
  exact_mod_cast h2

theorem setOpacity_range (w : Watermark) (opac : ℚ) :
    opacityInRange (w.setOpacity opac).getOpacity ∧
    0 ≤ (w.setOpacity opac).getColor.a ∧ (w.setOpacity opac).getColor.a ≤ 255 := by
  have key : ∀ y : ℚ, y = (if (if opac < 0 then 0 else opac) > 1 then 1
      else (if opac < 0 then 0 else opac)) → 0 ≤ y ∧ y ≤ 1 := by
    intro y hy
    subst hy
    by_cases h0 : opac < 0
    · simp only [h0, if_true]
      norm_num
    · by_cases h1 : opac > 1
      · simp only [h0, h1, if_true, if_false]
        norm_num
      · simp only [h0, h1, if_false]
        exact ⟨not_lt.mp h0, not_lt.mp h1⟩
  have hr := key _ rfl
  have ha := truncToInt_scaled_range _ hr.1 hr.2
  exact ⟨hr, ha.1, ha.2⟩

theorem setOpacityPercentage_range (w : Watermark) (percent : Int) :
    opacityInRange (w.setOpacityPercentage percent).getOpacity ∧
    0 ≤ (w.setOpacityPercentage percent).getColor.a ∧
    (w.setOpacityPercentage percent).getColor.a ≤ 255 := by
  have key : ∀ n : Int, n = (if (if percent < 0 then 0 else percent) > 100 then 100
      else (if percent < 0 then 0 else percent)) → 0 ≤ n ∧ n ≤ 100 := by
    intro n hn
    subst hn
    split_ifs <;> omega
  have hn := key _ rfl
  have hr : (0 : ℚ) ≤ ((if (if percent < 0 then 0 else percent) > 100 then 100
      else (if percent < 0 then 0 else percent) : Int) : ℚ) / 100 ∧
      ((if (if percent < 0 then 0 else percent) > 100 then 100
      else (if percent < 0 then 0 else percent) : Int) : ℚ) / 100 ≤ 1 := by
    constructor
    · apply div_nonneg
      · exact_mod_cast hn.1
      · norm_num
    · rw [div_le_one (by norm_num)]
      exact_mod_cast hn.2
  have ha := truncToInt_scaled_range _ hr.1 hr.2
  exact ⟨hr, ha.1, ha.2⟩

/-- C22, as stated, fails: `setColor` stores the colour it is given, so after
`setColor(Color(300, -5, 0, 999))` on the default watermark the red channel is 300, the
green channel is -5 and alpha is 999; the ten-argument constructor likewise stores the
colour (and an opacity of 2) as given. -/
theorem C22_counterexample_unclamped_colour :
    Watermark.Obtainable (Watermark.ctor.setColor ⟨300, -5, 0, 999⟩) ∧
    (Watermark.ctor.setColor ⟨300, -5, 0, 999⟩).getColor.r = 300 ∧
    (Watermark.ctor.setColor ⟨300, -5, 0, 999⟩).getColor.g = -5 ∧
    (Watermark.ctor.setColor ⟨300, -5, 0, 999⟩).getColor.a = 999 ∧
    ¬ (Watermark.ctor.setColor ⟨300, -5, 0, 999⟩).getColor.inRange ∧
    Watermark.Obtainable
      (Watermark.ctor10 "x".toList "Arial".toList 24 false false ⟨256, 0, 0, 255⟩ 2 0 0 0) ∧
    (Watermark.ctor10 "x".toList "Arial".toList 24 false false ⟨256, 0, 0, 255⟩ 2 0 0
      0).getColor.r = 256 ∧
    (Watermark.ctor10 "x".toList "Arial".toList 24 false false ⟨256, 0, 0, 255⟩ 2 0 0
      0).getOpacity = 2 := by
  refine ⟨Watermark.ObtainableWhere.setColor _ _ Watermark.ObtainableWhere.ctor trivial,
    rfl, rfl, rfl, ?_,
    Watermark.ObtainableWhere.ctor10 _ _ _ _ _ _ _ _ _ _ trivial trivial trivial, rfl, rfl⟩
  intro h
  exact absurd h.1.2 (by decide)

/-- C22, amended: `setOpacity`, given any finite value, and `setOpacityPercentage`, given
any integer, leave the opacity in [0, 1] and alpha in [0, 255]; `setColor` and the
ten-argument constructor store the colour as given.  For every watermark obtainable
through the constructors and setters where `setOpacity` is given finite values, the
ten-argument constructor is given an opacity in [0, 1] and it and `setColor` are given
colours with channels in [0, 255], `getOpacity()` lies in [0, 1] and each of
`getColor().r`, `g`, `b`, `a` lies in [0, 255].  The opacity ranges over the rational
numbers here, so a NaN, which would pass both comparisons of `setOpacity`, is not
covered. -/
theorem C22_ranges_kept (w : Watermark)
    (h : Watermark.ObtainableWhere (fun _ => True) Color.inRange opacityInRange w) :
    (opacityInRange w.getOpacity ∧ w.getColor.inRange) ∧
    (∀ (v : Watermark) (opac : ℚ),
      opacityInRange (v.setOpacity opac).getOpacity ∧
      0 ≤ (v.setOpacity opac).getColor.a ∧ (v.setOpacity opac).getColor.a ≤ 255) ∧
    (∀ (v : Watermark) (percent : Int),
      opacityInRange (v.setOpacityPercentage percent).getOpacity ∧
      0 ≤ (v.setOpacityPercentage percent).getColor.a ∧
      (v.setOpacityPercentage percent).getColor.a ≤ 255) ∧
    (∀ (v : Watermark) (col : Color), (v.setColor col).getColor = col) := by
  refine ⟨?_, setOpacity_range, setOpacityPercentage_range, fun _ _ => rfl⟩
  induction h with
  | ctor =>
    refine ⟨?_, ?_⟩
    · unfold opacityInRange Watermark.getOpacity Watermark.ctor
      norm_num
    · unfold Color.inRange Watermark.getColor Watermark.ctor
      decide
  | ctor10 txt font size bold italic col opac posX posY rotAngle _ hc ho => exact ⟨ho, hc⟩
  | resetToDefault w _ _ =>
    refine ⟨?_, ?_⟩
    · unfold opacityInRange Watermark.getOpacity Watermark.resetToDefault
      norm_num
    · unfold Color.inRange Watermark.getColor Watermark.resetToDefault
      decide
  | setText w txt _ ih => exact ih
  | setFontName w font _ ih => exact ih
  | setFontSize w size _ ih =>
    unfold Watermark.setFontSize
    split
    · exact ih
    · exact ih
  | setBold w bold _ ih => exact ih
  | setItalic w italic _ ih => exact ih
  | setColor w col _ hc ih => exact ⟨ih.1, hc⟩
  | setOpacity w opac _ ih =>
    have hs := setOpacity_range w opac
    exact ⟨hs.1, ih.2.1, ih.2.2.1, ih.2.2.2.1, hs.2.1, hs.2.2⟩
  | setOpacityPercentage w percent _ ih =>
    have hs := setOpacityPercentage_range w percent
    exact ⟨hs.1, ih.2.1, ih.2.2.1, ih.2.2.2.1, hs.2.1, hs.2.2⟩
  | setPosition w x y _ ih => exact ih
  | setRotationAngle w angle _ ih => exact ih

/-- C22, witness: the default watermark after `setColor(Color(10, 20, 30, 40))`,
`setOpacity(2)` and `setOpacityPercentage(-7)`. -/
theorem C22_ranges_kept_witness :
    opacityInRange
      (((Watermark.ctor.setColor ⟨10, 20, 30, 40⟩).setOpacity 2).setOpacityPercentage
        (-7)).getOpacity ∧
    (((Watermark.ctor.setColor ⟨10, 20, 30, 40⟩).setOpacity 2).setOpacityPercentage
        (-7)).getColor.inRange :=
  (C22_ranges_kept _
    (Watermark.ObtainableWhere.setOpacityPercentage _ _
      (Watermark.ObtainableWhere.setOpacity _ _
        (Watermark.ObtainableWhere.setColor _ _ Watermark.ObtainableWhere.ctor
          (by unfold Color.inRange; decide))))).1

/-- C23: the default-constructed watermark has the text `Sample Watermark`, the font
`Arial`, size 24, neither bold nor italic, the colour black (0, 0, 0) with alpha 128,
opacity 0.5 (50 percent), position (0, 0) and rotation angle 0; and `resetToDefault()`
turns every watermark into a value equal to it in every field. -/
theorem C23_defaults_and_reset (w : Watermark) :
    Watermark.ctor.getText = "Sample Watermark".toList ∧
    Watermark.ctor.getFontName = "Arial".toList ∧
    Watermark.ctor.getFontSize = 24 ∧
    Watermark.ctor.getBold = false ∧
    Watermark.ctor.getItalic = false ∧
    Watermark.ctor.getColor = ⟨0, 0, 0, 128⟩ ∧
    Watermark.ctor.getOpacity = 1 / 2 ∧
    Watermark.ctor.getOpacityPercentage = 50 ∧
    Watermark.ctor.getPositionX = 0 ∧
    Watermark.ctor.getPositionY = 0 ∧
    Watermark.ctor.getRotationAngle = 0 ∧
    w.resetToDefault = Watermark.ctor ∧
    w.resetToDefault.getText = Watermark.ctor.getText ∧
    w.resetToDefault.getFontName = Watermark.ctor.getFontName ∧
    w.resetToDefault.getFontSize = Watermark.ctor.getFontSize ∧
    w.resetToDefault.getBold = Watermark.ctor.getBold ∧
    w.resetToDefault.getItalic = Watermark.ctor.getItalic ∧
    w.resetToDefault.getColor = Watermark.ctor.getColor ∧
    w.resetToDefault.getOpacity = Watermark.ctor.getOpacity ∧
    w.resetToDefault.getPositionX = Watermark.ctor.getPositionX ∧
    w.resetToDefault.getPositionY = Watermark.ctor.getPositionY ∧
    w.resetToDefault.getRotationAngle = Watermark.ctor.getRotationAngle := by
  refine ⟨rfl, rfl, rfl, rfl, rfl, rfl, rfl, ?_, rfl, rfl, rfl, rfl, rfl, rfl, rfl, rfl, rfl,
    rfl, rfl, rfl, rfl, rfl⟩
  with_unfolding_all decide

/-! ## FileHandler: supported formats and folder import -/

theorem getFileExtensionOfPath_eq (filePath : Str) :
    FileHandler.getFileExtensionOfPath filePath = (extensionText filePath).getD [] := by
  unfold FileHandler.getFileExtensionOfPath extensionText
  simp only []
  split <;> rename_i h <;> rw [h] <;> rfl

theorem isSupportedImageFormat_iff (filePath : Str) :
    FileHandler.isSupportedImageFormat filePath = true ↔
      ∃ ext, extensionText filePath = some ext ∧
        ∃ e ∈ supportedExtensions, equalsIgnoringCase ext e = true := by
  unfold FileHandler.isSupportedImageFormat
  simp only [getFileExtensionOfPath_eq]
  have e1 : List.map Char.toLower ".jpg".toList = ".jpg".toList := by decide
  have e2 : List.map Char.toLower ".jpeg".toList = ".jpeg".toList := by decide
  have e3 : List.map Char.toLower ".png".toList = ".png".toList := by decide
  have e4 : List.map Char.toLower ".bmp".toList = ".bmp".toList := by decide
  cases h : extensionText filePath with
  | none =>
    constructor
    · intro hs
      revert hs
      decide
    · rintro ⟨ext, hext, _⟩
      cases hext
  | some ext =>
    have hmap : List.map tolower ext = List.map Char.toLower ext := rfl
    simp only [Option.getD_some, hmap, Bool.or_eq_true, beq_iff_eq]
    constructor
    · intro hs
      refine ⟨ext, rfl, ?_⟩
      unfold equalsIgnoringCase supportedExtensions
      rcases hs with ((hs | hs) | hs) | hs
      · exact ⟨".jpg".toList, by decide, by rw [e1, hs]; simp⟩
      · exact ⟨".jpeg".toList, by decide, by rw [e2, hs]; simp⟩
      · exact ⟨".png".toList, by decide, by rw [e3, hs]; simp⟩
      · exact ⟨".bmp".toList, by decide, by rw [e4, hs]; simp⟩
    · rintro ⟨ext2, hext, e, he, heq⟩
      cases hext
      unfold equalsIgnoringCase at heq
      rw [beq_iff_eq] at heq
      unfold supportedExtensions at he
      simp only [List.mem_cons, List.mem_singleton, List.not_mem_nil, or_false] at he
      rcases he with he | he | he | he
      · subst he
        rw [e1] at heq
        exact Or.inl (Or.inl (Or.inl heq))
      · subst he
        rw [e2] at heq
        exact Or.inl (Or.inl (Or.inr heq))
      · subst he
        rw [e3] at heq
        exact Or.inl (Or.inr heq)
      · subst he
        rw [e4] at heq
        exact Or.inr heq

theorem importFolderLoop_mem (entries : List RecursiveEntry) (filePaths : List Str) (p : Str)
    (h : p ∈ FileHandler.importFolderLoop entries filePaths) :
    p ∈ filePaths ∨ FileHandler.isSupportedImageFormat p = true := by
  induction entries generalizing filePaths with
  | nil => exact Or.inl h
  | cons entry rest ih =>
    unfold FileHandler.importFolderLoop at h
    split at h
    · rename_i hc
      rcases ih _ h with h1 | h1
      · rcases List.mem_append.1 h1 with h2 | h2
        · exact Or.inl h2
        · right
          rw [List.mem_singleton] at h2
          rw [h2]
          simp only [Bool.and_eq_true] at hc
          exact hc.2
      · exact Or.inr h1
    · exact ih _ h

theorem gif_not_supported (ext : Str) (h : equalsIgnoringCase ext ".gif".toList = true) :
    ∀ e ∈ supportedExtensions, equalsIgnoringCase ext e = false := by
  intro e he
  unfold equalsIgnoringCase at h ⊢
  rw [beq_iff_eq] at h
  rw [h]
  unfold supportedExtensions at he
  simp only [List.mem_cons, List.mem_singleton, List.not_mem_nil, or_false] at he
  rcases he with he | he | he | he <;> subst he <;> decide

/-- C24: `isSupportedImageFormat(path)` is true exactly when the file name of the path has
a `.` and the text from its last `.`, compared ignoring letter case, is one of `.jpg`,
`.jpeg`, `.png`, `.bmp`.  A path without extension and a path whose extension is `.gif`
in any letter case are rejected, every path returned by `importFolder` is a supported one
and so none of them has the extension `.gif`; `photo.JPG` and `photo.Png` are accepted. -/
theorem C24_supported_formats (filePath : Str) :
    (FileHandler.isSupportedImageFormat filePath = true ↔
      ∃ ext, extensionText filePath = some ext ∧
        ∃ e ∈ supportedExtensions, equalsIgnoringCase ext e = true) ∧
    (extensionText filePath = none → FileHandler.isSupportedImageFormat filePath = false) ∧
    (∀ ext, extensionText filePath = some ext →
      equalsIgnoringCase ext ".gif".toList = true →
      FileHandler.isSupportedImageFormat filePath = false) ∧
    (∀ (W : Type) (env : ImportEnv W) (w : W) (initialDirectory : Str),
      ∀ p ∈ FileHandler.importFolder env w initialDirectory,
        FileHandler.isSupportedImageFormat p = true ∧
        ∀ ext, extensionText p = some ext →
          equalsIgnoringCase ext ".gif".toList = false) ∧
    FileHandler.isSupportedImageFormat "C:\\pics\\photo.JPG".toList = true ∧
    FileHandler.isSupportedImageFormat "photo.Png".toList = true ∧
    FileHandler.isSupportedImageFormat "C:\\pics\\x.jpeg".toList = true ∧
    FileHandler.isSupportedImageFormat "C:\\pics\\x.BMP".toList = true ∧
    FileHandler.isSupportedImageFormat "C:\\pics\\anim.gif".toList = false ∧
    FileHandler.isSupportedImageFormat "C:\\pics\\anim.GIF".toList = false ∧
    FileHandler.isSupportedImageFormat "C:\\pics\\README".toList = false ∧
    FileHandler.isSupportedImageFormat "C:\\pics.jpg\\README".toList = false ∧
    FileHandler.importFolder demoImportEnv () [] =
      ["C:\\pics\\photo.JPG".toList, "C:\\pics\\sub.png\\b.Png".toList] := by
  have hgif : ∀ (p ext : Str), extensionText p = some ext →
      equalsIgnoringCase ext ".gif".toList = true →
      FileHandler.isSupportedImageFormat p = false := by
    intro p ext hext hg
    cases hs : FileHandler.isSupportedImageFormat p with
    | false => rfl
    | true =>
      obtain ⟨ext2, hext2, e, he, heq⟩ := (isSupportedImageFormat_iff p).1 hs
      rw [hext] at hext2
      cases hext2
      rw [gif_not_supported ext hg e he] at heq
      cases heq
  refine ⟨isSupportedImageFormat_iff filePath, ?_, hgif filePath, ?_, by decide, by decide,
    by decide, by decide, by decide, by decide, by decide, by decide, by decide⟩
  · intro hnone
    cases hs : FileHandler.isSupportedImageFormat filePath with
    | false => rfl
    | true =>
      obtain ⟨ext, hext, _⟩ := (isSupportedImageFormat_iff filePath).1 hs
      rw [hnone] at hext
      cases hext
  · intro W env w initialDirectory p hp
    have hsup : FileHandler.isSupportedImageFormat p = true := by
      unfold FileHandler.importFolder at hp
      split at hp
      · cases hp
      · split at hp
        · rcases importFolderLoop_mem _ _ p hp with h1 | h1
          · cases h1
          · exact h1
        · cases hp
    refine ⟨hsup, ?_⟩
    intro ext hext
    cases hg : equalsIgnoringCase ext ".gif".toList with
    | false => rfl
    | true =>
      rw [hgif p ext hext hg] at hsup
      cases hsup

/-! ## TemplateManager: the default template -/

/-- Where the guard of `deleteTemplate` works: a name whose sanitized form is not empty
and is the stored default name is refused, and manager and world stay as they were. -/
theorem deleteTemplate_default_refused {W : Type} (env : TemplateEnv W) (tm : TemplateManager)
    (name : Str) (w : W)
    (h : TemplateManager.sanitizeTemplateName name = tm.defaultTemplateName) :
    tm.deleteTemplate env name w = (false, tm, w) := by
  unfold TemplateManager.deleteTemplate
  simp only [h]
  split
  · rfl
  · simp

/-- C25: a fresh manager saves a template under the name `My:Logo` (key and file stem
`MyLogo`) and `setDefaultTemplate("My:Logo")` makes it the default: the stored default
name is the unsanitized `My:Logo`, and `loadDefaultTemplate` loads the template.
`deleteTemplate("My:Logo")` then compares the sanitized `MyLogo` with the stored
`My:Logo`, finds them different, returns `true` and removes both the file `MyLogo.tpl`
and the in-memory entry; afterwards `loadDefaultTemplate` fails. -/
theorem C25_default_template_deleted :
    (demoManager.saveTemplate demoTemplateEnv "My:Logo".toList demoWatermark "demo".toList
      demoDiskEmpty).1 = true ∧
    demoDefaultSet.1.getDefaultTemplate = "My:Logo".toList ∧
    mapFind demoDefaultSet.1.templates "MyLogo".toList = some demoWatermark ∧
    demoTemplateEnv.fsExists demoDefaultSet.2 ".\\Templates\\MyLogo.tpl".toList = true ∧
    (demoDefaultSet.1.loadDefaultTemplate demoTemplateEnv Watermark.ctor demoDefaultSet.2).1
      = true ∧
    (demoDefaultSet.1.loadDefaultTemplate demoTemplateEnv Watermark.ctor demoDefaultSet.2).2.1
      = demoWatermark ∧
    demoDefaultDeleted.1 = true ∧
    demoDefaultDeleted.2.1.getDefaultTemplate = "My:Logo".toList ∧
    mapFind demoDefaultDeleted.2.1.templates "MyLogo".toList = none ∧
    demoTemplateEnv.fsExists demoDefaultDeleted.2.2 ".\\Templates\\MyLogo.tpl".toList
      = false ∧
    (demoDefaultDeleted.2.1.loadDefaultTemplate demoTemplateEnv Watermark.ctor
      demoDefaultDeleted.2.2).1 = false := by
  refine ⟨?_, ?_, ?_, ?_, ?_, ?_, ?_, ?_, ?_, ?_, ?_⟩ <;> with_unfolding_all decide

/-! ## ImageProcessor: the pivot of the text placement -/

theorem roundHalfEven_intCast (m : Int) : roundHalfEven (m : ℚ) = m := by
  simp [roundHalfEven]

theorem roundHalfEven_neg (q : ℚ) : roundHalfEven (-q) = -roundHalfEven q := by
  unfold roundHalfEven
  by_cases hq : (Int.floor q : ℚ) = q
  · have h1 : Int.floor (-q) = -Int.floor q := by
      rw [← hq]
      rw [← Int.cast_neg, Int.floor_intCast, Int.floor_intCast]
    simp only [h1]
    have h2 : q - (Int.floor q : ℚ) = 0 := by rw [hq]; ring
    have h3 : -q - ((-Int.floor q : Int) : ℚ) = 0 := by push_cast; rw [hq]; ring
    rw [h2, h3]
    have hlt : (0 : ℚ) < 1 / 2 := by norm_num
    simp only [hlt, if_true]
  · have hlt : (Int.floor q : ℚ) < q := lt_of_le_of_ne (Int.floor_le q) hq
    have hlt2 : q < (Int.floor q : ℚ) + 1 := Int.lt_floor_add_one q
    have h1 : Int.floor (-q) = -Int.floor q - 1 := by
      rw [Int.floor_eq_iff]
      push_cast
      constructor <;> linarith
    simp only [h1]
    have e1 : -q - ((-Int.floor q - 1 : Int) : ℚ) = 1 - (q - (Int.floor q : ℚ)) := by
      push_cast; ring
    rw [e1]
    generalize hr : q - (Int.floor q : ℚ) = r
    have hr0 : 0 < r := by rw [← hr]; linarith
    rcases lt_trichotomy r (1 / 2) with h | h | h
    · have n1 : ¬ (1 - r < 1 / 2) := by linarith
      have n2 : (1 / 2 : ℚ) < 1 - r := by linarith
      simp only [h, n1, n2, if_true, if_false]
      ring
    · have n1 : ¬ (1 - r < 1 / 2) := by rw [h]; norm_num
      have n2 : ¬ ((1 / 2 : ℚ) < 1 - r) := by rw [h]; norm_num
      have n3 : ¬ (r < 1 / 2) := by rw [h]; norm_num
      have n4 : ¬ ((1 / 2 : ℚ) < r) := by rw [h]; norm_num
      simp only [n1, n2, n3, n4, if_false]
      by_cases hev : Int.floor q % 2 = 0
      · have : ¬ ((-Int.floor q - 1) % 2 = 0) := by omega
        simp only [hev, this, if_true, if_false]
        ring
      · have : (-Int.floor q - 1) % 2 = 0 := by omega
        simp only [hev, this, if_true, if_false]
        ring
    · have n1 : (1 - r < 1 / 2) := by linarith
      have n3 : ¬ (r < 1 / 2) := by linarith
      simp only [h, n1, n3, if_true, if_false]
      ring

theorem binary32Exponent_neg (q : ℚ) : binary32Exponent (-q) = binary32Exponent q := by
  unfold binary32Exponent
  rw [abs_neg]

/-- Rounding to binary32 commutes with the change of sign. -/
theorem roundBinary32_neg (q : ℚ) : roundBinary32 (-q) = -roundBinary32 q := by
  unfold roundBinary32
  rw [binary32Exponent_neg, neg_div, roundHalfEven_neg]
  push_cast
  ring

theorem binary32Exponent_natCast (n e : ℕ) (h1 : 2 ^ e ≤ n) (h2 : n < 2 ^ (e + 1)) :
    binary32Exponent (n : ℚ) = e := by
  unfold binary32Exponent
  rw [abs_of_nonneg (by positivity), Int.log_natCast,
    Nat.log_eq_of_pow_le_of_lt_pow h1 h2]
  omega

/-- A value `m * 2^(e - 23)` with an integer `m`, where `e` is the binary exponent of the
value, is not changed by the rounding. -/
theorem roundBinary32_of_multiple (q : ℚ) (m : Int)
    (h : q = (m : ℚ) * (2 : ℚ) ^ (binary32Exponent q - 23)) : roundBinary32 q = q := by
  have hpos : (0 : ℚ) < (2 : ℚ) ^ (binary32Exponent q - 23) := by positivity
  have hdiv : q / (2 : ℚ) ^ (binary32Exponent q - 23) = (m : ℚ) := by
    rw [div_eq_iff hpos.ne']
    exact h
  unfold roundBinary32
  rw [hdiv, roundHalfEven_intCast]
  exact h.symm

/-- A natural number `n` with `2^e ≤ n < 2^(e+1)`, `e < 128`, that is an integer multiple
of `2^(e - 23)` is a binary32 number. -/
theorem isBinary32_natCast (n e : ℕ) (m : Int) (h1 : 2 ^ e ≤ n) (h2 : n < 2 ^ (e + 1))
    (he : e < 128) (hm : (n : ℚ) = (m : ℚ) * (2 : ℚ) ^ ((e : Int) - 23)) :
    isBinary32 (n : ℚ) := by
  refine ⟨?_, ?_⟩
  · apply roundBinary32_of_multiple _ m
    rw [binary32Exponent_natCast n e h1 h2]
    exact hm
  · rw [abs_of_nonneg (by positivity)]
    have h3 : n < 2 ^ 128 :=
      lt_of_lt_of_le h2 (Nat.pow_le_pow_right (by norm_num) (by omega))
    exact_mod_cast h3

theorem roundBinary32_zero : roundBinary32 0 = 0 := by
  simp [roundBinary32, roundHalfEven]

/-- The conversion of the `int` 16777217 = 2^24 + 1 to `float` gives 16777216: the value
lies half-way between two binary32 numbers and the tie goes to the even significand. -/
theorem roundBinary32_16777217 : roundBinary32 16777217 = 16777216 := by
  have he := binary32Exponent_natCast 16777217 24 (by norm_num) (by norm_num)
  have hf : Int.floor ((16777217 : ℚ) / 2) = 8388608 := by
    rw [Int.floor_eq_iff]
    norm_num
  unfold roundBinary32
  norm_num at he
  rw [he]
  norm_num [roundHalfEven, hf]

/-- The placement computed for the position (16777217, 0) and a measured box of 100 by
20: the translation handed to `TranslateTransform` is (16777266, 10) and the point handed
to `DrawString` is (-50, -10). -/
theorem textPlacement_large_position :
    ImageProcessor.textPlacement (Watermark.ctor.setPosition 16777217 0) 100 20
      = { translateX := 16777266, translateY := 10, rotateAngle := 0,
          originX := -50, originY := -10 } := by
  have h50 : roundBinary32 50 = 50 := by
    have h := (isBinary32_natCast 50 5 (50 * 2 ^ 18) (by norm_num) (by norm_num) (by norm_num)
      (by norm_num)).1
    norm_num at h
    exact h
  have h10 : roundBinary32 10 = 10 := by
    have h := (isBinary32_natCast 10 3 (10 * 2 ^ 20) (by norm_num) (by norm_num) (by norm_num)
      (by norm_num)).1
    norm_num at h
    exact h
  have hsum : roundBinary32 16777266 = 16777266 := by
    have h := (isBinary32_natCast 16777266 24 8388633 (by norm_num) (by norm_num)
      (by norm_num) (by norm_num)).1
    norm_num at h
    exact h
  have e1 : ((Watermark.ctor.setPosition 16777217 0).getPositionX : ℚ) = 16777217 := by
    simp [Watermark.setPosition, Watermark.getPositionX]
  have e2 : ((Watermark.ctor.setPosition 16777217 0).getPositionY : ℚ) = 0 := by
    simp [Watermark.setPosition, Watermark.getPositionY]
  have e3 : (Watermark.ctor.setPosition 16777217 0).getRotationAngle = 0 := rfl
  have n50 : roundBinary32 (-100 / 2) = -50 := by
    have : (-100 / 2 : ℚ) = -50 := by norm_num
    rw [this, roundBinary32_neg, h50]
  have n10 : roundBinary32 (-20 / 2) = -10 := by
    have : (-20 / 2 : ℚ) = -10 := by norm_num
    rw [this, roundBinary32_neg, h10]
  have p50 : roundBinary32 (100 / 2) = 50 := by
    have : (100 / 2 : ℚ) = 50 := by norm_num
    rw [this, h50]
  have p10 : roundBinary32 (20 / 2) = 10 := by
    have : (20 / 2 : ℚ) = 10 := by norm_num
    rw [this, h10]
  unfold ImageProcessor.textPlacement
  rw [e1, e2, e3, n50, n10, p50, p10, roundBinary32_16777217, roundBinary32_zero]
  have s1 : (16777216 + 50 : ℚ) = 16777266 := by norm_num
  have s2 : (0 + 10 : ℚ) = 10 := by norm_num
  rw [s1, s2, hsum, h10]

/-- C26, as stated, fails.  For the position x = 16777217 = 2^24 + 1, y = 0 and a measured
text box of 100 by 20 the `int` position is converted to the `float` 16777216, so
`TranslateTransform` receives 16777266 and not the pivot abscissa x + w/2 = 16777267;
with rotation angle 0 the top-left corner of the text box is mapped to (16777216, 0), not
to (x, y). -/
theorem C26_counterexample_large_position :
    (Watermark.ctor.setPosition 16777217 0).getPositionX = 16777217 ∧
    (Watermark.ctor.setPosition 16777217 0).getRotationAngle = 0 ∧
    (ImageProcessor.textPlacement (Watermark.ctor.setPosition 16777217 0) 100 20).translateX
      = 16777266 ∧
    (ImageProcessor.textPlacement (Watermark.ctor.setPosition 16777217 0) 100 20).translateX
      ≠ ((Watermark.ctor.setPosition 16777217 0).getPositionX : ℚ) + 100 / 2 ∧
    (ImageProcessor.textPlacement (Watermark.ctor.setPosition 16777217 0) 100 20).toDevice
        (((ImageProcessor.textPlacement (Watermark.ctor.setPosition 16777217 0) 100
            20).originX : ℝ),
          ((ImageProcessor.textPlacement (Watermark.ctor.setPosition 16777217 0) 100
            20).originY : ℝ))
      = (16777216, 0) ∧
    (ImageProcessor.textPlacement (Watermark.ctor.setPosition 16777217 0) 100 20).toDevice
        (((ImageProcessor.textPlacement (Watermark.ctor.setPosition 16777217 0) 100
            20).originX : ℝ),
          ((ImageProcessor.textPlacement (Watermark.ctor.setPosition 16777217 0) 100
            20).originY : ℝ))
      ≠ ((((Watermark.ctor.setPosition 16777217 0).getPositionX : Int) : ℝ),
          (((Watermark.ctor.setPosition 16777217 0).getPositionY : Int) : ℝ)) := by
  have hx : (Watermark.ctor.setPosition 16777217 0).getPositionX = 16777217 := rfl
  have hy : (Watermark.ctor.setPosition 16777217 0).getPositionY = 0 := rfl
  have hdev : (ImageProcessor.textPlacement (Watermark.ctor.setPosition 16777217 0) 100
        20).toDevice
        (((ImageProcessor.textPlacement (Watermark.ctor.setPosition 16777217 0) 100
            20).originX : ℝ),
          ((ImageProcessor.textPlacement (Watermark.ctor.setPosition 16777217 0) 100
            20).originY : ℝ))
      = (16777216, 0) := by
    rw [textPlacement_large_position]
    simp only [TextPlacement.toDevice]
    refine Prod.ext ?_ ?_ <;> norm_num
  refine ⟨rfl, rfl, ?_, ?_, hdev, ?_⟩
  · rw [textPlacement_large_position]
  · rw [textPlacement_large_position, hx]
    norm_num
  · rw [hdev, hx, hy]
    intro h
    have h1 := congrArg Prod.fst h
    norm_num at h1

/-- C26, amended: let the position (x, y) and the measured box w by h be such that x, y,
w/2, h/2 and the sums x + w/2, y + h/2 are binary32 numbers (so that no `float`
operation of the placement rounds).  Then `TranslateTransform` receives the pivot
(x + w/2, y + h/2), `RotateTransform` the rotation angle of the watermark and `DrawString`
the point (-w/2, -h/2); the map these calls denote sends the centre of the text box to
the pivot for every rotation angle, sends the point at offset (a, b) from the centre to
the pivot plus (a, b) rotated by the angle, and with rotation angle 0 sends the top-left
corner of the text box to (x, y). -/
theorem C26_placement_about_pivot (watermark : Watermark) (textWidth textHeight : ℚ)
    (a b : ℝ)
    (hx : isBinary32 (watermark.getPositionX : ℚ))
    (hy : isBinary32 (watermark.getPositionY : ℚ))
    (hw : isBinary32 (textWidth / 2)) (hh : isBinary32 (textHeight / 2))
    (hsx : isBinary32 ((watermark.getPositionX : ℚ) + textWidth / 2))
    (hsy : isBinary32 ((watermark.getPositionY : ℚ) + textHeight / 2)) :
    (ImageProcessor.textPlacement watermark textWidth textHeight).translateX
      = (watermark.getPositionX : ℚ) + textWidth / 2 ∧
    (ImageProcessor.textPlacement watermark textWidth textHeight).translateY
      = (watermark.getPositionY : ℚ) + textHeight / 2 ∧
    (ImageProcessor.textPlacement watermark textWidth textHeight).rotateAngle
      = watermark.getRotationAngle ∧
    (ImageProcessor.textPlacement watermark textWidth textHeight).originX
      = -(textWidth / 2) ∧
    (ImageProcessor.textPlacement watermark textWidth textHeight).originY
      = -(textHeight / 2) ∧
    (ImageProcessor.textPlacement watermark textWidth textHeight).toDevice
        (((ImageProcessor.textPlacement watermark textWidth textHeight).originX : ℝ)
            + (textWidth : ℝ) / 2,
          ((ImageProcessor.textPlacement watermark textWidth textHeight).originY : ℝ)
            + (textHeight : ℝ) / 2)
      = ((watermark.getPositionX : ℝ) + (textWidth : ℝ) / 2,
          (watermark.getPositionY : ℝ) + (textHeight : ℝ) / 2) ∧
    (ImageProcessor.textPlacement watermark textWidth textHeight).toDevice
        (((ImageProcessor.textPlacement watermark textWidth textHeight).originX : ℝ)
            + (textWidth : ℝ) / 2 + a,
          ((ImageProcessor.textPlacement watermark textWidth textHeight).originY : ℝ)
            + (textHeight : ℝ) / 2 + b)
      = ((watermark.getPositionX : ℝ) + (textWidth : ℝ) / 2
            + (a * Real.cos ((watermark.getRotationAngle : ℝ) * Real.pi / 180)
              - b * Real.sin ((watermark.getRotationAngle : ℝ) * Real.pi / 180)),
          (watermark.getPositionY : ℝ) + (textHeight : ℝ) / 2
            + (a * Real.sin ((watermark.getRotationAngle : ℝ) * Real.pi / 180)
              + b * Real.cos ((watermark.getRotationAngle : ℝ) * Real.pi / 180))) ∧
    (ImageProcessor.textPlacement (watermark.setRotationAngle 0) textWidth textHeight).toDevice
        (((ImageProcessor.textPlacement (watermark.setRotationAngle 0) textWidth
            textHeight).originX : ℝ),
          ((ImageProcessor.textPlacement (watermark.setRotationAngle 0) textWidth
            textHeight).originY : ℝ))
      = ((watermark.getPositionX : ℝ), (watermark.getPositionY : ℝ)) := by
  have hnw : roundBinary32 (-textWidth / 2) = -(textWidth / 2) := by
    rw [neg_div, roundBinary32_neg, hw.1]
  have hnh : roundBinary32 (-textHeight / 2) = -(textHeight / 2) := by
    rw [neg_div, roundBinary32_neg, hh.1]
  have hpl : ImageProcessor.textPlacement watermark textWidth textHeight
      = { translateX := (watermark.getPositionX : ℚ) + textWidth / 2
          translateY := (watermark.getPositionY : ℚ) + textHeight / 2
          rotateAngle := watermark.getRotationAngle
          originX := -(textWidth / 2)
          originY := -(textHeight / 2) } := by
    unfold ImageProcessor.textPlacement
    rw [hx.1, hy.1, hw.1, hh.1, hsx.1, hsy.1, hnw, hnh]
  have hpl0 : ImageProcessor.textPlacement (watermark.setRotationAngle 0) textWidth textHeight
      = { translateX := (watermark.getPositionX : ℚ) + textWidth / 2
          translateY := (watermark.getPositionY : ℚ) + textHeight / 2
          rotateAngle := 0
          originX := -(textWidth / 2)
          originY := -(textHeight / 2) } := by
    have hx0 : (watermark.setRotationAngle 0).getPositionX = watermark.getPositionX := rfl
    have hy0 : (watermark.setRotationAngle 0).getPositionY = watermark.getPositionY := rfl
    have ha0 : (watermark.setRotationAngle 0).getRotationAngle = 0 := rfl
    unfold ImageProcessor.textPlacement
    rw [hx0, hy0, ha0, hx.1, hy.1, hw.1, hh.1, hsx.1, hsy.1, hnw, hnh]
  rw [hpl, hpl0]
  refine ⟨rfl, rfl, rfl, rfl, rfl, ?_, ?_, ?_⟩
  · simp only [TextPlacement.toDevice]
    refine Prod.ext ?_ ?_ <;> push_cast <;> ring
  · simp only [TextPlacement.toDevice]
    refine Prod.ext ?_ ?_ <;> push_cast <;> ring
  · simp only [TextPlacement.toDevice]
    refine Prod.ext ?_ ?_ <;> push_cast <;> simp

/-- C26, witness: the watermark `demoWatermark` at position (5, 6) with rotation 90 and a
measured text box of 100 by 20. -/
theorem C26_placement_about_pivot_witness :
    (ImageProcessor.textPlacement demoWatermark 100 20).translateX = 55 ∧
    (ImageProcessor.textPlacement demoWatermark 100 20).translateY = 16 ∧
    (ImageProcessor.textPlacement demoWatermark 100 20).rotateAngle = 90 ∧
    (ImageProcessor.textPlacement demoWatermark 100 20).originX = -50 ∧
    (ImageProcessor.textPlacement demoWatermark 100 20).originY = -10 := by
  have e5 : ((demoWatermark.getPositionX : Int) : ℚ) = ((5 : ℕ) : ℚ) := by
    simp [demoWatermark, Watermark.ctor10, Watermark.getPositionX]
  have e6 : ((demoWatermark.getPositionY : Int) : ℚ) = ((6 : ℕ) : ℚ) := by
    simp [demoWatermark, Watermark.ctor10, Watermark.getPositionY]
  have e50 : (100 / 2 : ℚ) = ((50 : ℕ) : ℚ) := by norm_num
  have e10 : (20 / 2 : ℚ) = ((10 : ℕ) : ℚ) := by norm_num
  have e55 : ((demoWatermark.getPositionX : Int) : ℚ) + 100 / 2 = ((55 : ℕ) : ℚ) := by
    rw [e5]
    norm_num
  have e16 : ((demoWatermark.getPositionY : Int) : ℚ) + 20 / 2 = ((16 : ℕ) : ℚ) := by
    rw [e6]
    norm_num
  have b5 : isBinary32 ((demoWatermark.getPositionX : Int) : ℚ) := by
    rw [e5]
    exact isBinary32_natCast 5 2 (5 * 2 ^ 21) (by norm_num) (by norm_num) (by norm_num)
      (by norm_num)
  have b6 : isBinary32 ((demoWatermark.getPositionY : Int) : ℚ) := by
    rw [e6]
    exact isBinary32_natCast 6 2 (6 * 2 ^ 21) (by norm_num) (by norm_num) (by norm_num)
      (by norm_num)
  have b50 : isBinary32 (100 / 2 : ℚ) := by
    rw [e50]
    exact isBinary32_natCast 50 5 (50 * 2 ^ 18) (by norm_num) (by norm_num) (by norm_num)
      (by norm_num)
  have b10 : isBinary32 (20 / 2 : ℚ) := by
    rw [e10]
    exact isBinary32_natCast 10 3 (10 * 2 ^ 20) (by norm_num) (by norm_num) (by norm_num)
      (by norm_num)
  have b55 : isBinary32 (((demoWatermark.getPositionX : Int) : ℚ) + 100 / 2) := by
    rw [e55]
    exact isBinary32_natCast 55 5 (55 * 2 ^ 18) (by norm_num) (by norm_num) (by norm_num)
      (by norm_num)
  have b16 : isBinary32 (((demoWatermark.getPositionY : Int) : ℚ) + 20 / 2) := by
    rw [e16]
    exact isBinary32_natCast 16 4 (16 * 2 ^ 19) (by norm_num) (by norm_num) (by norm_num)
      (by norm_num)
  have h := C26_placement_about_pivot demoWatermark 100 20 0 0 b5 b6 b50 b10 b55 b16
  refine ⟨?_, ?_, ?_, ?_, ?_⟩
  · rw [h.1, e55]
    norm_num
  · rw [h.2.1, e16]
    norm_num
  · rw [h.2.2.1]
    rfl
  · rw [h.2.2.2.1]
    norm_num
  · rw [h.2.2.2.2.1]
    norm_num

/-! ## TemplateManager: sanitizing a sanitized name -/

theorem dropWhile_of_prefix_clean (p : Char → Bool) (y q : Str)
    (h : y.dropWhile p = y) (hq : q <+: y) : q.dropWhile p = q := by
  cases q with
  | nil => rfl
  | cons a t =>
    obtain ⟨r, rfl⟩ := hq
    rw [List.dropWhile_eq_self_iff] at h ⊢
    intro _
    have := h (by simp)
    simpa using this

theorem trimRight_initial (s : Str) : trimRight s <+: s := List.rdropWhile_prefix isBlank s

theorem trimRight_idempotent (s : Str) : trimRight (trimRight s) = trimRight s :=
  List.rdropWhile_idempotent isBlank s

theorem sanitizeReference_of_clean (s : Str)
    (hfilter : s.filter (fun c => !forbiddenNameChars.contains c) = s)
    (hclean : s.dropWhile isBlank = s) (hlen : s.length ≤ 50) :
    sanitizeReference s = trimRight s := by
  have hlen2 : (trimRight s).length ≤ 50 := le_trans (trimRight_initial s).length_le hlen
  unfold sanitizeReference
  rw [hfilter, hclean]
  exact List.take_of_length_le hlen2

theorem trimRight_eq_self_iff (s : Str) : trimRight s = s ↔ endsInBlank s = false := by
  have h := @List.rdropWhile_eq_self_iff Char isBlank s
  unfold trimRight endsInBlank
  rw [show (s.reverse.dropWhile isBlank).reverse = List.rdropWhile isBlank s from rfl, h]
  by_cases hs : s = []
  · subst hs
    simp
  · rw [List.getLast?_eq_getLast s hs]
    constructor
    · intro hl
      simpa using hl hs
    · intro hl _
      simpa using hl

/-- Sanitizing a sanitized name only removes the trailing spaces and tabs that the cut
at 50 characters may have exposed. -/
theorem sanitize_sanitize_eq (name : Str) :
    TemplateManager.sanitizeTemplateName (TemplateManager.sanitizeTemplateName name)
      = trimRight (TemplateManager.sanitizeTemplateName name) := by
  rw [sanitizeTemplateName_eq_reference (TemplateManager.sanitizeTemplateName name),
    sanitizeTemplateName_eq_reference name]
  have hpre : sanitizeReference name
      <+: (name.filter (fun c => !forbiddenNameChars.contains c)).dropWhile isBlank := by
    unfold sanitizeReference
    exact List.IsPrefix.trans ( List.take_prefix _ _) (trimRight_initial _)
  have hfilter : (sanitizeReference name).filter (fun c => !forbiddenNameChars.contains c)
      = sanitizeReference name := by
    rw [List.filter_eq_self]
    intro c hc
    have h1 := hpre.subset hc
    have h2 := (List.dropWhile_suffix isBlank).subset h1
    exact (List.mem_filter.1 h2).2
  have hclean : (sanitizeReference name).dropWhile isBlank = sanitizeReference name :=
    dropWhile_of_prefix_clean isBlank _ _ (List.dropWhile_idempotent isBlank _) hpre
  have hlen : (sanitizeReference name).length ≤ 50 := by
    unfold sanitizeReference
    exact List.length_take_le _ _
  exact sanitizeReference_of_clean _ hfilter hclean hlen

/-- C27, as stated, fails.  The name of 49 letters `a`, a space and a `b` is cut at 50
characters, which leaves the space at the end; sanitizing that result again trims the
space.  `saveTemplate` stores the template in the map under the 50-character key, while
the file it writes has the 49-character stem: the key and the file stem differ. -/
theorem C27_counterexample_cut_exposes_blank :
    TemplateManager.sanitizeTemplateName demoLongName = List.replicate 49 'a' ++ [' '] ∧
    TemplateManager.sanitizeTemplateName (TemplateManager.sanitizeTemplateName demoLongName)
      = List.replicate 49 'a' ∧
    TemplateManager.sanitizeTemplateName (TemplateManager.sanitizeTemplateName demoLongName)
      ≠ TemplateManager.sanitizeTemplateName demoLongName ∧
    (demoManager.saveTemplate demoTemplateEnv demoLongName demoWatermark "demo".toList
      demoDiskEmpty).1 = true ∧
    (demoManager.saveTemplate demoTemplateEnv demoLongName demoWatermark "demo".toList
      demoDiskEmpty).2.1.templates = [(List.replicate 49 'a' ++ [' '], demoWatermark)] ∧
    (demoManager.saveTemplate demoTemplateEnv demoLongName demoWatermark "demo".toList
      demoDiskEmpty).2.2.files.map Prod.fst
      = [".\\Templates\\".toList ++ List.replicate 49 'a' ++ ".tpl".toList] := by
  refine ⟨?_, ?_, ?_, ?_, ?_, ?_⟩ <;> with_unfolding_all decide

/-- C27, amended: sanitizing a sanitized name removes its trailing spaces and tabs and
nothing else.  So `sanitizeTemplateName(sanitizeTemplateName(name))` equals
`sanitizeTemplateName(name)` exactly when the latter does not end in a space or tab; that
is the case whenever the name, with the forbidden characters removed and trimmed, has at
most 50 characters, in particular whenever the name itself has at most 50 characters.
The file stem that `getTemplateFilePath` derives from the key `sanitizeTemplateName(name)`
is that key without its trailing spaces and tabs, and a third sanitization changes
nothing any more. -/
theorem C27_sanitize_twice (name : Str) (tm : TemplateManager) :
    TemplateManager.sanitizeTemplateName (TemplateManager.sanitizeTemplateName name)
      = trimRight (TemplateManager.sanitizeTemplateName name) ∧
    (TemplateManager.sanitizeTemplateName (TemplateManager.sanitizeTemplateName name)
        = TemplateManager.sanitizeTemplateName name ↔
      endsInBlank (TemplateManager.sanitizeTemplateName name) = false) ∧
    ((trimRight ((name.filter (fun c => !forbiddenNameChars.contains c)).dropWhile
        isBlank)).length ≤ 50 →
      TemplateManager.sanitizeTemplateName (TemplateManager.sanitizeTemplateName name)
        = TemplateManager.sanitizeTemplateName name) ∧
    (name.length ≤ 50 →
      TemplateManager.sanitizeTemplateName (TemplateManager.sanitizeTemplateName name)
        = TemplateManager.sanitizeTemplateName name) ∧
    tm.getTemplateFilePath (TemplateManager.sanitizeTemplateName name)
      = tm.templatesFolder ++ "\\".toList ++
          trimRight (TemplateManager.sanitizeTemplateName name) ++ ".tpl".toList ∧
    TemplateManager.sanitizeTemplateName
        (TemplateManager.sanitizeTemplateName (TemplateManager.sanitizeTemplateName name))
      = TemplateManager.sanitizeTemplateName (TemplateManager.sanitizeTemplateName name) := by
  have h1 := sanitize_sanitize_eq name
  have hshort : (trimRight ((name.filter (fun c => !forbiddenNameChars.contains c)).dropWhile
        isBlank)).length ≤ 50 →
      TemplateManager.sanitizeTemplateName (TemplateManager.sanitizeTemplateName name)
        = TemplateManager.sanitizeTemplateName name := by
    intro hlen
    rw [h1, sanitizeTemplateName_eq_reference name]
    have hs : sanitizeReference name
        = trimRight ((name.filter (fun c => !forbiddenNameChars.contains c)).dropWhile
            isBlank) := by
      unfold sanitizeReference
      exact List.take_of_length_le hlen
    rw [hs, trimRight_idempotent]
  refine ⟨h1, ?_, hshort, ?_, ?_, ?_⟩
  · rw [h1]
    exact trimRight_eq_self_iff _
  · intro hlen
    apply hshort
    have l1 := (trimRight_initial ((name.filter
      (fun c => !forbiddenNameChars.contains c)).dropWhile isBlank)).length_le
    have l2 := (List.dropWhile_suffix isBlank
      (l := name.filter (fun c => !forbiddenNameChars.contains c))).length_le
    have l3 := List.length_filter_le (fun c => !forbiddenNameChars.contains c) name
    omega
  · unfold TemplateManager.getTemplateFilePath
    rw [h1]
  · rw [sanitize_sanitize_eq (TemplateManager.sanitizeTemplateName name), h1,
      trimRight_idempotent]

/-! ## FileHandler: single export against batch export -/

/-- Where the two export routines agree: for a loaded surface and an output folder that
exists, `exportFile` and `batchExportFiles` on the one-element list give the same result
and leave the same state. -/
theorem exportFile_eq_batch_of_folder_exists {W : Type} (plat : Platform W) (fh : FileHandler)
    (processor : ImageProcessor) (outputFolder : Str) (rule : ExportNamingRule)
    (format : ImageFormat) (s : Sys W)
    (hl : processor.isLoaded = true) (hex : plat.fsExists s.world outputFolder = true) :
    fh.exportFile plat processor outputFolder rule format s
      = fh.batchExportFiles plat [some processor] outputFolder rule format s := by
  have hens : FileHandler.ensureOutputFolder plat s.world outputFolder = (true, s.world) := by
    simp [FileHandler.ensureOutputFolder, hex]
  have hs : ({ s with world := s.world } : Sys W) = s := rfl
  unfold FileHandler.exportFile FileHandler.batchExportFiles
  simp only [hl, hens, hs, Bool.not_true, Bool.false_eq_true, if_false,
    FileHandler.batchExportLoop, if_true]
  cases hv : FileHandler.validateOutputPath plat s.world outputFolder processor.getFilePath with
  | false => simp
  | true =>
    simp only [Bool.not_true, Bool.false_eq_true, if_false]
    cases hc : fh.chooseOutputPath plat s.world processor.getFilePath outputFolder rule format with
    | none => rfl
    | some outputFilePath =>
      simp only []
      cases hsv : (processor.saveImage plat outputFilePath format s).1 with
      | false =>
        simp only [Bool.not_false, if_true]
        rw [← hsv]
      | true =>
        simp only [Bool.not_true, Bool.false_eq_true, if_false]
        rw [← hsv]

/-- C28: the surface loaded from `C:\a\x.jpg` is exported to the folder `C:\new`, which
does not exist yet.  `exportFile` checks the output path first, `fs::canonical` fails on
the missing folder, and the routine returns `false` without creating the folder or saving
anything; `batchExportFiles` on the one-element list creates the folder first, saves
`C:\new\x.jpg` and returns `true`. -/
theorem C28_export_differs_on_new_folder :
    (demoLoad demoWorldTwoFolders "C:\\a\\x.jpg".toList).isLoaded = true ∧
    demoPlatform.fsExists demoWorldTwoFolders "C:\\new".toList = false ∧
    FileHandler.ctor.exportFile demoPlatform (demoLoad demoWorldTwoFolders "C:\\a\\x.jpg".toList)
        "C:\\new".toList ExportNamingRule.KEEP_ORIGINAL ImageFormat.JPEG
        ⟨demoWorldTwoFolders, []⟩
      = some (false, ⟨demoWorldTwoFolders, []⟩) ∧
    FileHandler.ctor.batchExportFiles demoPlatform
        [some (demoLoad demoWorldTwoFolders "C:\\a\\x.jpg".toList)]
        "C:\\new".toList ExportNamingRule.KEEP_ORIGINAL ImageFormat.JPEG
        ⟨demoWorldTwoFolders, []⟩
      = some (true, demoStateNewFolder) ∧
    demoStateNewFolder.saves.map SaveCall.filePath = ["C:\\new\\x.jpg".toList] := by
  refine ⟨by decide, by decide, ?_, ?_, by decide⟩
  · rfl
  · rfl
